import Mathlib

/-!
# fastfetch: configuration resolution and structure execution

A shallow embedding of `src/fastfetch.c`: the typed option sub-parsers, the option
parser `parseOption`, the configuration file cascade, the command line parser and the
structure dispatch loop of `main`, followed by theorems about them.

Conventions of the embedding

* A C string is the list of its characters before the terminating NUL (`CStr`); a
  `const char*` that may be `NULL` is an `Option CStr`.
* A call of `exit(n)` is an outcome `exit n` carrying the program state at that point;
  sub-parsers without access to the state return `Except Nat _`, the error being the
  exit status.
* The configuration struct `FFconfig` is a record of total maps, one per C field type,
  from field names to values.
* Text written to the error stream is not modelled; rows written to the output stream
  are modelled by the print entry point that is invoked and its arguments.
-/

set_option autoImplicit false
set_option linter.unusedVariables false

namespace Fastfetch

/-! ## C strings and the C library -/

/-- A NUL-terminated C string, represented by its characters before the terminator. -/
abbrev CStr := List Char

instance : Coe String CStr := ⟨String.toList⟩

/-- The libc `isspace` in the C locale: space, `\t`, `\n`, `\v`, `\f`, `\r`. -/
def isspace (c : Char) : Bool :=
  c.toNat = 32 || (9 ≤ c.toNat && c.toNat ≤ 13)

/-- The libc `isdigit`. -/
def isdigit (c : Char) : Bool :=
  48 ≤ c.toNat && c.toNat ≤ 57

/-- The libc `tolower` in the C locale: only `A`..`Z` are mapped. -/
def tolower (c : Char) : Char := c.toLower

/-- The libc `strlen`. -/
def strlen (s : CStr) : Nat := s.length

/-- The libc `strcasecmp`: zero when the strings are equal after `tolower`, otherwise
negative or positive as the first string is less or greater than the second at the first
difference (the C standard fixes the sign only). -/
def strcasecmp : CStr → CStr → Int
  | [], [] => 0
  | [], _ :: _ => -1
  | _ :: _, [] => 1
  | a :: as, b :: bs =>
    if tolower a = tolower b then strcasecmp as bs
    else ((tolower a).toNat : Int) - ((tolower b).toNat : Int)

/-- The libc `strncasecmp`: as `strcasecmp`, over at most `n` characters. -/
def strncasecmp : CStr → CStr → Nat → Int
  | _, _, 0 => 0
  | [], [], _ + 1 => 0
  | [], _ :: _, _ + 1 => -1
  | _ :: _, [], _ + 1 => 1
  | a :: as, b :: bs, n + 1 =>
    if tolower a = tolower b then strncasecmp as bs n
    else ((tolower a).toNat : Int) - ((tolower b).toNat : Int)

/-- The character `s[i]` of a C string, for `i ≤ strlen s`; index `strlen s` reads the
terminating NUL. -/
def charAt (s : CStr) (i : Nat) : Char := s.getD i (Char.ofNat 0)

/-- The libc `strchr` for a character other than NUL: the text before the first
occurrence of `c` and the text from that occurrence on, `none` when `c` does not occur. -/
def strchr : CStr → Char → Option (CStr × CStr)
  | [], _ => none
  | a :: as, c =>
    if a = c then some ([], a :: as)
    else match strchr as c with
      | none => none
      | some (before, fromC) => some (a :: before, fromC)

/-- Largest value of `unsigned long` (LP64). -/
def ULONG_MAX : Nat := 2 ^ 64 - 1

/-- The libc `strtoul(nptr, &end, 10)`: skips leading white space, accepts one optional
sign, converts the longest run of decimal digits; returns the value and the text at
`end`. Without any digit the value is 0 and `end` is `nptr`; a value that does not fit
is `ULONG_MAX`; a minus sign negates the value as an `unsigned long`. -/
def strtoul (nptr : CStr) : Nat × CStr :=
  let s1 := nptr.dropWhile isspace
  let neg := charAt s1 0 = '-'
  let s2 := if charAt s1 0 = '-' ∨ charAt s1 0 = '+' then s1.drop 1 else s1
  let digits := s2.takeWhile isdigit
  if digits = [] then (0, nptr)
  else
    let n := digits.foldl (fun acc c => acc * 10 + (c.toNat - 48)) 0
    let v := if n > ULONG_MAX then ULONG_MAX
             else if neg then (ULONG_MAX + 1 - n) % (ULONG_MAX + 1) else n
    (v, s2.dropWhile isdigit)

/-! ## String buffers and the value store (utilities outside `fastfetch.c`) -/

/-- Modelled from the spec: `ffStrSet` of `util/stringUtils.h` is not part of the
sources at hand; by the spec a boolean option is true for an absent and for an empty
value, so a string is "set" when it is present and not empty. -/
def ffStrSet (str : Option CStr) : Bool :=
  match str with
  | none => false
  | some s => !s.isEmpty

/-- Modelled from the spec: `ffStrbufNextIndexC` of the string buffer utilities, the
index of the first occurrence of `c` at or after `start`, the length of the buffer when
there is none. -/
def ffStrbufNextIndexC (buf : CStr) (start : Nat) (c : Char) : Nat :=
  start + ((buf.drop start).takeWhile (fun x => x ≠ c)).length

/-- Modelled from the spec: `ffStrbufContainIgnCaseS` of the string buffer utilities,
whether `str` occurs in the buffer ignoring letter case. -/
def ffStrbufContainIgnCaseS (buf : CStr) (str : CStr) : Bool :=
  (List.range (buf.length + 1)).any
    (fun i => strncasecmp (buf.drop i) str (strlen str) = 0 && i + strlen str ≤ buf.length)

/-- The record stored in the value store for `--set` and `--set-keyless`. -/
structure CustomValue where
  printKey : Bool
  value : CStr
deriving DecidableEq, Repr

/-- Modelled from the spec: `FFvaluestore` of `util/FFvaluestore.h`, an insertion-ordered
mapping from string key to record. -/
abbrev FFvaluestore := List (CStr × CustomValue)

/-- Modelled from the spec: `ffValuestoreGet`, the record stored under `key`, if any. -/
def ffValuestoreGet : FFvaluestore → CStr → Option CustomValue
  | [], _ => none
  | (k, v) :: rest, key => if k = key then some v else ffValuestoreGet rest key

/-- Modelled from the spec: `ffValuestoreSet` followed by the assignment of the record;
an existing entry is overwritten in place, a new one is added last. -/
def ffValuestoreSet : FFvaluestore → CStr → CustomValue → FFvaluestore
  | [], key, v => [(key, v)]
  | (k, old) :: rest, key, v =>
    if k = key then (k, v) :: rest else (k, old) :: ffValuestoreSet rest key v

/-! ## Typed option sub-parsers -/

/-- Source `optionParseBoolean`. -/
def optionParseBoolean (str : Option CStr) : Bool :=
  !ffStrSet str ||
  strcasecmp (str.getD []) "true" = 0 ||
  strcasecmp (str.getD []) "yes" = 0 ||
  strcasecmp (str.getD []) "on" = 0 ||
  strcasecmp (str.getD []) "1" = 0

/-- Source `optionCheckString`: exit status 477 for an absent value; reserving capacity
in the buffer does not change its content. -/
def optionCheckString (key : CStr) (value : Option CStr) (buffer : CStr) :
    Except Nat (CStr × CStr) :=
  match value with
  | none => .error 477
  | some v => .ok (v, buffer)

/-- Source `optionParseString`: the buffer is set to the value (`ffStrbufSetS`). -/
def optionParseString (key : CStr) (value : Option CStr) (buffer : CStr) : Except Nat CStr :=
  match optionCheckString key value buffer with
  | .error e => .error e
  | .ok (v, _) => .ok v

/-- Source `startsWith`. -/
def startsWith (str : CStr) (compareTo : CStr) : Bool :=
  strncasecmp str compareTo (strlen compareTo) = 0

/-- The loop of `optionParseColor`: expansion of the rest of the value, appended to the
buffer. The fuel bounds the number of iterations; every iteration consumes at least one
character. -/
def optionParseColorLoop : Nat → CStr → CStr → CStr
  | 0, _, buffer => buffer
  | fuel + 1, value, buffer =>
    if value = [] then buffer
    else if startsWith value "reset_" then
      optionParseColorLoop fuel (value.drop (strlen "reset_")) (buffer ++ "0;")
    else if startsWith value "bright_" then
      optionParseColorLoop fuel (value.drop (strlen "bright_")) (buffer ++ "1;")
    else if startsWith value "black" then
      optionParseColorLoop fuel (value.drop (strlen "black")) (buffer ++ "30")
    else if startsWith value "red" then
      optionParseColorLoop fuel (value.drop (strlen "red")) (buffer ++ "31")
    else if startsWith value "green" then
      optionParseColorLoop fuel (value.drop (strlen "green")) (buffer ++ "32")
    else if startsWith value "yellow" then
      optionParseColorLoop fuel (value.drop (strlen "yellow")) (buffer ++ "33")
    else if startsWith value "blue" then
      optionParseColorLoop fuel (value.drop (strlen "blue")) (buffer ++ "34")
    else if startsWith value "magenta" then
      optionParseColorLoop fuel (value.drop (strlen "magenta")) (buffer ++ "35")
    else if startsWith value "cyan" then
      optionParseColorLoop fuel (value.drop (strlen "cyan")) (buffer ++ "36")
    else if startsWith value "white" then
      optionParseColorLoop fuel (value.drop (strlen "white")) (buffer ++ "37")
    else
      optionParseColorLoop fuel (value.drop 1) (buffer ++ [charAt value 0])

/-- Source `optionParseColor`: after the check of the value the expansion is appended to
the buffer (`ffStrbufAppendS`, `ffStrbufAppendC`); the buffer is not cleared. -/
def optionParseColor (key : CStr) (value : Option CStr) (buffer : CStr) : Except Nat CStr :=
  match optionCheckString key value buffer with
  | .error e => .error e
  | .ok (v, buf) => .ok (optionParseColorLoop (strlen v) v buf)

/-- Source `optionParseUInt32`: exit status 480 for an absent value, 479 when the
conversion stops before the end of the value; the result is cast to `uint32_t`. -/
def optionParseUInt32 (key : CStr) (value : Option CStr) : Except Nat Nat :=
  match value with
  | none => .error 480
  | some v =>
    let r := strtoul v
    let num := r.1 % 2 ^ 32
    if r.2 ≠ [] then .error 479
    else .ok num

/-- Source `optionParseCustomValue`: exit status 411 for an absent value, 412 for a value
without `=`; otherwise the text before the first `=` is the key of the entry. -/
def optionParseCustomValue (customValues : FFvaluestore) (key : CStr) (value : Option CStr)
    (printKey : Bool) : Except Nat FFvaluestore :=
  match value with
  | none => .error 411
  | some v =>
    match strchr v '=' with
    | none => .error 412
    | some (name, separator) =>
      .ok (ffValuestoreSet customValues name ⟨printKey, separator.drop 1⟩)

/-- The loop of `optionParseEnum` over its variadic list of names and constants, here a
list of pairs: the constant of the first name equal to the requested one ignoring case,
exit status 478 when the list is exhausted. -/
def optionParseEnumArgs {α : Type} (requestedKey : CStr) : List (String × α) → Except Nat α
  | [] => .error 478
  | (key, value) :: args =>
    if strcasecmp requestedKey key = 0 then .ok value
    else optionParseEnumArgs requestedKey args

/-- Source `optionParseEnum`: exit status 476 for an absent value, then the loop. -/
def optionParseEnum {α : Type} (argumentKey : CStr) (requestedKey : Option CStr)
    (args : List (String × α)) : Except Nat α :=
  match requestedKey with
  | none => .error 476
  | some r => optionParseEnumArgs r args

/-! ## The configuration object and the parse session -/

/-- The `bool` fields of `FFconfig` written by the option parser (`logoX` is
`config.logo.x`). -/
inductive BoolField where
  | recache | multithreading | stat | allowSlowOperations | escapeBedrock | pipe
  | logoPrintRemaining | logoPreserveAspectRadio | logoChafaFgOnly
  | showErrors | disableLinewrap | hideCursor
  | cpuTemp | gpuTemp | batteryTemp | gpuHideIntegrated | gpuHideDiscrete | titleFQDN
  | shellVersion | terminalVersion | diskShowRemovable | diskShowHidden
  | diskShowSubvolumes | diskShowUnknown | bluetoothShowDisconnected
  | localIpV6First | localIpShowIpV4 | localIpShowIpV6 | localIpShowLoop
deriving DecidableEq, Repr

/-- The fields of `FFconfig` assigned from `optionParseUInt32` (`logoX` is
`config.logo.x`). -/
inductive UIntField where
  | logoWidth | logoHeight | logoPaddingTop | logoPaddingLeft | logoPaddingRight
  | logoChafaCanvasMode | logoChafaColorSpace | logoChafaDitherMode
  | publicIpTimeout | weatherTimeout | percentType
deriving DecidableEq, Repr

/-- The string buffer fields of `FFconfig` written by the option parser (`logoX` is
`config.logo.x`). -/
inductive StrField where
  | logoSource | logoChafaSymbols | separator | colorKeys | colorTitle
  | libPCI | libVulkan | libfreetype | libWayland | libXcbRandr | libXcb | libXrandr
  | libX11 | libGio | libDConf | libDBus | libXFConf | libSQLite3 | librpm
  | libImageMagick | libZ | libChafa | libEGL | libGLX | libOSMesa | libOpenCL
  | libJSONC | libwlanapi | libPulse | libnm
  | diskFolders | batteryDir | separatorString | localIpNamePrefix | osFile
  | playerName | publicIpUrl | weatherOutputFormat | commandShell
deriving DecidableEq, Repr

/-- The modules that own an argument record in `FFconfig`, named as the fields are. -/
inductive Module where
  | os | host | bios | board | chassis | kernel | uptime | processes | packages | shell
  | display | brightness | de | wifi | wm | wmTheme | theme | icons | font | cursor
  | terminal | terminalFont | cpu | cpuUsage | gpu | memory | swap | disk | battery
  | powerAdapter | locale | localIP | publicIP | weather | player | media | dateTime
  | date | time | vulkan | openGL | openCL | users | bluetooth | sound | gamepad | editor
deriving DecidableEq, Repr

/-- Source `struct FFModuleArgs`. -/
structure FFModuleArgs where
  key : CStr
  outputFormat : CStr
  errorFormat : CStr
deriving DecidableEq, Repr

/-- The constants `FF_LOGO_TYPE_*`. -/
inductive FFLogoType where
  | AUTO | BUILTIN | FILE | FILE_RAW | DATA | DATA_RAW
  | IMAGE_SIXEL | IMAGE_KITTY | IMAGE_ITERM | IMAGE_CHAFA | IMAGE_RAW | NONE
deriving DecidableEq, Repr

/-- The constants `FF_BINARY_PREFIX_TYPE_*`. -/
inductive FFBinaryPrefixType where
  | IEC | SI | JEDEC
deriving DecidableEq, Repr

/-- The constants `FF_SOUND_TYPE_*`. -/
inductive FFSoundType where
  | MAIN | ACTIVE | ALL
deriving DecidableEq, Repr

/-- The constants `FF_LOCALIP_COMPACT_TYPE_*`. -/
inductive FFLocalIpCompactType where
  | NONE | ONELINE | MULTILINE
deriving DecidableEq, Repr

/-- The constants `FF_GL_TYPE_*`. -/
inductive FFGLType where
  | AUTO | EGL | GLX | OSMESA
deriving DecidableEq, Repr

/-- Number of logo colour slots, `FASTFETCH_LOGO_MAX_COLORS`; the option parser documents
the slots as `--logo-color-[1-9]`. -/
def FASTFETCH_LOGO_MAX_COLORS : Int := 9

/-- The configuration object `instance->config`, as far as the option parser writes it. -/
structure FFconfig where
  bools : BoolField → Bool
  uints : UIntField → Nat
  strs : StrField → CStr
  logoType : FFLogoType
  logoColors : Nat → CStr
  binaryPrefixType : FFBinaryPrefixType
  soundType : FFSoundType
  localIpCompactType : FFLocalIpCompactType
  glType : FFGLType
  moduleArgs : Module → FFModuleArgs
  commandKeys : List CStr
  commandTexts : List CStr

/-- The part of `FFinstance` used here: the configuration and the directory lists of
`state.platform`. -/
structure FFinstance where
  config : FFconfig
  configDirs : List CStr
  dataDirs : List CStr

/-- Source `struct FFdata` (`structureBuf` is the field `structure`). -/
structure FFdata where
  customValues : FFvaluestore
  structureBuf : CStr
  loadUserConfig : Bool

/-- The two objects every parser function receives: `instance` and `data`. -/
structure PState where
  inst : FFinstance
  data : FFdata

/-- Result of a function that may call `exit`: it returns, or the process ends with a
status in the given state, or the model ran out of fuel. -/
inductive Outcome (σ : Type) where
  | ret (s : σ)
  | exit (status : Nat) (s : PState)
  | diverge

/-- Sequencing of a function that may call `exit`. -/
def Outcome.bind {σ τ : Type} (o : Outcome σ) (k : σ → Outcome τ) : Outcome τ :=
  match o with
  | .ret s => k s
  | .exit status s => .exit status s
  | .diverge => .diverge

/-- The exit status of the process when `main` produces the outcome; returning from
`main` is exit status 0. -/
def Outcome.exitStatus {σ : Type} : Outcome σ → Option Nat
  | .ret _ => some 0
  | .exit status _ => some status
  | .diverge => none

namespace PState

/-- Read `instance->config.<f>` for a string buffer field. -/
def str (st : PState) (f : StrField) : CStr := st.inst.config.strs f

/-- Assign a `bool` field of the configuration. -/
def setBool (st : PState) (f : BoolField) (b : Bool) : PState :=
  { st with inst := { st.inst with config := { st.inst.config with
      bools := fun g => if g = f then b else st.inst.config.bools g } } }

/-- Assign an unsigned integer field of the configuration. -/
def setUInt (st : PState) (f : UIntField) (n : Nat) : PState :=
  { st with inst := { st.inst with config := { st.inst.config with
      uints := fun g => if g = f then n else st.inst.config.uints g } } }

/-- Replace the content of a string buffer field of the configuration. -/
def setStr (st : PState) (f : StrField) (s : CStr) : PState :=
  { st with inst := { st.inst with config := { st.inst.config with
      strs := fun g => if g = f then s else st.inst.config.strs g } } }

/-- Assign `config.logo.type`. -/
def setLogoType (st : PState) (t : FFLogoType) : PState :=
  { st with inst := { st.inst with config := { st.inst.config with logoType := t } } }

/-- Replace the content of `config.logo.colors[index]`. -/
def setLogoColor (st : PState) (index : Nat) (s : CStr) : PState :=
  { st with inst := { st.inst with config := { st.inst.config with
      logoColors := fun i => if i = index then s else st.inst.config.logoColors i } } }

/-- Assign `config.binaryPrefixType`. -/
def setBinaryPrefixType (st : PState) (t : FFBinaryPrefixType) : PState :=
  { st with inst := { st.inst with config := { st.inst.config with binaryPrefixType := t } } }

/-- Assign `config.soundType`. -/
def setSoundType (st : PState) (t : FFSoundType) : PState :=
  { st with inst := { st.inst with config := { st.inst.config with soundType := t } } }

/-- Assign `config.localIpCompactType`. -/
def setLocalIpCompactType (st : PState) (t : FFLocalIpCompactType) : PState :=
  { st with inst := { st.inst with config := { st.inst.config with localIpCompactType := t } } }

/-- Assign `config.glType`. -/
def setGLType (st : PState) (t : FFGLType) : PState :=
  { st with inst := { st.inst with config := { st.inst.config with glType := t } } }

/-- Replace the argument record of a module. -/
def setModuleArgs (st : PState) (m : Module) (r : FFModuleArgs) : PState :=
  { st with inst := { st.inst with config := { st.inst.config with
      moduleArgs := fun g => if g = m then r else st.inst.config.moduleArgs g } } }

/-- Replace the list `config.commandKeys`. -/
def setCommandKeys (st : PState) (l : List CStr) : PState :=
  { st with inst := { st.inst with config := { st.inst.config with commandKeys := l } } }

/-- Replace the list `config.commandTexts`. -/
def setCommandTexts (st : PState) (l : List CStr) : PState :=
  { st with inst := { st.inst with config := { st.inst.config with commandTexts := l } } }

/-- Replace the list `state.platform.configDirs`. -/
def setConfigDirs (st : PState) (l : List CStr) : PState :=
  { st with inst := { st.inst with configDirs := l } }

/-- Replace the list `state.platform.dataDirs`. -/
def setDataDirs (st : PState) (l : List CStr) : PState :=
  { st with inst := { st.inst with dataDirs := l } }

/-- Replace the value store `data->customValues`. -/
def setCustomValues (st : PState) (vs : FFvaluestore) : PState :=
  { st with data := { st.data with customValues := vs } }

/-- Replace the content of the buffer `data->structure`. -/
def setStructure (st : PState) (s : CStr) : PState :=
  { st with data := { st.data with structureBuf := s } }

/-- Assign `data->loadUserConfig`. -/
def setLoadUserConfig (st : PState) (b : Bool) : PState :=
  { st with data := { st.data with loadUserConfig := b } }

end PState

/-- A sub-parser result used in a parser function: its exit status ends the process in
the current state, its value is stored by `k`. -/
def withParsed {α : Type} (st : PState) (e : Except Nat α) (k : α → PState) : Outcome PState :=
  match e with
  | .error status => .exit status st
  | .ok a => .ret (k a)

/-! ## Files -/

/-- The files that `fopen(path, "r")` can open, with their content. -/
abbrev FileSystem := CStr → Option (List Char)

/-- Source `ffPathExists(path, FF_PATHTYPE_FILE)`, read off the same file system. -/
def ffPathExists (fs : FileSystem) (path : CStr) : Bool := (fs path).isSome

/-- The lines that successive calls of `getline` return for a file content: each line
ends with its newline character, except possibly the last one. The second argument is
the current line read so far, reversed. -/
def getlines : List Char → List Char → List (List Char)
  | [], [] => []
  | [], c :: acc => [(c :: acc).reverse]
  | c :: cs, acc =>
    if c = '\n' then (c :: acc).reverse :: getlines cs []
    else getlines cs (c :: acc)

/-- Right trim of `parseConfigFile`: `lineEnd` moves left over white space but not past
`lineStart`. -/
def trimLineRight : List Char → List Char
  | [] => []
  | c :: rest => c :: (rest.reverse.dropWhile isspace).reverse

/-- The quote test of `parseConfigFile`: the value starts with `"` or `'`, the last
character of the line is the same character, and it is not the first one; then both are
removed. -/
def unquoteValue (valueStart : List Char) : List Char :=
  if (charAt valueStart 0 = '"' ∨ charAt valueStart 0 = Char.ofNat 39)
      ∧ valueStart.getLast? = some (charAt valueStart 0) ∧ 1 < valueStart.length
  then (valueStart.drop 1).dropLast
  else valueStart

/-- The body of the `getline` loop of `parseConfigFile` for one line; `parseOption` is
the option parser to call. Lines are taken to contain no NUL character. -/
def parseConfigLine (parseOption : PState → CStr → Option CStr → Outcome PState)
    (st : PState) (line : List Char) : Outcome PState :=
  let lineStart := line.dropWhile isspace
  if lineStart = [] ∨ charAt lineStart 0 = '#' then .ret st
  else
    let trimmed := trimLineRight lineStart
    match strchr trimmed ' ' with
    | none => parseOption st trimmed none
    | some (key, valueStart) =>
      parseOption st key (some (unquoteValue ((valueStart.drop 1).dropWhile isspace)))

/-- The `getline` loop of `parseConfigFile`. -/
def parseConfigLines (parseOption : PState → CStr → Option CStr → Outcome PState) :
    List (List Char) → PState → Outcome PState
  | [], st => .ret st
  | line :: rest, st =>
    (parseConfigLine parseOption st line).bind (parseConfigLines parseOption rest)

/-- Source `parseConfigFile`: `false` when the file cannot be opened, otherwise every
line is parsed and applied, and the result is `true`. -/
def parseConfigFile (parseOption : PState → CStr → Option CStr → Outcome PState)
    (fs : FileSystem) (st : PState) (path : CStr) : Outcome (Bool × PState) :=
  match fs path with
  | none => .ret (false, st)
  | some content =>
    (parseConfigLines parseOption (getlines content []) st).bind (fun s => .ret (true, s))

/-! ## The option parser -/

/-- Source `optionParseModuleArgs`: `false` when the key is not `--<module>-key`,
`--<module>-format` or `--<module>-error`; otherwise the field of the record is set by
`optionParseString` and the result is `true`. -/
def optionParseModuleArgs (argumentKey : CStr) (value : Option CStr) (moduleName : CStr)
    (result : FFModuleArgs) : Except Nat (Bool × FFModuleArgs) :=
  let pkey := argumentKey
  if ¬ (charAt pkey 0 = '-' ∧ charAt pkey 1 = '-') then .ok (false, result)
  else
    let pkey := pkey.drop 2
    let moduleNameLen := strlen moduleName
    if strncasecmp pkey moduleName moduleNameLen ≠ 0 then .ok (false, result)
    else
      let pkey := pkey.drop moduleNameLen
      if charAt pkey 0 ≠ '-' then .ok (false, result)
      else
        let pkey := pkey.drop 1
        if strcasecmp pkey "key" = 0 then
          match optionParseString argumentKey value result.key with
          | .error e => .error e
          | .ok s => .ok (true, { result with key := s })
        else if strcasecmp pkey "format" = 0 then
          match optionParseString argumentKey value result.outputFormat with
          | .error e => .error e
          | .ok s => .ok (true, { result with outputFormat := s })
        else if strcasecmp pkey "error" = 0 then
          match optionParseString argumentKey value result.errorFormat with
          | .error e => .error e
          | .ok s => .ok (true, { result with errorFormat := s })
        else .ok (false, result)

/-- Source `listAvailablePresets` and `listAvailableLogos`, as far as the state goes:
the suffix is appended to every data directory in place (output not modelled). -/
def appendToDataDirs (st : PState) (suffix : CStr) : PState :=
  st.setDataDirs (st.inst.dataDirs.map (fun path => path ++ suffix))

/-- Source `listConfigPaths`, as far as the state goes: the file name is appended to
every configuration directory in place (output not modelled). -/
def listConfigPaths (st : PState) : PState :=
  st.setConfigDirs (st.inst.configDirs.map (fun folder => folder ++ "fastfetch/config.conf"))

/-- Source `generateConfigFile`: the file name is built in place in the first
configuration directory; exit status 1 when the file exists and `force` is not set,
otherwise the sample is written and the exit status is 0. -/
def generateConfigFile (fs : FileSystem) (st : PState) (force : Bool) : Outcome PState :=
  let filename := st.inst.configDirs.headD [] ++ "fastfetch/config.conf"
  let st1 := st.setConfigDirs (filename :: st.inst.configDirs.drop 1)
  if !force && ffPathExists fs filename then .exit 1 st1
  else .exit 0 st1

/-- Source `optionParseConfigFile`: exit status 413 for an absent value; the value is
tried as a path, then as a preset of every data directory in list order; exit status 414
when no file can be opened. -/
def optionParseConfigFile (parseOption : PState → CStr → Option CStr → Outcome PState)
    (fs : FileSystem) (st : PState) (key : CStr) (value : Option CStr) : Outcome PState :=
  match value with
  | none => .exit 413 st
  | some v =>
    (parseConfigFile parseOption fs st v).bind fun r =>
      if r.1 then .ret r.2
      else
        let rec presets : List CStr → PState → Outcome PState
          | [], s => .exit 414 s
          | path :: rest, s =>
            (parseConfigFile parseOption fs s (path ++ "fastfetch/presets/" ++ v)).bind
              fun r => if r.1 then .ret r.2 else presets rest r.2
        presets r.2.inst.dataDirs r.2

/-- Source `parseOption`, section "Informative options"; `none` when no key of the
section matches. The text printed by these commands is not modelled. -/
def parseOptionInformative (st : PState) (key : CStr) (value : Option CStr) :
    Option (Outcome PState) :=
  if strcasecmp key "-h" = 0 ∨ strcasecmp key "--help" = 0 then some (.exit 0 st)
  else if strcasecmp key "-v" = 0 ∨ strcasecmp key "--version" = 0 then some (.exit 0 st)
  else if strcasecmp key "--version-raw" = 0 then some (.exit 0 st)
  else if startsWith key "--print" then
    let subkey := key.drop (strlen "--print")
    if strcasecmp subkey "-config-system" = 0 then some (.exit 0 st)
    else if strcasecmp subkey "-config-user" = 0 then some (.exit 0 st)
    else if strcasecmp subkey "-structure" = 0 then some (.exit 0 st)
    else if strcasecmp subkey "-logos" = 0 then some (.exit 0 st)
    else some (.exit 400 st)
  else if startsWith key "--list" then
    let subkey := key.drop (strlen "--list")
    if strcasecmp subkey "-modules" = 0 then some (.exit 0 st)
    else if strcasecmp subkey "-presets" = 0 then
      some (.exit 0 (appendToDataDirs st "fastfetch/presets/"))
    else if strcasecmp subkey "-config-paths" = 0 then some (.exit 0 (listConfigPaths st))
    else if strcasecmp subkey "-data-paths" = 0 then
      some (.exit 0 (appendToDataDirs st "fastfetch/"))
    else if strcasecmp subkey "-features" = 0 then some (.exit 0 st)
    else if strcasecmp subkey "-logos" = 0 then
      some (.exit 0 (appendToDataDirs st "fastfetch/logos/"))
    else if strcasecmp subkey "-logos-autocompletion" = 0 then some (.exit 0 st)
    else some (.exit 400 st)
  else none

/-- Source `parseOption`, section "General options"; `loadConfig` is the call of
`optionParseConfigFile`. -/
def parseOptionGeneral (loadConfig : PState → CStr → Option CStr → Outcome PState)
    (fs : FileSystem) (st : PState) (key : CStr) (value : Option CStr) :
    Option (Outcome PState) :=
  if strcasecmp key "-r" = 0 ∨ strcasecmp key "--recache" = 0 then
    some (.ret (st.setBool .recache (optionParseBoolean value)))
  else if strcasecmp key "--load-config" = 0 then
    some (loadConfig st key value)
  else if strcasecmp key "--gen-config" = 0 then
    some (generateConfigFile fs st false)
  else if strcasecmp key "--gen-config-force" = 0 then
    some (generateConfigFile fs st true)
  else if strcasecmp key "--thread" = 0 ∨ strcasecmp key "--multithreading" = 0 then
    some (.ret (st.setBool .multithreading (optionParseBoolean value)))
  else if strcasecmp key "--stat" = 0 then
    let st1 := st.setBool .stat (optionParseBoolean value)
    some (if optionParseBoolean value then .ret (st1.setBool .showErrors true) else .ret st1)
  else if strcasecmp key "--allow-slow-operations" = 0 then
    some (.ret (st.setBool .allowSlowOperations (optionParseBoolean value)))
  else if strcasecmp key "--escape-bedrock" = 0 then
    some (.ret (st.setBool .escapeBedrock (optionParseBoolean value)))
  else if strcasecmp key "--pipe" = 0 then
    some (.ret (st.setBool .pipe (optionParseBoolean value)))
  else if strcasecmp key "--load-user-config" = 0 then
    some (.ret (st.setLoadUserConfig (optionParseBoolean value)))
  else none

/-- The list of names and constants passed to `optionParseEnum` for `--logo-type`. -/
def logoTypeNames : List (String × FFLogoType) :=
  [("auto", .AUTO), ("builtin", .BUILTIN), ("file", .FILE), ("file-raw", .FILE_RAW),
   ("data", .DATA), ("data-raw", .DATA_RAW), ("sixel", .IMAGE_SIXEL),
   ("kitty", .IMAGE_KITTY), ("iterm", .IMAGE_ITERM), ("chafa", .IMAGE_CHAFA),
   ("raw", .IMAGE_RAW), ("none", .NONE)]

/-- The branches of `parseOption` that store the logo source and fix the logo type. -/
def setLogoSourceAndType (st : PState) (key : CStr) (value : Option CStr) (t : FFLogoType) :
    Outcome PState :=
  withParsed st (optionParseString key value (st.str .logoSource))
    (fun s => (st.setStr .logoSource s).setLogoType t)

/-- Source `parseOption`, section "Logo options". -/
def parseOptionLogo (st : PState) (key : CStr) (value : Option CStr) :
    Option (Outcome PState) :=
  if strcasecmp key "-l" = 0 ∨ strcasecmp key "--logo" = 0 then
    some (withParsed st (optionParseString key value (st.str .logoSource)) (fun s =>
      let st1 := st.setStr .logoSource s
      if strcasecmp (value.getD []) "none" = 0 then
        (((st1.setUInt .logoPaddingTop 0).setUInt .logoPaddingRight 0).setUInt
          .logoPaddingLeft 0).setLogoType .NONE
      else st1))
  else if startsWith key "--logo" then
    let subkey := key.drop (strlen "--logo")
    if strcasecmp subkey "-type" = 0 then
      some (withParsed st (optionParseEnum key value logoTypeNames) st.setLogoType)
    else if startsWith subkey "-color-" ∧ charAt key 13 ≠ Char.ofNat 0
        ∧ charAt key 14 = Char.ofNat 0 then
      let index : Int := ((charAt key 13).toNat : Int) - 49
      some (if index < 0 ∨ index ≥ FASTFETCH_LOGO_MAX_COLORS then .exit 472 st
        else withParsed st
          (optionParseColor key value (st.inst.config.logoColors index.toNat))
          (st.setLogoColor index.toNat))
    else if strcasecmp subkey "-width" = 0 then
      some (withParsed st (optionParseUInt32 key value) (st.setUInt .logoWidth))
    else if strcasecmp subkey "-height" = 0 then
      some (withParsed st (optionParseUInt32 key value) (st.setUInt .logoHeight))
    else if strcasecmp subkey "-padding" = 0 then
      some (withParsed st (optionParseUInt32 key value) (fun padding =>
        (st.setUInt .logoPaddingLeft padding).setUInt .logoPaddingRight padding))
    else if strcasecmp subkey "-padding-top" = 0 then
      some (withParsed st (optionParseUInt32 key value) (st.setUInt .logoPaddingTop))
    else if strcasecmp subkey "-padding-left" = 0 then
      some (withParsed st (optionParseUInt32 key value) (st.setUInt .logoPaddingLeft))
    else if strcasecmp subkey "-padding-right" = 0 then
      some (withParsed st (optionParseUInt32 key value) (st.setUInt .logoPaddingRight))
    else if strcasecmp subkey "-print-remaining" = 0 then
      some (.ret (st.setBool .logoPrintRemaining (optionParseBoolean value)))
    else if strcasecmp subkey "-preserve-aspect-radio" = 0 then
      some (.ret (st.setBool .logoPreserveAspectRadio (optionParseBoolean value)))
    else some (.exit 400 st)
  else if strcasecmp key "--file" = 0 then some (setLogoSourceAndType st key value .FILE)
  else if strcasecmp key "--file-raw" = 0 then
    some (setLogoSourceAndType st key value .FILE_RAW)
  else if strcasecmp key "--data" = 0 then some (setLogoSourceAndType st key value .DATA)
  else if strcasecmp key "--data-raw" = 0 then
    some (setLogoSourceAndType st key value .DATA_RAW)
  else if strcasecmp key "--sixel" = 0 then
    some (setLogoSourceAndType st key value .IMAGE_SIXEL)
  else if strcasecmp key "--kitty" = 0 then
    some (setLogoSourceAndType st key value .IMAGE_KITTY)
  else if strcasecmp key "--chafa" = 0 then
    some (setLogoSourceAndType st key value .IMAGE_CHAFA)
  else if strcasecmp key "--iterm" = 0 then
    some (setLogoSourceAndType st key value .IMAGE_ITERM)
  else if strcasecmp key "--raw" = 0 then
    some (setLogoSourceAndType st key value .IMAGE_RAW)
  else if strcasecmp key "--chafa-fg-only" = 0 then
    some (.ret (st.setBool .logoChafaFgOnly (optionParseBoolean value)))
  else if strcasecmp key "--chafa-symbols" = 0 then
    some (withParsed st (optionParseString key value (st.str .logoChafaSymbols))
      (st.setStr .logoChafaSymbols))
  else if strcasecmp key "--chafa-canvas-mode" = 0 then
    some (withParsed st (optionParseUInt32 key value) (st.setUInt .logoChafaCanvasMode))
  else if strcasecmp key "--chafa-color-space" = 0 then
    some (withParsed st (optionParseUInt32 key value) (st.setUInt .logoChafaColorSpace))
  else if strcasecmp key "--chafa-dither-mode" = 0 then
    some (withParsed st (optionParseUInt32 key value) (st.setUInt .logoChafaDitherMode))
  else none

/-- The list of names and constants passed to `optionParseEnum` for `--binary-prefix`. -/
def binaryPrefixNames : List (String × FFBinaryPrefixType) :=
  [("iec", .IEC), ("si", .SI), ("jedec", .JEDEC)]

/-- Source `parseOption`, section "Display options". -/
def parseOptionDisplay (st : PState) (key : CStr) (value : Option CStr) :
    Option (Outcome PState) :=
  if strcasecmp key "--show-errors" = 0 then
    some (.ret (st.setBool .showErrors (optionParseBoolean value)))
  else if strcasecmp key "--disable-linewrap" = 0 then
    some (.ret (st.setBool .disableLinewrap (optionParseBoolean value)))
  else if strcasecmp key "--hide-cursor" = 0 then
    some (.ret (st.setBool .hideCursor (optionParseBoolean value)))
  else if strcasecmp key "-s" = 0 ∨ strcasecmp key "--structure" = 0 then
    some (withParsed st (optionParseString key value st.data.structureBuf) st.setStructure)
  else if strcasecmp key "--separator" = 0 then
    some (withParsed st (optionParseString key value (st.str .separator))
      (st.setStr .separator))
  else if strcasecmp key "--color-keys" = 0 then
    some (withParsed st (optionParseColor key value (st.str .colorKeys))
      (st.setStr .colorKeys))
  else if strcasecmp key "--color-title" = 0 then
    some (withParsed st (optionParseColor key value (st.str .colorTitle))
      (st.setStr .colorTitle))
  else if strcasecmp key "-c" = 0 ∨ strcasecmp key "--color" = 0 then
    some (withParsed st (optionParseColor key value (st.str .colorKeys))
      (fun s => (st.setStr .colorKeys s).setStr .colorTitle s))
  else if strcasecmp key "--set" = 0 then
    some (withParsed st (optionParseCustomValue st.data.customValues key value true)
      st.setCustomValues)
  else if strcasecmp key "--set-keyless" = 0 then
    some (withParsed st (optionParseCustomValue st.data.customValues key value false)
      st.setCustomValues)
  else if strcasecmp key "--binary-prefix" = 0 then
    some (withParsed st (optionParseEnum key value binaryPrefixNames) st.setBinaryPrefixType)
  else none

/-- The calls of `optionParseModuleArgs` in `parseOption`, in source order: the module
name passed and the record passed. -/
def moduleArgsCalls : List (String × Module) :=
  [("os", .os), ("host", .host), ("bios", .bios), ("board", .board),
   ("chassis", .chassis), ("kernel", .kernel), ("uptime", .uptime),
   ("processes", .processes), ("packages", .packages), ("shell", .shell),
   ("display", .display), ("brightness", .brightness), ("de", .de), ("wifi", .wifi),
   ("wm", .wm), ("wm-theme", .wmTheme), ("theme", .theme), ("icons", .icons),
   ("font", .font), ("cursor", .cursor), ("terminal", .terminal),
   ("terminal-font", .terminalFont), ("cpu", .cpu), ("cpu-usage", .cpuUsage),
   ("gpu", .gpu), ("memory", .memory), ("swap", .swap), ("disk", .disk),
   ("battery", .battery), ("poweradapter", .powerAdapter), ("locale", .locale),
   ("local-ip", .localIP), ("public-ip", .publicIP), ("weather", .weather),
   ("player", .player), ("media", .media), ("datetime", .dateTime), ("date", .date),
   ("time", .time), ("vulkan", .vulkan), ("opengl", .openGL), ("opencl", .openCL),
   ("users", .users), ("bluetooth", .bluetooth), ("sound", .sound),
   ("gamepad", .gamepad), ("editor", .editor)]

/-- Source `parseOption`, section "Module args options": the chain of
`else if(optionParseModuleArgs(key, value, name, &config.field)) {}` over the given
calls; the first call that returns `true` ends the chain. -/
def parseOptionModuleArgs (st : PState) (key : CStr) (value : Option CStr) :
    List (String × Module) → Option (Outcome PState)
  | [] => none
  | (moduleName, m) :: rest =>
    match optionParseModuleArgs key value moduleName (st.inst.config.moduleArgs m) with
    | .error status => some (.exit status st)
    | .ok (true, r) => some (.ret (st.setModuleArgs m r))
    | .ok (false, _) => parseOptionModuleArgs st key value rest

/-- Source `parseOption`, section "Library options". The test for `-pulse` compares
`key`, as the source does. -/
def parseOptionLibrary (st : PState) (key : CStr) (value : Option CStr) :
    Option (Outcome PState) :=
  if startsWith key "--lib" then
    let subkey := key.drop (strlen "--lib")
    if strcasecmp subkey "-PCI" = 0 then
      some (withParsed st (optionParseString key value (st.str .libPCI))
        (st.setStr .libPCI))
    else if strcasecmp subkey "-vulkan" = 0 then
      some (withParsed st (optionParseString key value (st.str .libVulkan))
        (st.setStr .libVulkan))
    else if strcasecmp subkey "-freetype" = 0 then
      some (withParsed st (optionParseString key value (st.str .libfreetype))
        (st.setStr .libfreetype))
    else if strcasecmp subkey "-wayland" = 0 then
      some (withParsed st (optionParseString key value (st.str .libWayland))
        (st.setStr .libWayland))
    else if strcasecmp subkey "-xcb-randr" = 0 then
      some (withParsed st (optionParseString key value (st.str .libXcbRandr))
        (st.setStr .libXcbRandr))
    else if strcasecmp subkey "-xcb" = 0 then
      some (withParsed st (optionParseString key value (st.str .libXcb))
        (st.setStr .libXcb))
    else if strcasecmp subkey "-Xrandr" = 0 then
      some (withParsed st (optionParseString key value (st.str .libXrandr))
        (st.setStr .libXrandr))
    else if strcasecmp subkey "-X11" = 0 then
      some (withParsed st (optionParseString key value (st.str .libX11))
        (st.setStr .libX11))
    else if strcasecmp subkey "-gio" = 0 then
      some (withParsed st (optionParseString key value (st.str .libGio))
        (st.setStr .libGio))
    else if strcasecmp subkey "-DConf" = 0 then
      some (withParsed st (optionParseString key value (st.str .libDConf))
        (st.setStr .libDConf))
    else if strcasecmp subkey "-dbus" = 0 then
      some (withParsed st (optionParseString key value (st.str .libDBus))
        (st.setStr .libDBus))
    else if strcasecmp subkey "-XFConf" = 0 then
      some (withParsed st (optionParseString key value (st.str .libXFConf))
        (st.setStr .libXFConf))
    else if strcasecmp subkey "-sqlite" = 0 ∨ strcasecmp subkey "-sqlite3" = 0 then
      some (withParsed st (optionParseString key value (st.str .libSQLite3))
        (st.setStr .libSQLite3))
    else if strcasecmp subkey "-rpm" = 0 then
      some (withParsed st (optionParseString key value (st.str .librpm))
        (st.setStr .librpm))
    else if strcasecmp subkey "-imagemagick" = 0 then
      some (withParsed st (optionParseString key value (st.str .libImageMagick))
        (st.setStr .libImageMagick))
    else if strcasecmp subkey "-z" = 0 then
      some (withParsed st (optionParseString key value (st.str .libZ))
        (st.setStr .libZ))
    else if strcasecmp subkey "-chafa" = 0 then
      some (withParsed st (optionParseString key value (st.str .libChafa))
        (st.setStr .libChafa))
    else if strcasecmp subkey "-egl" = 0 then
      some (withParsed st (optionParseString key value (st.str .libEGL))
        (st.setStr .libEGL))
    else if strcasecmp subkey "-glx" = 0 then
      some (withParsed st (optionParseString key value (st.str .libGLX))
        (st.setStr .libGLX))
    else if strcasecmp subkey "-osmesa" = 0 then
      some (withParsed st (optionParseString key value (st.str .libOSMesa))
        (st.setStr .libOSMesa))
    else if strcasecmp subkey "-opencl" = 0 then
      some (withParsed st (optionParseString key value (st.str .libOpenCL))
        (st.setStr .libOpenCL))
    else if strcasecmp subkey "-jsonc" = 0 then
      some (withParsed st (optionParseString key value (st.str .libJSONC))
        (st.setStr .libJSONC))
    else if strcasecmp subkey "-wlanapi" = 0 then
      some (withParsed st (optionParseString key value (st.str .libwlanapi))
        (st.setStr .libwlanapi))
    else if strcasecmp key "-pulse" = 0 then
      some (withParsed st (optionParseString key value (st.str .libPulse))
        (st.setStr .libPulse))
    else if strcasecmp subkey "-nm" = 0 then
      some (withParsed st (optionParseString key value (st.str .libnm))
        (st.setStr .libnm))
    else some (.exit 400 st)
  else none

/-- The list of names and constants passed to `optionParseEnum` for `--sound-type`. -/
def soundTypeNames : List (String × FFSoundType) :=
  [("main", .MAIN), ("active", .ACTIVE), ("all", .ALL)]

/-- The list of names and constants passed to `optionParseEnum` for
`--localip-compact-type`. -/
def localIpCompactTypeNames : List (String × FFLocalIpCompactType) :=
  [("none", .NONE), ("oneline", .ONELINE), ("multiline", .MULTILINE)]

/-- The list of names and constants passed to `optionParseEnum` for `--gl`. -/
def glTypeNames : List (String × FFGLType) :=
  [("auto", .AUTO), ("egl", .EGL), ("glx", .GLX), ("osmesa", .OSMESA)]

/-- Source `parseOption`, section "Module options". For `--command-key` and
`--command-text` the new list element is added before the value is checked. -/
def parseOptionModule (st : PState) (key : CStr) (value : Option CStr) :
    Option (Outcome PState) :=
  if strcasecmp key "--cpu-temp" = 0 then
    some (.ret (st.setBool .cpuTemp (optionParseBoolean value)))
  else if strcasecmp key "--gpu-temp" = 0 then
    some (.ret (st.setBool .gpuTemp (optionParseBoolean value)))
  else if strcasecmp key "--battery-temp" = 0 then
    some (.ret (st.setBool .batteryTemp (optionParseBoolean value)))
  else if strcasecmp key "--gpu-hide-integrated" = 0 then
    some (.ret (st.setBool .gpuHideIntegrated (optionParseBoolean value)))
  else if strcasecmp key "--gpu-hide-discrete" = 0 then
    some (.ret (st.setBool .gpuHideDiscrete (optionParseBoolean value)))
  else if strcasecmp key "--title-fqdn" = 0 then
    some (.ret (st.setBool .titleFQDN (optionParseBoolean value)))
  else if strcasecmp key "--shell-version" = 0 then
    some (.ret (st.setBool .shellVersion (optionParseBoolean value)))
  else if strcasecmp key "--terminal-version" = 0 then
    some (.ret (st.setBool .terminalVersion (optionParseBoolean value)))
  else if strcasecmp key "--disk-folders" = 0 then
    some (withParsed st (optionParseString key value (st.str .diskFolders))
      (st.setStr .diskFolders))
  else if strcasecmp key "--disk-show-removable" = 0 then
    some (.ret (st.setBool .diskShowRemovable (optionParseBoolean value)))
  else if strcasecmp key "--disk-show-hidden" = 0 then
    some (.ret (st.setBool .diskShowHidden (optionParseBoolean value)))
  else if strcasecmp key "--disk-show-subvolumes" = 0 then
    some (.ret (st.setBool .diskShowSubvolumes (optionParseBoolean value)))
  else if strcasecmp key "--disk-show-unknown" = 0 then
    some (.ret (st.setBool .diskShowUnknown (optionParseBoolean value)))
  else if strcasecmp key "--bluetooth-show-disconnected" = 0 then
    some (.ret (st.setBool .bluetoothShowDisconnected (optionParseBoolean value)))
  else if strcasecmp key "--sound-type" = 0 then
    some (withParsed st (optionParseEnum key value soundTypeNames) st.setSoundType)
  else if strcasecmp key "--battery-dir" = 0 then
    some (withParsed st (optionParseString key value (st.str .batteryDir))
      (st.setStr .batteryDir))
  else if strcasecmp key "--separator-string" = 0 then
    some (withParsed st (optionParseString key value (st.str .separatorString))
      (st.setStr .separatorString))
  else if strcasecmp key "--localip-v6first" = 0 then
    some (.ret (st.setBool .localIpV6First (optionParseBoolean value)))
  else if strcasecmp key "--localip-show-ipv4" = 0 then
    some (.ret (st.setBool .localIpShowIpV4 (optionParseBoolean value)))
  else if strcasecmp key "--localip-show-ipv6" = 0 then
    some (.ret (st.setBool .localIpShowIpV6 (optionParseBoolean value)))
  else if strcasecmp key "--localip-show-loop" = 0 then
    some (.ret (st.setBool .localIpShowLoop (optionParseBoolean value)))
  else if strcasecmp key "--localip-name-prefix" = 0 then
    some (withParsed st (optionParseString key value (st.str .localIpNamePrefix))
      (st.setStr .localIpNamePrefix))
  else if strcasecmp key "--localip-compact-type" = 0 then
    some (withParsed st (optionParseEnum key value localIpCompactTypeNames) st.setLocalIpCompactType)
  else if strcasecmp key "--os-file" = 0 then
    some (withParsed st (optionParseString key value (st.str .osFile))
      (st.setStr .osFile))
  else if strcasecmp key "--player-name" = 0 then
    some (withParsed st (optionParseString key value (st.str .playerName))
      (st.setStr .playerName))
  else if strcasecmp key "--public-ip-url" = 0 then
    some (withParsed st (optionParseString key value (st.str .publicIpUrl))
      (st.setStr .publicIpUrl))
  else if strcasecmp key "--public-ip-timeout" = 0 then
    some (withParsed st (optionParseUInt32 key value) (st.setUInt .publicIpTimeout))
  else if strcasecmp key "--weather-output-format" = 0 then
    some (withParsed st (optionParseString key value (st.str .weatherOutputFormat))
      (st.setStr .weatherOutputFormat))
  else if strcasecmp key "--weather-timeout" = 0 then
    some (withParsed st (optionParseUInt32 key value) (st.setUInt .weatherTimeout))
  else if strcasecmp key "--gl" = 0 then
    some (withParsed st (optionParseEnum key value glTypeNames) st.setGLType)
  else if strcasecmp key "--percent-type" = 0 then
    some (withParsed st (optionParseUInt32 key value) (st.setUInt .percentType))
  else if strcasecmp key "--command-shell" = 0 then
    some (withParsed st (optionParseString key value (st.str .commandShell))
      (st.setStr .commandShell))
  else if strcasecmp key "--command-key" = 0 then
    let st1 := st.setCommandKeys (st.inst.config.commandKeys ++ [[]])
    some (withParsed st1 (optionParseString key value [])
      (fun s => st1.setCommandKeys (st.inst.config.commandKeys ++ [s])))
  else if strcasecmp key "--command-text" = 0 then
    let st1 := st.setCommandTexts (st.inst.config.commandTexts ++ [[]])
    some (withParsed st1 (optionParseString key value [])
      (fun s => st1.setCommandTexts (st.inst.config.commandTexts ++ [s])))
  else none

/-- Source `parseOption`, with the call of `optionParseConfigFile` as a parameter: the
sections are tried in source order, a key that no section matches is the unknown option
with exit status 400. -/
def parseOptionWith (loadConfig : PState → CStr → Option CStr → Outcome PState)
    (fs : FileSystem) (st : PState) (key : CStr) (value : Option CStr) : Outcome PState :=
  match parseOptionInformative st key value with
  | some o => o
  | none =>
  match parseOptionGeneral loadConfig fs st key value with
  | some o => o
  | none =>
  match parseOptionLogo st key value with
  | some o => o
  | none =>
  match parseOptionDisplay st key value with
  | some o => o
  | none =>
  match parseOptionModuleArgs st key value moduleArgsCalls with
  | some o => o
  | none =>
  match parseOptionLibrary st key value with
  | some o => o
  | none =>
  match parseOptionModule st key value with
  | some o => o
  | none => .exit 400 st

/-- Source `parseOption`. The fuel bounds the nesting depth of configuration files loaded
by `--load-config` from inside a configuration file; at depth 0 a nested `--load-config`
is not followed any further and the outcome is `diverge`. -/
def parseOption (fs : FileSystem) : Nat → PState → CStr → Option CStr → Outcome PState
  | 0 => parseOptionWith (optionParseConfigFile (fun _ _ _ => .diverge) fs) fs
  | fuel + 1 => parseOptionWith (optionParseConfigFile (parseOption fs fuel) fs) fs

/-! ## Configuration files and command line -/

/-- The loop of `parseConfigFiles`, for the indices below `i` downwards: the loop ends
when `loadUserConfig` is off; the file name is appended to the directory in place for
the time of the parse and cut off again afterwards. -/
def parseConfigFilesLoop (parseOption : PState → CStr → Option CStr → Outcome PState)
    (fs : FileSystem) : Nat → PState → Outcome PState
  | 0, st => .ret st
  | i + 1, st =>
    if !st.data.loadUserConfig then .ret st
    else
      let dir := st.inst.configDirs.getD i []
      let dirLength := dir.length
      let path := dir ++ "fastfetch/config.conf"
      let st1 := st.setConfigDirs (st.inst.configDirs.set i path)
      (parseConfigFile parseOption fs st1 path).bind fun r =>
        let st2 := r.2
        parseConfigFilesLoop parseOption fs i
          (st2.setConfigDirs
            (st2.inst.configDirs.set i ((st2.inst.configDirs.getD i []).take dirLength)))

/-- Source `parseConfigFiles`. -/
def parseConfigFiles (parseOption : PState → CStr → Option CStr → Outcome PState)
    (fs : FileSystem) (st : PState) : Outcome PState :=
  parseConfigFilesLoop parseOption fs st.inst.configDirs.length st

/-- The loop of `parseArguments` over the arguments from index `i` on: the argument
after a key is its value unless it starts with `-` and the key is not
`--separator-string`. -/
def parseArgumentsLoop (parseOption : PState → CStr → Option CStr → Outcome PState) :
    List CStr → PState → Outcome PState
  | [], st => .ret st
  | [arg], st => parseOption st arg none
  | arg :: next :: rest, st =>
    if charAt next 0 = '-' ∧ strcasecmp arg "--separator-string" ≠ 0 then
      (parseOption st arg none).bind
        (fun s => parseArgumentsLoop parseOption (next :: rest) s)
    else
      (parseOption st arg (some next)).bind
        (fun s => parseArgumentsLoop parseOption rest s)

/-- Source `parseArguments`: nothing is parsed when `loadUserConfig` is off; `argv[0]`
is skipped. -/
def parseArguments (parseOption : PState → CStr → Option CStr → Outcome PState)
    (st : PState) (argv : List CStr) : Outcome PState :=
  if !st.data.loadUserConfig then .ret st
  else parseArgumentsLoop parseOption (argv.drop 1) st

/-! ## Structure dispatch -/

/-- The print entry points of the built-in rows and of the modules: the functions
`ffPrintBreak`, `ffPrintTitle`, ..., `ffPrintEditor`, which take the instance only. -/
inductive EntryPoint where
  | ffPrintBreak | ffPrintTitle | ffPrintSeparator | ffPrintOS | ffPrintHost | ffPrintBios
  | ffPrintBoard | ffPrintBrightness | ffPrintChassis | ffPrintKernel | ffPrintUptime
  | ffPrintProcesses | ffPrintPackages | ffPrintShell | ffPrintDisplay
  | ffPrintDesktopEnvironment | ffPrintWM | ffPrintTheme | ffPrintWMTheme | ffPrintIcons
  | ffPrintFont | ffPrintCursor | ffPrintTerminal | ffPrintTerminalFont | ffPrintCPU
  | ffPrintCPUUsage | ffPrintGPU | ffPrintMemory | ffPrintSwap | ffPrintDisk
  | ffPrintBattery | ffPrintPowerAdapter | ffPrintLocale | ffPrintLocalIp
  | ffPrintPublicIp | ffPrintWifi | ffPrintWeather | ffPrintPlayer | ffPrintMedia
  | ffPrintDateTime | ffPrintDate | ffPrintTime | ffPrintColors | ffPrintVulkan
  | ffPrintOpenGL | ffPrintOpenCL | ffPrintUsers | ffPrintCommand | ffPrintBluetooth
  | ffPrintSound | ffPrintGamepad | ffPrintEditor
deriving DecidableEq, Repr

/-- The print function that `parseStructureCommand` invokes, with the arguments that are
not the instance: `ffPrintCustom` with key and value, `ffPrintErrorString` with module
name and message, or the entry point of a built-in row or module. -/
inductive PrintCall where
  | ffPrintCustom (key : Option CStr) (value : CStr)
  | ffPrintErrorString (moduleName : CStr) (message : CStr)
  | entry (f : EntryPoint)
deriving DecidableEq, Repr

/-- Source `parseStructureCommand`. -/
def parseStructureCommand (customValues : FFvaluestore) (line : CStr) : PrintCall :=
  match ffValuestoreGet customValues line with
  | some customValue =>
    .ffPrintCustom (if customValue.printKey then some line else none) customValue.value
  | none =>
    if strcasecmp line "break" = 0 then .entry .ffPrintBreak
    else if strcasecmp line "title" = 0 then .entry .ffPrintTitle
    else if strcasecmp line "separator" = 0 then .entry .ffPrintSeparator
    else if strcasecmp line "os" = 0 then .entry .ffPrintOS
    else if strcasecmp line "host" = 0 then .entry .ffPrintHost
    else if strcasecmp line "bios" = 0 then .entry .ffPrintBios
    else if strcasecmp line "board" = 0 then .entry .ffPrintBoard
    else if strcasecmp line "brightness" = 0 then .entry .ffPrintBrightness
    else if strcasecmp line "chassis" = 0 then .entry .ffPrintChassis
    else if strcasecmp line "kernel" = 0 then .entry .ffPrintKernel
    else if strcasecmp line "uptime" = 0 then .entry .ffPrintUptime
    else if strcasecmp line "processes" = 0 then .entry .ffPrintProcesses
    else if strcasecmp line "packages" = 0 then .entry .ffPrintPackages
    else if strcasecmp line "shell" = 0 then .entry .ffPrintShell
    else if strcasecmp line "display" = 0 then .entry .ffPrintDisplay
    else if strcasecmp line "desktopenvironment" = 0 ∨ strcasecmp line "de" = 0 then
      .entry .ffPrintDesktopEnvironment
    else if strcasecmp line "windowmanager" = 0 ∨ strcasecmp line "wm" = 0 then
      .entry .ffPrintWM
    else if strcasecmp line "theme" = 0 then .entry .ffPrintTheme
    else if strcasecmp line "wmtheme" = 0 then .entry .ffPrintWMTheme
    else if strcasecmp line "icons" = 0 then .entry .ffPrintIcons
    else if strcasecmp line "font" = 0 then .entry .ffPrintFont
    else if strcasecmp line "cursor" = 0 then .entry .ffPrintCursor
    else if strcasecmp line "terminal" = 0 then .entry .ffPrintTerminal
    else if strcasecmp line "terminalfont" = 0 then .entry .ffPrintTerminalFont
    else if strcasecmp line "cpu" = 0 then .entry .ffPrintCPU
    else if strcasecmp line "cpuusage" = 0 then .entry .ffPrintCPUUsage
    else if strcasecmp line "gpu" = 0 then .entry .ffPrintGPU
    else if strcasecmp line "memory" = 0 then .entry .ffPrintMemory
    else if strcasecmp line "swap" = 0 then .entry .ffPrintSwap
    else if strcasecmp line "disk" = 0 then .entry .ffPrintDisk
    else if strcasecmp line "battery" = 0 then .entry .ffPrintBattery
    else if strcasecmp line "poweradapter" = 0 then .entry .ffPrintPowerAdapter
    else if strcasecmp line "locale" = 0 then .entry .ffPrintLocale
    else if strcasecmp line "localip" = 0 then .entry .ffPrintLocalIp
    else if strcasecmp line "publicip" = 0 then .entry .ffPrintPublicIp
    else if strcasecmp line "wifi" = 0 then .entry .ffPrintWifi
    else if strcasecmp line "weather" = 0 then .entry .ffPrintWeather
    else if strcasecmp line "player" = 0 then .entry .ffPrintPlayer
    else if strcasecmp line "media" = 0 then .entry .ffPrintMedia
    else if strcasecmp line "datetime" = 0 then .entry .ffPrintDateTime
    else if strcasecmp line "date" = 0 then .entry .ffPrintDate
    else if strcasecmp line "time" = 0 then .entry .ffPrintTime
    else if strcasecmp line "colors" = 0 then .entry .ffPrintColors
    else if strcasecmp line "vulkan" = 0 then .entry .ffPrintVulkan
    else if strcasecmp line "opengl" = 0 then .entry .ffPrintOpenGL
    else if strcasecmp line "opencl" = 0 then .entry .ffPrintOpenCL
    else if strcasecmp line "users" = 0 then .entry .ffPrintUsers
    else if strcasecmp line "command" = 0 then .entry .ffPrintCommand
    else if strcasecmp line "bluetooth" = 0 then .entry .ffPrintBluetooth
    else if strcasecmp line "sound" = 0 then .entry .ffPrintSound
    else if strcasecmp line "gamepad" = 0 then .entry .ffPrintGamepad
    else if strcasecmp line "editor" = 0 then .entry .ffPrintEditor
    else .ffPrintErrorString line "<no implementation provided>"

/-- What `main` does after parsing, in order: the preparation steps, `ffStart`, per
structure token the print call of `parseStructureCommand` and, with `--stat`, the timing
overlay (written with `puts` in pipe mode), and `ffFinish`. -/
inductive Event where
  | ffPrepareCPUUsage | ffPreparePublicIp | ffPrepareWeather | ffStart
  | row (call : PrintCall)
  | timing (pipe : Bool)
  | ffFinish
deriving DecidableEq, Repr

/-- The C string that starts at index `start` of a character buffer: the characters up
to the next NUL. -/
def cstrAt (chars : List Char) (start : Nat) : CStr :=
  (chars.drop start).takeWhile (fun c => c ≠ Char.ofNat 0)

/-- The dispatch loop of `main` over the structure buffer, `body` being what is done
with the token: the next `:` (or the terminator) is overwritten with NUL, the token is
the C string at `startIndex`, and `startIndex` is a `uint32_t`. The fuel bounds the
number of iterations; `none` when it runs out. -/
def dispatchLoop {α : Type} (body : CStr → List α) :
    Nat → List Char → Nat → Option (List α)
  | 0, _, _ => none
  | fuel + 1, chars, startIndex =>
    if startIndex < chars.length then
      let colonIndex := ffStrbufNextIndexC chars startIndex ':'
      let chars1 := chars.set colonIndex (Char.ofNat 0)
      match dispatchLoop body fuel chars1 ((colonIndex + 1) % 2 ^ 32) with
      | none => none
      | some rest => some (body (cstrAt chars1 startIndex) ++ rest)
    else some []

/-- What `main` does with one structure token. -/
def dispatchToken (st : PState) (line : CStr) : List Event :=
  [.row (parseStructureCommand st.data.customValues line)] ++
    (if st.inst.config.bools .stat then [.timing (st.inst.config.bools .pipe)] else [])

/-- Source `main`, from the default structure on: the structure defaults to
`defaultStructure` (`FASTFETCH_DATATEXT_STRUCTURE`) when none was set, the preparation
steps run, then `ffStart`, the dispatch loop and `ffFinish`. The result is the state when
dispatch begins and what is done from there on. -/
def mainDispatch (defaultStructure : CStr) (st2 : PState) : Outcome (PState × List Event) :=
  let st3 := if st2.data.structureBuf.length = 0
    then st2.setStructure (st2.data.structureBuf ++ defaultStructure) else st2
  let prepare :=
    (if ffStrbufContainIgnCaseS st3.data.structureBuf "CPUUsage"
      then [Event.ffPrepareCPUUsage] else []) ++
    (if st3.inst.config.bools .multithreading then
      (if ffStrbufContainIgnCaseS st3.data.structureBuf "PublicIp"
        then [Event.ffPreparePublicIp] else []) ++
      (if ffStrbufContainIgnCaseS st3.data.structureBuf "Weather"
        then [Event.ffPrepareWeather] else [])
     else [])
  match dispatchLoop (dispatchToken st3) (st3.data.structureBuf.length + 1)
      st3.data.structureBuf 0 with
  | none => .diverge
  | some rows => .ret (st3, prepare ++ [Event.ffStart] ++ rows ++ [Event.ffFinish])

/-- Source `main`, up to and including `parseArguments`. `noConfig` tells whether the
environment variable `NO_CONFIG` is set, `instance0` is the instance after
`ffInitInstance`. -/
def mainParse (fs : FileSystem) (fuel : Nat) (noConfig : Bool) (instance0 : FFinstance)
    (argv : List CStr) : Outcome PState :=
  let st0 : PState := ⟨instance0, ⟨[], [], true⟩⟩
  (if !noConfig then parseConfigFiles (parseOption fs fuel) fs st0 else .ret st0).bind
    (fun st1 => parseArguments (parseOption fs fuel) st1 argv)

/-- Source `main`: the two parsing steps, then the rest. -/
def main (fs : FileSystem) (fuel : Nat) (noConfig : Bool) (defaultStructure : CStr)
    (instance0 : FFinstance) (argv : List CStr) : Outcome (PState × List Event) :=
  (mainParse fs fuel noConfig instance0 argv).bind (mainDispatch defaultStructure)

/-! ## Fields of the state and the action of a key (used to state and prove properties) -/

/-- The three fields of a module argument record. -/
inductive ArgField where
  | key | outputFormat | errorFormat
deriving DecidableEq, Repr

/-- Read a field of a module argument record. -/
def FFModuleArgs.get (r : FFModuleArgs) : ArgField → CStr
  | .key => r.key
  | .outputFormat => r.outputFormat
  | .errorFormat => r.errorFormat

/-- Replace a field of a module argument record. -/
def FFModuleArgs.set (r : FFModuleArgs) (w : ArgField) (s : CStr) : FFModuleArgs :=
  match w with
  | .key => { r with key := s }
  | .outputFormat => { r with outputFormat := s }
  | .errorFormat => { r with errorFormat := s }

/-- The fields of the state that the option parser can write. -/
inductive Field where
  | bool (f : BoolField)
  | uint (f : UIntField)
  | str (f : StrField)
  | logoType
  | logoColor (index : Nat)
  | binaryPrefixType | soundType | localIpCompactType | glType
  | moduleArg (m : Module) (w : ArgField)
  | commandKeys | commandTexts
  | configDirs | dataDirs
  | customValues | structureBuf | loadUserConfig

/-- The two states hold the same value in the field. -/
def Field.same (F : Field) (a b : PState) : Prop :=
  match F with
  | .bool f => a.inst.config.bools f = b.inst.config.bools f
  | .uint f => a.inst.config.uints f = b.inst.config.uints f
  | .str f => a.inst.config.strs f = b.inst.config.strs f
  | .logoType => a.inst.config.logoType = b.inst.config.logoType
  | .logoColor i => a.inst.config.logoColors i = b.inst.config.logoColors i
  | .binaryPrefixType => a.inst.config.binaryPrefixType = b.inst.config.binaryPrefixType
  | .soundType => a.inst.config.soundType = b.inst.config.soundType
  | .localIpCompactType => a.inst.config.localIpCompactType = b.inst.config.localIpCompactType
  | .glType => a.inst.config.glType = b.inst.config.glType
  | .moduleArg m w => (a.inst.config.moduleArgs m).get w = (b.inst.config.moduleArgs m).get w
  | .commandKeys => a.inst.config.commandKeys = b.inst.config.commandKeys
  | .commandTexts => a.inst.config.commandTexts = b.inst.config.commandTexts
  | .configDirs => a.inst.configDirs = b.inst.configDirs
  | .dataDirs => a.inst.dataDirs = b.inst.dataDirs
  | .customValues => a.data.customValues = b.data.customValues
  | .structureBuf => a.data.structureBuf = b.data.structureBuf
  | .loadUserConfig => a.data.loadUserConfig = b.data.loadUserConfig

/-- What `parseOption` does for a key, by name: one constructor per kind of branch. -/
inductive Action where
  | exit0 | exit400
  | listPresets | listConfigPaths | listDataPaths | listLogos
  | loadConfig
  | genConfig (force : Bool)
  | setBool (f : BoolField)
  | stat
  | loadUserConfig
  | setUInt (f : UIntField)
  | padding
  | setStr (f : StrField)
  | logo
  | structureStr
  | sourceType (t : FFLogoType)
  | logoType | binaryPrefix | soundType | localIpCompactType | glType
  | color (f : StrField)
  | colorBoth
  | logoColor (c : Char)
  | custom (printKey : Bool)
  | moduleArg (m : Module) (w : ArgField)
  | commandKey | commandText

/-- The key tests of `parseOptionInformative`, with the name of the action taken. -/
def classifyInformative (key : CStr) : Option Action :=
  if strcasecmp key "-h" = 0 ∨ strcasecmp key "--help" = 0 then some .exit0
  else if strcasecmp key "-v" = 0 ∨ strcasecmp key "--version" = 0 then some .exit0
  else if strcasecmp key "--version-raw" = 0 then some .exit0
  else if startsWith key "--print" then
    let subkey := key.drop (strlen "--print")
    if strcasecmp subkey "-config-system" = 0 then some .exit0
    else if strcasecmp subkey "-config-user" = 0 then some .exit0
    else if strcasecmp subkey "-structure" = 0 then some .exit0
    else if strcasecmp subkey "-logos" = 0 then some .exit0
    else some .exit400
  else if startsWith key "--list" then
    let subkey := key.drop (strlen "--list")
    if strcasecmp subkey "-modules" = 0 then some .exit0
    else if strcasecmp subkey "-presets" = 0 then
      some .listPresets
    else if strcasecmp subkey "-config-paths" = 0 then some .listConfigPaths
    else if strcasecmp subkey "-data-paths" = 0 then
      some .listDataPaths
    else if strcasecmp subkey "-features" = 0 then some .exit0
    else if strcasecmp subkey "-logos" = 0 then
      some .listLogos
    else if strcasecmp subkey "-logos-autocompletion" = 0 then some .exit0
    else some .exit400
  else none

/-- The key tests of `parseOptionGeneral`, with the name of the action taken. -/
def classifyGeneral (key : CStr) : Option Action :=
  if strcasecmp key "-r" = 0 ∨ strcasecmp key "--recache" = 0 then
    some (.setBool .recache)
  else if strcasecmp key "--load-config" = 0 then
    some .loadConfig
  else if strcasecmp key "--gen-config" = 0 then
    some (.genConfig false)
  else if strcasecmp key "--gen-config-force" = 0 then
    some (.genConfig true)
  else if strcasecmp key "--thread" = 0 ∨ strcasecmp key "--multithreading" = 0 then
    some (.setBool .multithreading)
  else if strcasecmp key "--stat" = 0 then
    some .stat
  else if strcasecmp key "--allow-slow-operations" = 0 then
    some (.setBool .allowSlowOperations)
  else if strcasecmp key "--escape-bedrock" = 0 then
    some (.setBool .escapeBedrock)
  else if strcasecmp key "--pipe" = 0 then
    some (.setBool .pipe)
  else if strcasecmp key "--load-user-config" = 0 then
    some .loadUserConfig
  else none

/-- The key tests of `parseOptionLogo`, with the name of the action taken. -/
def classifyLogo (key : CStr) : Option Action :=
  if strcasecmp key "-l" = 0 ∨ strcasecmp key "--logo" = 0 then
    some .logo
  else if startsWith key "--logo" then
    let subkey := key.drop (strlen "--logo")
    if strcasecmp subkey "-type" = 0 then
      some .logoType
    else if startsWith subkey "-color-" ∧ charAt key 13 ≠ Char.ofNat 0
        ∧ charAt key 14 = Char.ofNat 0 then
      some (.logoColor (charAt key 13))
    else if strcasecmp subkey "-width" = 0 then
      some (.setUInt .logoWidth)
    else if strcasecmp subkey "-height" = 0 then
      some (.setUInt .logoHeight)
    else if strcasecmp subkey "-padding" = 0 then
      some .padding
    else if strcasecmp subkey "-padding-top" = 0 then
      some (.setUInt .logoPaddingTop)
    else if strcasecmp subkey "-padding-left" = 0 then
      some (.setUInt .logoPaddingLeft)
    else if strcasecmp subkey "-padding-right" = 0 then
      some (.setUInt .logoPaddingRight)
    else if strcasecmp subkey "-print-remaining" = 0 then
      some (.setBool .logoPrintRemaining)
    else if strcasecmp subkey "-preserve-aspect-radio" = 0 then
      some (.setBool .logoPreserveAspectRadio)
    else some .exit400
  else if strcasecmp key "--file" = 0 then some (.sourceType .FILE)
  else if strcasecmp key "--file-raw" = 0 then
    some (.sourceType .FILE_RAW)
  else if strcasecmp key "--data" = 0 then some (.sourceType .DATA)
  else if strcasecmp key "--data-raw" = 0 then
    some (.sourceType .DATA_RAW)
  else if strcasecmp key "--sixel" = 0 then
    some (.sourceType .IMAGE_SIXEL)
  else if strcasecmp key "--kitty" = 0 then
    some (.sourceType .IMAGE_KITTY)
  else if strcasecmp key "--chafa" = 0 then
    some (.sourceType .IMAGE_CHAFA)
  else if strcasecmp key "--iterm" = 0 then
    some (.sourceType .IMAGE_ITERM)
  else if strcasecmp key "--raw" = 0 then
    some (.sourceType .IMAGE_RAW)
  else if strcasecmp key "--chafa-fg-only" = 0 then
    some (.setBool .logoChafaFgOnly)
  else if strcasecmp key "--chafa-symbols" = 0 then
    some (.setStr .logoChafaSymbols)
  else if strcasecmp key "--chafa-canvas-mode" = 0 then
    some (.setUInt .logoChafaCanvasMode)
  else if strcasecmp key "--chafa-color-space" = 0 then
    some (.setUInt .logoChafaColorSpace)
  else if strcasecmp key "--chafa-dither-mode" = 0 then
    some (.setUInt .logoChafaDitherMode)
  else none

/-- The key tests of `parseOptionDisplay`, with the name of the action taken. -/
def classifyDisplay (key : CStr) : Option Action :=
  if strcasecmp key "--show-errors" = 0 then
    some (.setBool .showErrors)
  else if strcasecmp key "--disable-linewrap" = 0 then
    some (.setBool .disableLinewrap)
  else if strcasecmp key "--hide-cursor" = 0 then
    some (.setBool .hideCursor)
  else if strcasecmp key "-s" = 0 ∨ strcasecmp key "--structure" = 0 then
    some .structureStr
  else if strcasecmp key "--separator" = 0 then
    some (.setStr .separator)
  else if strcasecmp key "--color-keys" = 0 then
    some (.color .colorKeys)
  else if strcasecmp key "--color-title" = 0 then
    some (.color .colorTitle)
  else if strcasecmp key "-c" = 0 ∨ strcasecmp key "--color" = 0 then
    some .colorBoth
  else if strcasecmp key "--set" = 0 then
    some (.custom true)
  else if strcasecmp key "--set-keyless" = 0 then
    some (.custom false)
  else if strcasecmp key "--binary-prefix" = 0 then
    some .binaryPrefix
  else none

/-- The key tests of `parseOptionLibrary`, with the name of the action taken. -/
def classifyLibrary (key : CStr) : Option Action :=
  if startsWith key "--lib" then
    let subkey := key.drop (strlen "--lib")
    if strcasecmp subkey "-PCI" = 0 then
      some (.setStr .libPCI)
    else if strcasecmp subkey "-vulkan" = 0 then
      some (.setStr .libVulkan)
    else if strcasecmp subkey "-freetype" = 0 then
      some (.setStr .libfreetype)
    else if strcasecmp subkey "-wayland" = 0 then
      some (.setStr .libWayland)
    else if strcasecmp subkey "-xcb-randr" = 0 then
      some (.setStr .libXcbRandr)
    else if strcasecmp subkey "-xcb" = 0 then
      some (.setStr .libXcb)
    else if strcasecmp subkey "-Xrandr" = 0 then
      some (.setStr .libXrandr)
    else if strcasecmp subkey "-X11" = 0 then
      some (.setStr .libX11)
    else if strcasecmp subkey "-gio" = 0 then
      some (.setStr .libGio)
    else if strcasecmp subkey "-DConf" = 0 then
      some (.setStr .libDConf)
    else if strcasecmp subkey "-dbus" = 0 then
      some (.setStr .libDBus)
    else if strcasecmp subkey "-XFConf" = 0 then
      some (.setStr .libXFConf)
    else if strcasecmp subkey "-sqlite" = 0 ∨ strcasecmp subkey "-sqlite3" = 0 then
      some (.setStr .libSQLite3)
    else if strcasecmp subkey "-rpm" = 0 then
      some (.setStr .librpm)
    else if strcasecmp subkey "-imagemagick" = 0 then
      some (.setStr .libImageMagick)
    else if strcasecmp subkey "-z" = 0 then
      some (.setStr .libZ)
    else if strcasecmp subkey "-chafa" = 0 then
      some (.setStr .libChafa)
    else if strcasecmp subkey "-egl" = 0 then
      some (.setStr .libEGL)
    else if strcasecmp subkey "-glx" = 0 then
      some (.setStr .libGLX)
    else if strcasecmp subkey "-osmesa" = 0 then
      some (.setStr .libOSMesa)
    else if strcasecmp subkey "-opencl" = 0 then
      some (.setStr .libOpenCL)
    else if strcasecmp subkey "-jsonc" = 0 then
      some (.setStr .libJSONC)
    else if strcasecmp subkey "-wlanapi" = 0 then
      some (.setStr .libwlanapi)
    else if strcasecmp key "-pulse" = 0 then
      some (.setStr .libPulse)
    else if strcasecmp subkey "-nm" = 0 then
      some (.setStr .libnm)
    else some .exit400
  else none

/-- The key tests of `parseOptionModule`, with the name of the action taken. -/
def classifyModule (key : CStr) : Option Action :=
  if strcasecmp key "--cpu-temp" = 0 then
    some (.setBool .cpuTemp)
  else if strcasecmp key "--gpu-temp" = 0 then
    some (.setBool .gpuTemp)
  else if strcasecmp key "--battery-temp" = 0 then
    some (.setBool .batteryTemp)
  else if strcasecmp key "--gpu-hide-integrated" = 0 then
    some (.setBool .gpuHideIntegrated)
  else if strcasecmp key "--gpu-hide-discrete" = 0 then
    some (.setBool .gpuHideDiscrete)
  else if strcasecmp key "--title-fqdn" = 0 then
    some (.setBool .titleFQDN)
  else if strcasecmp key "--shell-version" = 0 then
    some (.setBool .shellVersion)
  else if strcasecmp key "--terminal-version" = 0 then
    some (.setBool .terminalVersion)
  else if strcasecmp key "--disk-folders" = 0 then
    some (.setStr .diskFolders)
  else if strcasecmp key "--disk-show-removable" = 0 then
    some (.setBool .diskShowRemovable)
  else if strcasecmp key "--disk-show-hidden" = 0 then
    some (.setBool .diskShowHidden)
  else if strcasecmp key "--disk-show-subvolumes" = 0 then
    some (.setBool .diskShowSubvolumes)
  else if strcasecmp key "--disk-show-unknown" = 0 then
    some (.setBool .diskShowUnknown)
  else if strcasecmp key "--bluetooth-show-disconnected" = 0 then
    some (.setBool .bluetoothShowDisconnected)
  else if strcasecmp key "--sound-type" = 0 then
    some .soundType
  else if strcasecmp key "--battery-dir" = 0 then
    some (.setStr .batteryDir)
  else if strcasecmp key "--separator-string" = 0 then
    some (.setStr .separatorString)
  else if strcasecmp key "--localip-v6first" = 0 then
    some (.setBool .localIpV6First)
  else if strcasecmp key "--localip-show-ipv4" = 0 then
    some (.setBool .localIpShowIpV4)
  else if strcasecmp key "--localip-show-ipv6" = 0 then
    some (.setBool .localIpShowIpV6)
  else if strcasecmp key "--localip-show-loop" = 0 then
    some (.setBool .localIpShowLoop)
  else if strcasecmp key "--localip-name-prefix" = 0 then
    some (.setStr .localIpNamePrefix)
  else if strcasecmp key "--localip-compact-type" = 0 then
    some .localIpCompactType
  else if strcasecmp key "--os-file" = 0 then
    some (.setStr .osFile)
  else if strcasecmp key "--player-name" = 0 then
    some (.setStr .playerName)
  else if strcasecmp key "--public-ip-url" = 0 then
    some (.setStr .publicIpUrl)
  else if strcasecmp key "--public-ip-timeout" = 0 then
    some (.setUInt .publicIpTimeout)
  else if strcasecmp key "--weather-output-format" = 0 then
    some (.setStr .weatherOutputFormat)
  else if strcasecmp key "--weather-timeout" = 0 then
    some (.setUInt .weatherTimeout)
  else if strcasecmp key "--gl" = 0 then
    some .glType
  else if strcasecmp key "--percent-type" = 0 then
    some (.setUInt .percentType)
  else if strcasecmp key "--command-shell" = 0 then
    some (.setStr .commandShell)
  else if strcasecmp key "--command-key" = 0 then
    some .commandKey
  else if strcasecmp key "--command-text" = 0 then
    some .commandText
  else none

/-- The suffix test of `optionParseModuleArgs`: the field of the record that the key
names for the module, if any. -/
def moduleArgField (argumentKey : CStr) (moduleName : CStr) : Option ArgField :=
  if ¬ (charAt argumentKey 0 = '-' ∧ charAt argumentKey 1 = '-') then none
  else if strncasecmp (argumentKey.drop 2) moduleName (strlen moduleName) ≠ 0 then none
  else if charAt ((argumentKey.drop 2).drop (strlen moduleName)) 0 ≠ '-' then none
  else if strcasecmp (((argumentKey.drop 2).drop (strlen moduleName)).drop 1) "key" = 0 then
    some .key
  else if strcasecmp (((argumentKey.drop 2).drop (strlen moduleName)).drop 1) "format" = 0
    then some .outputFormat
  else if strcasecmp (((argumentKey.drop 2).drop (strlen moduleName)).drop 1) "error" = 0
    then some .errorFormat
  else none

/-- The key tests of `parseOptionModuleArgs`, with the name of the action taken. -/
def classifyModuleArgs (key : CStr) : List (String × Module) → Option Action
  | [] => none
  | (moduleName, m) :: rest =>
    match moduleArgField key moduleName with
    | some w => some (.moduleArg m w)
    | none => classifyModuleArgs key rest

/-- The action of `parseOption` for a key: the sections in source order. -/
def classify (key : CStr) : Action :=
  match classifyInformative key with
  | some a => a
  | none =>
  match classifyGeneral key with
  | some a => a
  | none =>
  match classifyLogo key with
  | some a => a
  | none =>
  match classifyDisplay key with
  | some a => a
  | none =>
  match classifyModuleArgs key moduleArgsCalls with
  | some a => a
  | none =>
  match classifyLibrary key with
  | some a => a
  | none =>
  match classifyModule key with
  | some a => a
  | none => .exit400

/-- The branch of `parseOption` that an action names. -/
def applyAction (loadConfig : PState → CStr → Option CStr → Outcome PState)
    (fs : FileSystem) (st : PState) (key : CStr) (value : Option CStr) :
    Action → Outcome PState
  | .exit0 => .exit 0 st
  | .exit400 => .exit 400 st
  | .listPresets => .exit 0 (appendToDataDirs st "fastfetch/presets/")
  | .listConfigPaths => .exit 0 (listConfigPaths st)
  | .listDataPaths => .exit 0 (appendToDataDirs st "fastfetch/")
  | .listLogos => .exit 0 (appendToDataDirs st "fastfetch/logos/")
  | .loadConfig => loadConfig st key value
  | .genConfig force => generateConfigFile fs st force
  | .setBool f => .ret (st.setBool f (optionParseBoolean value))
  | .stat =>
    if optionParseBoolean value then
      .ret ((st.setBool .stat (optionParseBoolean value)).setBool .showErrors true)
    else .ret (st.setBool .stat (optionParseBoolean value))
  | .loadUserConfig => .ret (st.setLoadUserConfig (optionParseBoolean value))
  | .setUInt f => withParsed st (optionParseUInt32 key value) (st.setUInt f)
  | .padding =>
    withParsed st (optionParseUInt32 key value) (fun padding =>
      (st.setUInt .logoPaddingLeft padding).setUInt .logoPaddingRight padding)
  | .setStr f => withParsed st (optionParseString key value (st.str f)) (st.setStr f)
  | .logo =>
    withParsed st (optionParseString key value (st.str .logoSource)) (fun s =>
      if strcasecmp (value.getD []) "none" = 0 then
        ((((st.setStr .logoSource s).setUInt .logoPaddingTop 0).setUInt
          .logoPaddingRight 0).setUInt .logoPaddingLeft 0).setLogoType .NONE
      else st.setStr .logoSource s)
  | .structureStr =>
    withParsed st (optionParseString key value st.data.structureBuf) st.setStructure
  | .sourceType t => setLogoSourceAndType st key value t
  | .logoType => withParsed st (optionParseEnum key value logoTypeNames) st.setLogoType
  | .binaryPrefix =>
    withParsed st (optionParseEnum key value binaryPrefixNames) st.setBinaryPrefixType
  | .soundType => withParsed st (optionParseEnum key value soundTypeNames) st.setSoundType
  | .localIpCompactType =>
    withParsed st (optionParseEnum key value localIpCompactTypeNames)
      st.setLocalIpCompactType
  | .glType => withParsed st (optionParseEnum key value glTypeNames) st.setGLType
  | .color f => withParsed st (optionParseColor key value (st.str f)) (st.setStr f)
  | .colorBoth =>
    withParsed st (optionParseColor key value (st.str .colorKeys))
      (fun s => (st.setStr .colorKeys s).setStr .colorTitle s)
  | .logoColor c =>
    if ((c.toNat : Int) - 49 < 0) ∨ ((c.toNat : Int) - 49 ≥ FASTFETCH_LOGO_MAX_COLORS) then
      .exit 472 st
    else
      withParsed st
        (optionParseColor key value
          (st.inst.config.logoColors ((c.toNat : Int) - 49).toNat))
        (st.setLogoColor ((c.toNat : Int) - 49).toNat)
  | .custom printKey =>
    withParsed st (optionParseCustomValue st.data.customValues key value printKey)
      st.setCustomValues
  | .moduleArg m w =>
    withParsed st (optionParseString key value ((st.inst.config.moduleArgs m).get w))
      (fun s => st.setModuleArgs m ((st.inst.config.moduleArgs m).set w s))
  | .commandKey =>
    withParsed (st.setCommandKeys (st.inst.config.commandKeys ++ [[]]))
      (optionParseString key value [])
      (fun s => (st.setCommandKeys (st.inst.config.commandKeys ++ [[]])).setCommandKeys
        (st.inst.config.commandKeys ++ [s]))
  | .commandText =>
    withParsed (st.setCommandTexts (st.inst.config.commandTexts ++ [[]]))
      (optionParseString key value [])
      (fun s => (st.setCommandTexts (st.inst.config.commandTexts ++ [[]])).setCommandTexts
        (st.inst.config.commandTexts ++ [s]))

/-- The actions that assign the parsed value to fields of the state: the options whose
value is parsed as a boolean, an unsigned integer, an enum constant or a plain string.
The other actions end the process, load a file, expand a colour into a buffer, write the
value store or add to a list. -/
def Action.assigns : Action → Bool
  | .setBool _ | .stat | .loadUserConfig | .setUInt _ | .padding | .setStr _ | .logo
  | .structureStr | .sourceType _ | .logoType | .binaryPrefix | .soundType
  | .localIpCompactType | .glType | .moduleArg _ _ => true
  | _ => false

/-- An update of the state that, field by field, either leaves the field as it is or
sets it to a value that does not depend on the state. -/
def Assigning (u : PState → PState) : Prop :=
  ∀ F : Field, (∀ s, F.same (u s) s) ∨ (∀ s s1, F.same (u s) (u s1))

/-- A key or value written in a configuration file as it is: not empty, without white
space, and not starting with the comment character or a quote. -/
def plainToken (t : CStr) : Prop :=
  t ≠ [] ∧ (∀ c ∈ t, isspace c = false) ∧ charAt t 0 ≠ '#' ∧ charAt t 0 ≠ '"'
    ∧ charAt t 0 ≠ Char.ofNat 39

/-- The configuration file line `k x`: key, one space, value, newline. -/
def configLine (k x : CStr) : List Char := k ++ ' ' :: (x ++ ['\n'])

/-! ## Concrete inputs for examples -/

/-- A file system without any file. -/
def noFiles : FileSystem := fun _ => none

/-- A configuration with every flag off, every number 0 and every string empty. -/
def emptyConfig : FFconfig :=
  { bools := fun _ => false, uints := fun _ => 0, strs := fun _ => [], logoType := .AUTO,
    logoColors := fun _ => [], binaryPrefixType := .IEC, soundType := .MAIN,
    localIpCompactType := .NONE, glType := .AUTO, moduleArgs := fun _ => ⟨[], [], []⟩,
    commandKeys := [], commandTexts := [] }

/-- An instance with the empty configuration, two configuration directories and one data
directory. -/
def exampleInstance : FFinstance :=
  { config := emptyConfig,
    configDirs := ["/home/u/.config/".toList, "/etc/xdg/".toList],
    dataDirs := ["/usr/share/".toList] }

/-- The state in which `main` starts parsing, for the example instance. -/
def exampleState : PState := ⟨exampleInstance, ⟨[], [], true⟩⟩

/-- A file system with two configuration files: the one in `/etc/xdg/` turns
`loadUserConfig` off and sets the separator to `Y`, the one in `/home/u/.config/` sets the
separator to `X`. -/
def exampleFiles : FileSystem := fun path =>
  if path = "/etc/xdg/fastfetch/config.conf".toList then
    some "--load-user-config false\n--separator Y\n".toList
  else if path = "/home/u/.config/fastfetch/config.conf".toList then
    some "--separator X\n".toList
  else none

/-- The names that `parseStructureCommand` compares a token with: the pseudo-rows and the
module names with their aliases, in source order. -/
def structureTokenNames : List String :=
  ["break", "title", "separator", "os", "host", "bios", "board", "brightness", "chassis",
   "kernel", "uptime", "processes", "packages", "shell", "display", "desktopenvironment",
   "de", "windowmanager", "wm", "theme", "wmtheme", "icons", "font", "cursor", "terminal",
   "terminalfont", "cpu", "cpuusage", "gpu", "memory", "swap", "disk", "battery",
   "poweradapter", "locale", "localip", "publicip", "wifi", "weather", "player", "media",
   "datetime", "date", "time", "colors", "vulkan", "opengl", "opencl", "users", "command",
   "bluetooth", "sound", "gamepad", "editor"]

/-- The print calls among the events of a run, in order. -/
def rowCalls (events : List Event) : List PrintCall :=
  events.filterMap (fun e => match e with
    | .row call => some call
    | _ => none)

/-- The segments of a structure string split at `:`, without the single empty segment
that follows a trailing `:` (or makes up the empty string). -/
def structureSegments (s : CStr) : List CStr :=
  if (s.splitOn ':').getLast? = some [] then (s.splitOn ':').dropLast else s.splitOn ':'

/-! ## Definitions for the claims on the sub-parsers -/

/-- The actions that store the result of `optionParseUInt32`. -/
def Action.parsesUInt : Action → Bool
  | .setUInt _ | .padding => true
  | _ => false

/-- The values in the syntax that `strtoul` converts up to their end: optional leading
white space, at most one sign, and after that nothing but decimal digits. -/
def strtoulForm (v : CStr) : Prop :=
  ∃ ws sign ds : CStr, v = ws ++ sign ++ ds ∧ (∀ x ∈ ws, isspace x = true)
    ∧ (sign = [] ∨ sign = ['+'] ∨ sign = ['-']) ∧ (∀ x ∈ ds, isdigit x = true)

/-- The entry of an enum option's list that the claim on enum options names: the first
one whose name equals the value when case is ignored. -/
def firstName {α : Type} (v : CStr) (args : List (String × α)) : Option (String × α) :=
  args.find? (fun p => decide (v.map tolower = p.1.toList.map tolower))

/-- What the claim on enum options states for a present value `v`: the field is set
(by `set`) to the constant paired with the first matching name, and without a matching
name the process ends with exit status 478 in the state `st`. -/
def setFirstName {α : Type} (st : PState) (v : CStr) (args : List (String × α))
    (set : α → PState) : Outcome PState :=
  match firstName v args with
  | some p => .ret (set p.2)
  | none => .exit 478 st

/-! ## Definitions for the claim on colour values -/

/-- The colour names of the claim on `optionParseColor` with the text emitted for each,
in the order in which they are tested. -/
def colorNames : List (String × String) :=
  [("reset_", "0;"), ("bright_", "1;"), ("black", "30"), ("red", "31"), ("green", "32"),
   ("yellow", "33"), ("blue", "34"), ("magenta", "35"), ("cyan", "36"), ("white", "37")]

/-- The text starts with the name when case is ignored. -/
def startsIgnoringCase (text name : CStr) : Bool :=
  (name.map tolower).isPrefixOf (text.map tolower)

/-- The first entry of the list whose name the text starts with, ignoring case. -/
def firstColorNameIn (text : CStr) : List (String × String) → Option (String × String)
  | [] => none
  | p :: names =>
    if startsIgnoringCase text p.1.toList then some p else firstColorNameIn text names

/-- The scan of the claim on `optionParseColor`, from left to right: at a position that
starts with a colour name the text of the first such name is emitted and the name is
skipped, any other character is copied. `skip` counts the characters of a name that are
still to be skipped. -/
def colorScan : Nat → CStr → CStr
  | _, [] => []
  | skip + 1, _ :: rest => colorScan skip rest
  | 0, c :: rest =>
    match firstColorNameIn (c :: rest) colorNames with
    | some p => p.2.toList ++ colorScan (p.1.toList.length - 1) rest
    | none => c :: colorScan 0 rest

/-! ## Definitions for the claim on module argument options -/

/-- The suffix of the option key that names the field of a module argument record. -/
def ArgField.suffix : ArgField → String
  | .key => "key"
  | .outputFormat => "format"
  | .errorFormat => "error"

/-- The option key `--<name>-<suffix>`. -/
def moduleArgKey (name : String) (w : ArgField) : CStr :=
  "--".toList ++ name.toList ++ '-' :: w.suffix.toList

/-- The action is the assignment of the field `w` of the record of module `m`. -/
def Action.isModuleArg (m : Module) (w : ArgField) : Action → Bool
  | .moduleArg m1 w1 => decide (m1 = m ∧ w1 = w)
  | _ => false

/-! ## Definitions for the claims on custom values -/

/-- The two keys that call `optionParseCustomValue`, by the `printKey` argument of the
call: `--set` passes `true`, `--set-keyless` passes `false`. -/
def setKey (printKey : Bool) : CStr :=
  if printKey then "--set".toList else "--set-keyless".toList

/-! ## Definitions for the claim on `--load-config` -/

/-- The first path of the list that can be opened, with the content of its file. -/
def openFirst (fs : FileSystem) : List CStr → Option (CStr × List Char)
  | [] => none
  | p :: ps =>
    match fs p with
    | some content => some (p, content)
    | none => openFirst fs ps

/-- The paths that the claim on `optionParseConfigFile` names for `v`, in the order in
which they are tried: `v` itself, then `<d>fastfetch/presets/<v>` for the data
directories `d` in list order. -/
def loadCandidates (dataDirs : List CStr) (v : CStr) : List CStr :=
  v :: dataDirs.map (fun d => d ++ "fastfetch/presets/".toList ++ v)

/-- The lines of the first file of the list that can be opened are parsed and applied to
the state, and no other file is read; exit status 414 with the state as it is when no
file of the list can be opened. -/
def parseFirst (parseOption : PState → CStr → Option CStr → Outcome PState)
    (fs : FileSystem) (st : PState) (paths : List CStr) : Outcome PState :=
  match openFirst fs paths with
  | some (_, content) => parseConfigLines parseOption (getlines content []) st
  | none => .exit 414 st

/-- A file system with one preset, `neofetch`, in the data directory `/usr/share/`. -/
def examplePresets : FileSystem := fun path =>
  if path = "/usr/share/fastfetch/presets/neofetch".toList then
    some "--separator X\n".toList
  else none

/-! ## Definitions for the claim on the preparation steps -/

/-- The structure string references the module: the module name occurs in it, letter
case ignored (`ffStrbufContainIgnCaseS`). -/
def references (st : PState) (moduleName : String) : Bool :=
  ffStrbufContainIgnCaseS st.data.structureBuf moduleName.toList

/-- The preparation steps by module: the CPU usage step runs when the structure
references `CPUUsage`; the public IP step and the weather step run when multithreading
is on and the structure references `PublicIp`, `Weather`. -/
def preparationSteps (st : PState) : List Event :=
  (if references st "CPUUsage" then [Event.ffPrepareCPUUsage] else []) ++
  (if st.inst.config.bools .multithreading ∧ references st "PublicIp"
    then [Event.ffPreparePublicIp] else []) ++
  (if st.inst.config.bools .multithreading ∧ references st "Weather"
    then [Event.ffPrepareWeather] else [])

/-- The event belongs to the dispatch of a structure token: a print call or the timing
overlay. -/
def Event.isDispatch : Event → Bool
  | .row _ | .timing _ => true
  | _ => false

/-! ## Definitions for the claim on the command line -/

/-- The rule of the claim on `parseArguments`: the key takes the next argument as its
value when there is one and it does not start with `-` or the key is
`--separator-string`, letter case ignored. -/
def takesValue (key : CStr) (next : Option CStr) : Bool :=
  match next with
  | none => false
  | some n => decide (charAt n 0 ≠ '-') || decide (strcasecmp key "--separator-string".toList = 0)

/-- The arguments after `argv[0]` read from left to right as keys with their values by
the rule `takesValue`; an argument that is not taken as a value is the next key. -/
def pairArguments : List CStr → List (CStr × Option CStr)
  | [] => []
  | [key] => [(key, none)]
  | key :: next :: rest =>
    if takesValue key (some next) then (key, some next) :: pairArguments rest
    else (key, none) :: pairArguments (next :: rest)

/-- The options applied in order, as long as none ends the process. -/
def applyPairs (parseOption : PState → CStr → Option CStr → Outcome PState) :
    List (CStr × Option CStr) → PState → Outcome PState
  | [], st => .ret st
  | (key, value) :: rest, st => (parseOption st key value).bind (applyPairs parseOption rest)

/-! ## The editor detector (`detection/editor/editor.c`) -/

/-- The record `FFEditorResult`. -/
structure FFEditorResult where
  visualName : CStr
  editorName : CStr
deriving DecidableEq, Repr

/-- The part of the process environment that the editor detector reads and changes: the
environment variables, the standard output of a command run with the argument
`--version` (`none` when running it fails), which may differ from one run to the next
and so depends on the number of processes run before, and the commands run so far, in
order. -/
structure World where
  getenv : CStr → Option CStr
  stdoutOf : Nat → CStr → Option CStr
  spawned : List CStr

/-- Modelled from the spec: `ffProcessAppendStdOut` of `common/processing.h`, not part of
the sources at hand. The command is run with the argument `--version` and its standard
output is appended to the buffer; the result tells whether an error message was
returned. -/
def ffProcessAppendStdOut (w : World) (buffer : CStr) (command : CStr) :
    World × Bool × CStr :=
  let w1 : World := { w with spawned := w.spawned ++ [command] }
  match w.stdoutOf w.spawned.length command with
  | none => (w1, true, buffer)
  | some out => (w1, false, buffer ++ out)

/-- Modelled from the spec: `ffStrbufSubstrBeforeFirstC` of the string buffer utilities,
the buffer is cut before the first occurrence of the character, if there is one. -/
def ffStrbufSubstrBeforeFirstC (buf : CStr) (c : Char) : CStr :=
  buf.takeWhile (fun x => x ≠ c)

/-- Source `getVisual`: with `VISUAL` set the command is run; when that succeeds with a
non-empty output, its first line is the name; in every other case the name is empty. -/
def getVisual (w : World) (result : FFEditorResult) : World × FFEditorResult :=
  match w.getenv "VISUAL".toList with
  | some env_visual =>
    let r := ffProcessAppendStdOut w [] env_visual
    if !r.2.1 ∧ r.2.2.length > 0 then
      (r.1, { result with visualName := ffStrbufSubstrBeforeFirstC r.2.2 '\n' })
    else (r.1, { result with visualName := [] })
  | none => (w, { result with visualName := [] })

/-- Source `getEditor`: as `getVisual`, for `EDITOR` and the field `editorName`. -/
def getEditor (w : World) (result : FFEditorResult) : World × FFEditorResult :=
  match w.getenv "EDITOR".toList with
  | some env_editor =>
    let r := ffProcessAppendStdOut w [] env_editor
    if !r.2.1 ∧ r.2.2.length > 0 then
      (r.1, { result with editorName := ffStrbufSubstrBeforeFirstC r.2.2 '\n' })
    else (r.1, { result with editorName := [] })
  | none => (w, { result with editorName := [] })

/-- Source `ffDetectEditor`: under the mutex, `getVisual` and `getEditor` fill the static
record, whose content is returned; the second argument is the content of the static
record before the call. -/
def ffDetectEditor (w : World) (static : FFEditorResult) : World × FFEditorResult :=
  let r1 := getVisual w static
  getEditor r1.1 r1.2

/-- An environment with `VISUAL=vi` and `EDITOR=nano`, in which `vi --version` prints a
different first line from the third process on. -/
def exampleWorld : World :=
  { getenv := fun name =>
      if name = "VISUAL".toList then some "vi".toList
      else if name = "EDITOR".toList then some "nano".toList
      else none
    stdoutOf := fun n command =>
      if command = "vi".toList then
        some (if n < 2 then "VIM 8.2\nmore\n".toList else "VIM 9.0\n".toList)
      else if command = "nano".toList then some "GNU nano 6.2\n".toList
      else none
    spawned := [] }

/-! ## Definitions for the claims on configuration file lines -/

/-- The text of a line without its leading and trailing white space. -/
def trimBoth (line : List Char) : List Char :=
  ((line.dropWhile isspace).reverse.dropWhile isspace).reverse

/-- The lines for which no option is applied according to the claim: the empty line, the
line of white space only, and the line whose first character that is not white space is
the comment character. -/
def skippedLine (line : List Char) : Bool :=
  line.all isspace || (line.find? (fun c => !isspace c) == some '#')

/-- The key and the value that `parseConfigFile` hands to `parseOption` for the trimmed
text of a line: the split at the first space found by `strchr`, the value after the white
space that follows, unquoted. -/
def lineCall (trimmed : CStr) : CStr × Option CStr :=
  match strchr trimmed ' ' with
  | none => (trimmed, none)
  | some (key, valueStart) =>
    (key, some (unquoteValue ((valueStart.drop 1).dropWhile isspace)))

/-- The action with the index character of `--logo-color-N` in lower case. -/
def Action.lower : Action → Action
  | .logoColor c => .logoColor (tolower c)
  | a => a

/-! ## Definitions for the claim on nested `--load-config` -/

/-- Every returning call of the option parser leaves the list of data directories as it
was. -/
def PreservesDataDirs (po : PState → CStr → Option CStr → Outcome PState) : Prop :=
  ∀ st key value s, po st key value = .ret s → s.inst.dataDirs = st.inst.dataDirs

/-- A file system with two presets in `/usr/share/`: `outer` loads `inner` and then sets
the separator, `inner` turns the display of errors on. -/
def nestedPresets : FileSystem := fun path =>
  if path = "/usr/share/fastfetch/presets/outer".toList then
    some "--load-config inner\n--separator X\n".toList
  else if path = "/usr/share/fastfetch/presets/inner".toList then
    some "--show-errors true\n".toList
  else none

/-! ## Definitions for the claim on unknown options -/

/-- The suffixes that `parseOption` knows after `--print`. -/
def printSuffixes : List String := ["-config-system", "-config-user", "-structure", "-logos"]

/-- The suffixes that `parseOption` knows after `--list`. -/
def listSuffixes : List String :=
  ["-modules", "-presets", "-config-paths", "-data-paths", "-features", "-logos",
   "-logos-autocompletion"]

/-- The suffixes that `parseOption` knows after `--logo`, apart from `-color-N`. -/
def logoSuffixes : List String :=
  ["-type", "-width", "-height", "-padding", "-padding-top", "-padding-left",
   "-padding-right", "-print-remaining", "-preserve-aspect-radio"]

/-- The suffixes that `parseOption` names after `--lib`. -/
def libSuffixes : List String :=
  ["-PCI", "-vulkan", "-freetype", "-wayland", "-xcb-randr", "-xcb", "-Xrandr", "-X11",
   "-gio", "-DConf", "-dbus", "-XFConf", "-sqlite", "-sqlite3", "-rpm", "-imagemagick",
   "-z", "-chafa", "-egl", "-glx", "-osmesa", "-opencl", "-jsonc", "-wlanapi", "-pulse",
   "-nm"]

/-! ## Definitions for the claims on `--lib`, `--stat` and large numbers -/

/-- The suffixes of the `--lib` group with the path field that each names, in source
order; `-pulse` is listed with its field `libPulse`. -/
def libFields : List (String × StrField) :=
  [("-PCI", .libPCI), ("-vulkan", .libVulkan), ("-freetype", .libfreetype),
   ("-wayland", .libWayland), ("-xcb-randr", .libXcbRandr), ("-xcb", .libXcb),
   ("-Xrandr", .libXrandr), ("-X11", .libX11), ("-gio", .libGio), ("-DConf", .libDConf),
   ("-dbus", .libDBus), ("-XFConf", .libXFConf), ("-sqlite", .libSQLite3),
   ("-sqlite3", .libSQLite3), ("-rpm", .librpm), ("-imagemagick", .libImageMagick),
   ("-z", .libZ), ("-chafa", .libChafa), ("-egl", .libEGL), ("-glx", .libGLX),
   ("-osmesa", .libOSMesa), ("-opencl", .libOpenCL), ("-jsonc", .libJSONC),
   ("-wlanapi", .libwlanapi), ("-pulse", .libPulse), ("-nm", .libnm)]

/-- The action is the assignment of the string field `f`. -/
def Action.isSetStr (f : StrField) : Action → Bool
  | .setStr g => decide (g = f)
  | _ => false

/-! ## Definitions for the claim on the letter case of structure tokens -/

/-- The function that `parseStructureCommand` invokes for a token, without the text
arguments of the call. -/
inductive Handler where
  | ffPrintCustom
  | ffPrintErrorString
  | entry (f : EntryPoint)
deriving DecidableEq, Repr

/-- The handler of a print call. -/
def PrintCall.handler : PrintCall → Handler
  | .ffPrintCustom _ _ => .ffPrintCustom
  | .ffPrintErrorString _ _ => .ffPrintErrorString
  | .entry f => .entry f

/-! ## Definitions for the claim on `--logo-color-N` -/

/-- The name that the claim on `ffDetectEditor` gives for an environment variable: the
text before the first newline of the standard output of the command held by the variable,
run with `--version`, when the variable is set, the command succeeds and the output is
not empty; the empty string otherwise. -/
def probeName (w : World) (envName : String) : CStr :=
  match w.getenv envName.toList with
  | some command =>
    match w.stdoutOf w.spawned.length command with
    | some out => if out ≠ [] then out.takeWhile (fun x => x ≠ '\n') else []
    | none => []
  | none => []

/-- The calls that `ffPrintEditor` makes to the printing functions of
`common/printing.h` and to the output of a string buffer, with their arguments other than
the instance. -/
inductive EditorPrint where
  | ffPrintError (moduleName : CStr) (moduleIndex : Nat) (moduleArgs : FFModuleArgs)
      (message : CStr)
  | ffPrintLogoAndKey (moduleName : CStr) (moduleIndex : Nat) (customKeyFormat : CStr)
  | ffStrbufPutTo (text : CStr)
  | ffPrintFormat (moduleName : CStr) (moduleIndex : Nat) (moduleArgs : FFModuleArgs)
      (numArgs : Nat) (arguments : List CStr)
deriving DecidableEq, Repr

/-- Source `ffPrintEditor` (`modules/editor.c`) from the detection result on: the error
row when both names are empty; with an empty `outputFormat` the key and the default text;
otherwise `ffPrintFormat` with the two names. -/
def ffPrintEditorWith (config : FFconfig) (editor : FFEditorResult) : List EditorPrint :=
  if editor.visualName.length = 0 ∧ editor.editorName.length = 0 then
    [.ffPrintError "Editor".toList 0 (config.moduleArgs .editor)
      "neither $VISUAL nor $EDITOR is set.".toList]
  else if (config.moduleArgs .editor).outputFormat.length = 0 then
    [.ffPrintLogoAndKey "Editor".toList 0 (config.moduleArgs .editor).key,
     .ffStrbufPutTo
       (if editor.visualName.length > 0 then editor.visualName else editor.editorName)]
  else
    [.ffPrintFormat "Editor".toList 0 (config.moduleArgs .editor) 2
      [editor.visualName, editor.editorName]]

/-- Source `ffPrintEditor`: the detection, then the printing. -/
def ffPrintEditor (config : FFconfig) (w : World) (static : FFEditorResult) :
    World × FFEditorResult × List EditorPrint :=
  let r := ffDetectEditor w static
  (r.1, r.2, ffPrintEditorWith config r.2)

/-- The call reports an error row. -/
def EditorPrint.isError : EditorPrint → Bool
  | .ffPrintError _ _ _ _ => true
  | _ => false

/-- The call prints through the output side of the module: the key with the default text
or the output template. -/
def EditorPrint.isOutput : EditorPrint → Bool
  | .ffPrintError _ _ _ _ => false
  | _ => true

/-- The environment of `exampleWorld` with commands whose output is the same at every
run. -/
def steadyWorld : World :=
  { getenv := exampleWorld.getenv
    stdoutOf := fun _ command => exampleWorld.stdoutOf 0 command
    spawned := [] }

/-! ## Definitions for the claims on the help of the format options -/

/-- One branch of `printCommandHelp` that calls `constructAndPrintCommandHelpFormat`: the
commands that the branch compares with `strcasecmp`, and the arguments of the call, the
name, the default format (`def` in the source), `numArgs` and the variadic arguments. -/
structure HelpFormatCall where
  commands : List String
  name : String
  defaultFormat : String
  numArgs : Nat
  descriptions : List String
deriving DecidableEq, Repr

/-- Source `printCommandHelp`: the branches with a call of
`constructAndPrintCommandHelpFormat`, in the order of the source. -/
def helpFormatCalls : List HelpFormatCall := [
  { commands := ["os-format"]
    name := "os"
    defaultFormat := "\x7b3\x7d \x7b12\x7d"
    numArgs := 12
    descriptions :=
      ["System name (typically just Linux)", "Name of the OS", "Pretty name of the OS",
       "ID of the OS", "ID like of the OS", "Variant of the OS", "Variant ID of the OS",
       "Version of the OS", "Version ID of the OS", "Version codename of the OS",
       "Build ID of the OS", "Architecture of the OS"] },
  { commands := ["host-format"]
    name := "host"
    defaultFormat := "\x7b2\x7d \x7b3\x7d"
    numArgs := 8
    descriptions :=
      ["product family", "product name", "product version", "product sku",
       "chassis type", "chassis vendor", "chassis version", "sys vendor"] },
  { commands := ["bios-format"]
    name := "bios"
    defaultFormat := "\x7b2\x7d \x7b3\x7d"
    numArgs := 4
    descriptions :=
      ["bios date", "bios release", "bios vendor", "bios version"] },
  { commands := ["board-format"]
    name := "board"
    defaultFormat := "\x7b2\x7d \x7b3\x7d"
    numArgs := 3
    descriptions :=
      ["board name", "board vendor", "board version"] },
  { commands := ["chassis-format"]
    name := "chassis"
    defaultFormat := "\x7b2\x7d \x7b3\x7d"
    numArgs := 4
    descriptions :=
      ["chassis type", "chassis vendor", "chassis version"] },
  { commands := ["kernel-format"]
    name := "kernel"
    defaultFormat := "\x7b2\x7d"
    numArgs := 3
    descriptions :=
      ["Kernel sysname", "Kernel release", "Kernel version"] },
  { commands := ["uptime-format"]
    name := "uptime"
    defaultFormat := "\x7b\x7d days \x7b\x7d hours \x7b\x7d mins"
    numArgs := 4
    descriptions :=
      ["Days", "Hours", "Minutes", "Seconds"] },
  { commands := ["processes-format"]
    name := "processes"
    defaultFormat := "\x7b\x7d"
    numArgs := 1
    descriptions :=
      ["Count"] },
  { commands := ["packages-format"]
    name := "packages"
    defaultFormat :=
      "\x7b2\x7d (pacman)\x7b?3\x7d[\x7b3\x7d]\x7b?\x7d, \x7b4\x7d (dpkg), \x7b5\x7d (rpm), \x7b6\x7d (emerge"
        ++ "), \x7b7\x7d (eopkg), \x7b8\x7d (xbps), \x7b9\x7d (nix-system), \x7b10\x7d (nix-user"
        ++ "), \x7b11\x7d (nix-default), \x7b12\x7d (apk), \x7b13\x7d (pkg), \x7b14\x7d (flatpak"
        ++ "), \x7b15\x7d (snap), \x7b16\x7d (brew), \x7b17\x7d (brew-cask), \x7b18\x7d (port), "
        ++ "\x7b19\x7d (scoop), \x7b20\x7d (choco)"
    numArgs := 20
    descriptions :=
      ["Number of all packages", "Number of pacman packages",
       "Pacman branch on manjaro", "Number of dpkg packages", "Number of rpm packages",
       "Number of emerge packages", "Number of eopkg packages",
       "Number of xbps packages", "Number of nix-system packages",
       "Number of nix-user packages", "Number of nix-default packages",
       "Number of apk packages", "Number of pkg packages", "Number of flatpak packages",
       "Number of snap packages", "Number of brew packages",
       "Number of brew-cask packages", "Number of macports packages",
       "Number of scoop packages", "Number of choco packages"] },
  { commands := ["shell-format"]
    name := "shell"
    defaultFormat := "\x7b3\x7d \x7b4\x7d"
    numArgs := 7
    descriptions :=
      ["Shell process name", "Shell path with exe name", "Shell exe name",
       "Shell version", "User shell path with exe name", "User shell exe name",
       "User shell version"] },
  { commands := ["display-format"]
    name := "display"
    defaultFormat := "\x7b\x7dx\x7b\x7d @ \x7b\x7dHz"
    numArgs := 5
    descriptions :=
      ["Screen width", "Screen height", "Screen refresh rate", "Screen scaled width",
       "Screen scaled height"] },
  { commands := ["de-format"]
    name := "de"
    defaultFormat := "\x7b2\x7d \x7b3\x7d"
    numArgs := 3
    descriptions :=
      ["DE process name", "DE pretty name", "DE version"] },
  { commands := ["wm-format"]
    name := "wm"
    defaultFormat := "\x7b2\x7d (\x7b3\x7d)"
    numArgs := 3
    descriptions :=
      ["WM process name", "WM pretty name", "WM protocol name"] },
  { commands := ["wm-theme-format"]
    name := "wm-theme"
    defaultFormat := "\x7b\x7d"
    numArgs := 1
    descriptions :=
      ["WM theme name"] },
  { commands := ["theme-format"]
    name := "theme"
    defaultFormat := "\x7b\x7d (\x7b3\x7d) [Plasma], \x7b7\x7d"
    numArgs := 7
    descriptions :=
      ["Plasma theme", "Plasma color scheme", "Plasma color scheme pretty",
       "GTK2 theme", "GTK3 theme", "GTK4 theme", "Combined GTK themes"] },
  { commands := ["icons-format"]
    name := "icons"
    defaultFormat := "\x7b\x7d [Plasma], \x7b5\x7d"
    numArgs := 5
    descriptions :=
      ["Plasma icons", "GTK2 icons", "GTK3 icons", "GTK4 icons", "Combined GTK icons"] },
  { commands := ["font-format"]
    name := "font"
    defaultFormat := "\x7b\x7d [QT], \x7b\x7d [GTK2], \x7b\x7d [GTK3], \x7b\x7d [GTK4]"
    numArgs := 4
    descriptions :=
      ["Font 1", "Font 2", "Font 3", "Font 4"] },
  { commands := ["cursor-format"]
    name := "cursor"
    defaultFormat := "\x7b\x7d (\x7b\x7dpt)"
    numArgs := 2
    descriptions :=
      ["Cursor theme", "Cursor size"] },
  { commands := ["terminal-format"]
    name := "terminal"
    defaultFormat := "\x7b3\x7d"
    numArgs := 10
    descriptions :=
      ["Terminal process name", "Terminal path with exe name", "Terminal exe name",
       "Shell process name", "Shell path with exe name", "Shell exe name",
       "Shell version", "User shell path with exe name", "User shell exe name",
       "User shell version"] },
  { commands := ["terminal-font-format"]
    name := "terminal-font"
    defaultFormat := "\x7b\x7d"
    numArgs := 4
    descriptions :=
      ["Terminal font", "Terminal font name", "Termianl font size",
       "Terminal font styles"] },
  { commands := ["cpu-format"]
    name := "cpu"
    defaultFormat := "\x7b1\x7d (\x7b5\x7d) @ \x7b7\x7dGHz"
    numArgs := 8
    descriptions :=
      ["Name", "Vendor", "Physical core count", "Logical core count",
       "Online core count", "Min frequency", "Max frequency", "Temperature"] },
  { commands := ["cpu-usage-format"]
    name := "cpu-usage"
    defaultFormat := "\x7b0\x7d%"
    numArgs := 1
    descriptions :=
      ["CPU usage without percent mark"] },
  { commands := ["gpu-format"]
    name := "gpu"
    defaultFormat := "\x7b\x7d \x7b\x7d"
    numArgs := 6
    descriptions :=
      ["GPU vendor", "GPU name", "GPU driver", "GPU temperature", "GPU core count",
       "GPU type"] },
  { commands := ["memory-format"]
    name := "memory"
    defaultFormat := "\x7b\x7d / \x7b\x7d (\x7b\x7d%)"
    numArgs := 3
    descriptions :=
      ["Used size", "Total size", "Percentage used"] },
  { commands := ["swap-format"]
    name := "swap"
    defaultFormat := "\x7b\x7d / \x7b\x7d (\x7b\x7d%)"
    numArgs := 3
    descriptions :=
      ["Used size", "Total size", "Percentage used"] },
  { commands := ["disk-format"]
    name := "disk"
    defaultFormat := "\x7b1\x7d / \x7b2\x7d (\x7b3\x7d%)"
    numArgs := 9
    descriptions :=
      ["Size used", "Size total", "Size percentage", "Files used", "Files total",
       "Files percentage", "True if removable volume", "True if hidden volume",
       "Filesystem"] },
  { commands := ["battery-format"]
    name := "battery"
    defaultFormat := "\x7b\x7d%, \x7b\x7d"
    numArgs := 5
    descriptions :=
      ["Battery manufactor", "Battery model", "Battery technology", "Battery capacity",
       "Battery status"] },
  { commands := ["poweradapter-format"]
    name := "poweradapter"
    defaultFormat := "\x7b\x7d%, \x7b\x7d"
    numArgs := 5
    descriptions :=
      ["PowerAdapter watts", "PowerAdapter name", "PowerAdapter manufacturer",
       "PowerAdapter model", "PowerAdapter description"] },
  { commands := ["locale-format"]
    name := "locale"
    defaultFormat := "\x7b\x7d"
    numArgs := 1
    descriptions :=
      ["Locale code"] },
  { commands := ["local-ip-format"]
    name := "local-ip"
    defaultFormat := "\x7b\x7d"
    numArgs := 1
    descriptions :=
      ["Local IP address"] },
  { commands := ["public-ip-format"]
    name := "public-ip"
    defaultFormat := "\x7b\x7d"
    numArgs := 1
    descriptions :=
      ["Public IP address"] },
  { commands := ["wifi-format"]
    name := "wifi"
    defaultFormat := "\x7b4\x7d - \x7b6\x7d"
    numArgs := 3
    descriptions :=
      ["Interface description", "Interface status", "Connection status",
       "Connection SSID", "Connection mac address", "Connection protocol",
       "Connection signal quality (percentage)", "Connection RX rate",
       "Connection TX rate", "Connection Security algorithm"] },
  { commands := ["player-format"]
    name := "player"
    defaultFormat := "\x7b\x7d"
    numArgs := 4
    descriptions :=
      ["Pretty player name", "Player name", "DBus bus name", "URL name"] },
  { commands := ["media-format"]
    name := "media"
    defaultFormat := "\x7b3\x7d - \x7b1\x7d"
    numArgs := 4
    descriptions :=
      ["Pretty media name", "Media name", "Artist name", "Album name"] },
  { commands := ["datetime-format", "date-format", "time-format"]
    name := "[date][time]"
    defaultFormat := "\x7b1\x7d-\x7b4\x7d-\x7b11\x7d \x7b14\x7d:\x7b18\x7d:\x7b20\x7d"
    numArgs := 20
    descriptions :=
      ["year", "last two digits of year", "month", "month with leading zero",
       "month name", "month name short", "week number on year", "weekday",
       "weekday short", "day in year", "day in month", "day in Week", "hour",
       "hour with leading zero", "hour 12h format", "hour 12h format with leading zero",
       "minute", "minute with leading zero", "second", "second with leading zero"] },
  { commands := ["vulkan-format"]
    name := "vulkan"
    defaultFormat := "\x7b\x7d (driver), \x7b\x7d (api version)"
    numArgs := 3
    descriptions :=
      ["Driver name", "API version", "Conformance version"] },
  { commands := ["opengl-format"]
    name := "opengl"
    defaultFormat := "\x7b\x7d"
    numArgs := 3
    descriptions :=
      ["version", "renderer", "vendor", "shading language version"] },
  { commands := ["opencl-format"]
    name := "opencl"
    defaultFormat := "\x7b\x7d"
    numArgs := 3
    descriptions :=
      ["version", "device", "vendor"] },
  { commands := ["bluetooth-format"]
    name := "bluetooth"
    defaultFormat := "\x7b1\x7d (4%)"
    numArgs := 4
    descriptions :=
      ["Name", "Address", "Type", "Battery percentage"] },
  { commands := ["sound-format"]
    name := "sound"
    defaultFormat := "\x7b2\x7d (3%)"
    numArgs := 4
    descriptions :=
      ["Main", "Name", "Volume", "Identifier"] },
  { commands := ["gamepad-format"]
    name := "gamepad"
    defaultFormat := "\x7b1\x7d"
    numArgs := 1
    descriptions :=
      ["Name", "Identifier"] },
  { commands := ["editor-format"]
    name := "editor"
    defaultFormat := "\x7b\x7d"
    numArgs := 2
    descriptions :=
      ["Visual editor name", "Editor name"] }]

/-- Source `constructAndPrintCommandHelpFormat`, the loop
`for(i = 1; i <= numArgs; i++) printf(..., i, va_arg(argp, const char*))`: the first
argument counts the rounds that are left, the second is `i`, the third holds the variadic
arguments not yet taken. Each round takes the next argument with `va_arg`; the result is
`none` when `va_arg` is called with no argument left, which C leaves undefined. -/
def placeholderLoop : Nat → Nat → List String → Option (List (Nat × String))
  | 0, _, _ => some []
  | _ + 1, _, [] => none
  | n + 1, i, d :: ds => (placeholderLoop n (i + 1) ds).map (fun rows => (i, d) :: rows)

/-- The line that the loop prints for a placeholder, `printf("        {%u}: %s\\n", ...)`. -/
def placeholderLine (row : Nat × String) : String :=
  "        \x7b" ++ toString row.1 ++ "\x7d: " ++ row.2

/-- Source `constructAndPrintCommandHelpFormat`: the lines printed, `none` when the loop
reads past the variadic arguments. -/
def constructAndPrintCommandHelpFormat (name defaultFormat : String) (numArgs : Nat)
    (descriptions : List String) : Option (List String) :=
  (placeholderLoop numArgs 1 descriptions).map (fun rows =>
    ["--" ++ name ++ "-format:",
     "Sets the format string for " ++ name ++ " output.",
     "To see how a format string is constructed, take a look at \"fastfetch --help format\".",
     "The following values are passed:"]
    ++ rows.map placeholderLine
    ++ ["The default is something similar to \"" ++ defaultFormat ++ "\"."])

/-- What `printCommandHelp` does: it prints one of the data texts, or the lines of a format
help, or reads past the arguments of a call, or reports that there is no help. -/
inductive HelpOutput where
  | dataText (text : String)
  | formatHelp (lines : List String)
  | undefinedRead (call : HelpFormatCall)
  | noSpecificHelp (command : CStr)
deriving DecidableEq, Repr

/-- Source `printCommandHelp`: the chain of comparisons of the command, `none` is the
`NULL` command. -/
def printCommandHelp (command : Option CStr) : HelpOutput :=
  match command with
  | none => .dataText "FASTFETCH_DATATEXT_HELP"
  | some c =>
    if strcasecmp c "c" = 0 ∨ strcasecmp c "color" = 0 then
      .dataText "FASTFETCH_DATATEXT_HELP_COLOR"
    else if strcasecmp c "format" = 0 then .dataText "FASTFETCH_DATATEXT_HELP_FORMAT"
    else if strcasecmp c "load-config" = 0 ∨ strcasecmp c "loadconfig" = 0
        ∨ strcasecmp c "config" = 0 then
      .dataText "FASTFETCH_DATATEXT_HELP_CONFIG"
    else
      match helpFormatCalls.find?
          (fun e => e.commands.any (fun t => decide (strcasecmp c t.toList = 0))) with
      | some e =>
        match constructAndPrintCommandHelpFormat e.name e.defaultFormat e.numArgs
            e.descriptions with
        | some lines => .formatHelp lines
        | none => .undefinedRead e
      | none => .noSpecificHelp c

/-- The calls of `printCommandHelp` in which the placeholder count differs from the number
of descriptions passed, with the count and the number. -/
def helpCountMismatches : List (String × Nat × Nat) :=
  (helpFormatCalls.filter (fun e => decide (e.numArgs ≠ e.descriptions.length))).map
    (fun e => (e.name, e.numArgs, e.descriptions.length))

/-- An environment in which neither `VISUAL` nor `EDITOR` is set. -/
def emptyWorld : World :=
  { getenv := fun _ => none
    stdoutOf := fun _ _ => none
    spawned := [] }

/-- The configuration of `exampleState` with an output format for the editor module. -/
def editorFormatConfig : FFconfig :=
  (exampleState.setModuleArgs .editor
    { exampleState.inst.config.moduleArgs .editor with
      outputFormat := "editor: \x7b2\x7d".toList }).inst.config

/-! ## The Format Engine -/

/-- Modelled from the spec: an argument of the Format Engine (`common/format.h` is not
part of the sources at hand); by the spec the arguments are typed, a string, a number
or a boolean. -/
inductive FFformatarg where
  | string (s : CStr)
  | number (n : Nat)
  | boolean (b : Bool)
deriving DecidableEq, Repr

/-- Modelled from the spec: the textual form of an argument. -/
def FFformatarg.text : FFformatarg → CStr
  | .string s => s
  | .number n => (toString n).toList
  | .boolean b => if b then "true".toList else "false".toList

/-- Modelled from the spec: an argument is present when it is a non-empty string, a
non-zero number or a true boolean. -/
def FFformatarg.present : FFformatarg → Bool
  | .string s => !s.isEmpty
  | .number n => n != 0
  | .boolean b => b

/-- Modelled from the spec: the textual form of the argument with the 1-based index `n`,
empty when there is no such argument. -/
def argumentText (args : List FFformatarg) (n : Nat) : CStr :=
  if n = 0 then []
  else
    match args.get? (n - 1) with
    | some a => a.text
    | none => []

/-- Modelled from the spec: whether the argument with the 1-based index `n` is present;
an argument that does not exist is not. -/
def argumentPresent (args : List FFformatarg) (n : Nat) : Bool :=
  if n = 0 then false
  else
    match args.get? (n - 1) with
    | some a => a.present
    | none => false

/-- The number written by a text of decimal digits. -/
def digitsValue (ds : CStr) : Nat :=
  ds.foldl (fun acc c => acc * 10 + (c.toNat - 48)) 0

/-- The marks of a template: a placeholder with an index, the start of a conditional block
with its index, and the end of a conditional block. -/
inductive FormatMark where
  | index (n : Nat)
  | ifPresent (n : Nat)
  | endIf
deriving DecidableEq, Repr

/-- Modelled from the spec: the mark that starts at the head of a text, with the number of
characters it takes: the end of a block, a closing bracket with the question mark in
braces; the start of a block, the question mark and the digits of the index in braces with
the opening bracket; or the digits of an index in braces. -/
def formatMarkAt (t : CStr) : Option (FormatMark × Nat) :=
  if t.take 4 = "]\x7b?\x7d".toList then some (.endIf, 4)
  else if t.head? ≠ some (Char.ofNat 123) then none
  else if (t.drop 1).head? = some '?' then
    if (t.drop 2).takeWhile isdigit ≠ []
        ∧ ((t.drop 2).dropWhile isdigit).take 2 = "\x7d[".toList then
      some (.ifPresent (digitsValue ((t.drop 2).takeWhile isdigit)),
        ((t.drop 2).takeWhile isdigit).length + 4)
    else none
  else if (t.drop 1).takeWhile isdigit ≠ []
      ∧ ((t.drop 1).dropWhile isdigit).head? = some (Char.ofNat 125) then
    some (.index (digitsValue ((t.drop 1).takeWhile isdigit)),
      ((t.drop 1).takeWhile isdigit).length + 2)
  else none

/-- Modelled from the spec: the rendering of a template from a position on. The first
argument counts the characters of a mark that are still to be passed over, the second
tells whether the text is inside a conditional block whose argument is not present. A
placeholder gives the textual form of its argument, a block is emitted without its
delimiters when its argument is present and left out otherwise, every other character
is copied. -/
def formatRenderFrom (args : List FFformatarg) : Nat → Bool → CStr → CStr
  | _, _, [] => []
  | d + 1, skip, _ :: t => formatRenderFrom args d skip t
  | 0, skip, c :: t =>
    match formatMarkAt (c :: t) with
    | some (.index n, len) =>
      (if skip then [] else argumentText args n) ++ formatRenderFrom args (len - 1) skip t
    | some (.ifPresent n, len) =>
      formatRenderFrom args (len - 1) (!argumentPresent args n) t
    | some (.endIf, len) => formatRenderFrom args (len - 1) false t
    | none => (if skip then [] else [c]) ++ formatRenderFrom args 0 skip t

/-- Modelled from the spec: the Format Engine, the rendering of a template against an
ordered list of arguments. -/
def formatRender (template : CStr) (args : List FFformatarg) : CStr :=
  formatRenderFrom args 0 false template

/-- A part of a template outside or inside a block: a text without braces and brackets, or
a placeholder, given by the digits of its index. -/
inductive FormatItem where
  | text (s : CStr)
  | argument (digits : CStr)
deriving DecidableEq, Repr

/-- A part of a template: an item, or a conditional block, given by the digits of its
index and the items in its brackets; blocks do not nest. -/
inductive FormatPiece where
  | item (i : FormatItem)
  | conditional (digits : CStr) (body : List FormatItem)
deriving DecidableEq, Repr

/-- The digits of an index: at least one character, decimal digits only. -/
def isIndex (ds : CStr) : Bool :=
  !ds.isEmpty && ds.all isdigit

/-- A character that is neither a brace nor a bracket. -/
def isPlain (c : Char) : Bool :=
  c != Char.ofNat 123 && c != Char.ofNat 125 && c != '[' && c != ']'

/-- The text of an item is plain, the index of a placeholder is a number. -/
def FormatItem.wellFormed : FormatItem → Bool
  | .text s => s.all isPlain
  | .argument ds => isIndex ds

/-- The items of a piece are well formed, the index of a block is a number. -/
def FormatPiece.wellFormed : FormatPiece → Bool
  | .item i => i.wellFormed
  | .conditional ds body => isIndex ds && body.all FormatItem.wellFormed

/-- The text of an item in a template. -/
def FormatItem.source : FormatItem → CStr
  | .text s => s
  | .argument ds => [Char.ofNat 123] ++ ds ++ [Char.ofNat 125]

/-- The text of a piece in a template. -/
def FormatPiece.source : FormatPiece → CStr
  | .item i => i.source
  | .conditional ds body =>
    "\x7b?".toList ++ ds ++ "\x7d[".toList ++ (body.map FormatItem.source).flatten
      ++ "]\x7b?\x7d".toList

/-- The rendering of an item in the words of the claim: a text is copied, a placeholder
is replaced by the textual form of its argument. -/
def FormatItem.value (args : List FFformatarg) : FormatItem → CStr
  | .text s => s
  | .argument ds => argumentText args (digitsValue ds)

/-- The rendering of a piece in the words of the claim: the content of a block is emitted
only when its argument is present, the block with its delimiters is left out otherwise. -/
def FormatPiece.value (args : List FFformatarg) : FormatPiece → CStr
  | .item i => i.value args
  | .conditional ds body =>
    if argumentPresent args (digitsValue ds) then (body.map (FormatItem.value args)).flatten
    else []

/-- The template of the example, a placeholder, a text, a block and a text. -/
def exampleTemplate : List FormatPiece :=
  [.item (.argument "1".toList), .item (.text " (".toList),
   .conditional "2".toList [.argument "2".toList], .item (.text ")".toList)]

/-! ## Lemmas on the C library model -/

theorem tolower_toNat_sub_ne_zero {a b : Char} (h : tolower a ≠ tolower b) :
    ((tolower a).toNat : Int) - ((tolower b).toNat : Int) ≠ 0 := by
  intro h0
  apply h
  have h1 : (tolower a).toNat = (tolower b).toNat := by omega
  exact Char.ext (UInt32.ext (by simpa [Char.toNat, UInt32.toNat] using h1))

theorem strcasecmp_eq_zero_iff (a b : CStr) :
    strcasecmp a b = 0 ↔ a.map tolower = b.map tolower := by
  induction a generalizing b with
  | nil => cases b <;> simp [strcasecmp]
  | cons x xs ih =>
    cases b with
    | nil => simp [strcasecmp]
    | cons y ys =>
      by_cases h : tolower x = tolower y
      · simp [strcasecmp, h, ih]
      · simp [strcasecmp, h, tolower_toNat_sub_ne_zero h]

/-- C1: `optionParseBoolean` is true exactly for an absent value, the empty string, and
the values equal to `true`, `yes`, `on` or `1` ignoring letter case; so `YES`, `On` and
`1` give true and `false`, `no`, `0` and `garbage` give false. -/
theorem optionParseBoolean_eq_true_iff (v : Option CStr) :
    (optionParseBoolean v = true ↔
      (v = none ∨ v = some [] ∨ ∃ s, v = some s ∧
        (s.map tolower = "true".toList ∨ s.map tolower = "yes".toList ∨
         s.map tolower = "on".toList ∨ s.map tolower = "1".toList)))
    ∧ optionParseBoolean (some "true".toList) = true
    ∧ optionParseBoolean (some "YES".toList) = true
    ∧ optionParseBoolean (some "On".toList) = true
    ∧ optionParseBoolean (some "1".toList) = true
    ∧ optionParseBoolean (some "false".toList) = false
    ∧ optionParseBoolean (some "no".toList) = false
    ∧ optionParseBoolean (some "0".toList) = false
    ∧ optionParseBoolean (some "garbage".toList) = false := by
  refine ⟨?_, by decide, by decide, by decide, by decide, by decide, by decide, by decide,
    by decide⟩
  cases v with
  | none => simp [optionParseBoolean, ffStrSet]
  | some s =>
    have h1 : ("true" : String).toList.map tolower = "true".toList := by decide
    have h2 : ("yes" : String).toList.map tolower = "yes".toList := by decide
    have h3 : ("on" : String).toList.map tolower = "on".toList := by decide
    have h4 : ("1" : String).toList.map tolower = "1".toList := by decide
    simp only [optionParseBoolean, ffStrSet, Option.getD_some, Bool.or_eq_true,
      Bool.not_eq_true', Bool.not_eq_false', decide_eq_true_eq, strcasecmp_eq_zero_iff,
      h1, h2, h3, h4, List.isEmpty_iff, Option.some.injEq, exists_eq_left', false_or,
      reduceCtorEq]
    tauto

theorem foldl_digits_eq_ofDigits (s : CStr) :
    s.foldl (fun acc c => acc * 10 + (c.toNat - 48)) 0
      = Nat.ofDigits 10 ((s.map (fun c => c.toNat - 48)).reverse) := by
  rw [Nat.ofDigits_eq_foldr, List.foldr_reverse, List.foldl_map]
  congr 1
  funext acc c
  simp [Nat.mul_comm, Nat.add_comm]

theorem isdigit_not_isspace {c : Char} (h : isdigit c = true) : isspace c = false := by
  simp only [isdigit, isspace, Bool.and_eq_true, decide_eq_true_eq, Bool.or_eq_false_iff,
    decide_eq_false_iff_not, Bool.and_eq_false_iff] at *
  omega

theorem isdigit_ne_sign {c : Char} (h : isdigit c = true) : c ≠ '-' ∧ c ≠ '+' := by
  constructor <;> rintro rfl <;> revert h <;> decide

theorem strtoul_digits (s : CStr) (hne : s ≠ []) (hd : ∀ c ∈ s, isdigit c = true)
    (hlt : Nat.ofDigits 10 ((s.map (fun c => c.toNat - 48)).reverse) ≤ ULONG_MAX) :
    strtoul s = (Nat.ofDigits 10 ((s.map (fun c => c.toNat - 48)).reverse), []) := by
  obtain ⟨c, t, rfl⟩ := List.exists_cons_of_ne_nil hne
  have hc : isdigit c = true := hd c (List.mem_cons_self _ _)
  have hsp : (c :: t).dropWhile isspace = c :: t := by
    simp [List.dropWhile, isdigit_not_isspace hc]
  have htake : (c :: t).takeWhile isdigit = c :: t :=
    List.takeWhile_eq_self_iff.mpr hd
  have hdrop : (c :: t).dropWhile isdigit = [] :=
    List.dropWhile_eq_nil_iff.mpr hd
  have hsign := isdigit_ne_sign hc
  have hch : charAt (c :: t) 0 = c := rfl
  unfold strtoul
  simp only [hsp, hch, hsign.1, hsign.2, or_self, if_false, htake, hdrop,
    foldl_digits_eq_ofDigits, reduceCtorEq, gt_iff_lt, if_neg (Nat.not_lt.mpr hlt)]

/-- C10: for a value that is a non-empty string of decimal digits denoting a number
below 2^32, `optionParseUInt32` returns that number and no error; the value `12` gives
12. -/
theorem optionParseUInt32_digits (key s : CStr) (hne : s ≠ [])
    (hd : ∀ c ∈ s, isdigit c = true)
    (hlt : Nat.ofDigits 10 ((s.map (fun c => c.toNat - 48)).reverse) < 2 ^ 32) :
    optionParseUInt32 key (some s)
        = .ok (Nat.ofDigits 10 ((s.map (fun c => c.toNat - 48)).reverse))
      ∧ optionParseUInt32 key (some "12".toList) = .ok 12 := by
  constructor
  · have h64 : Nat.ofDigits 10 ((s.map (fun c => c.toNat - 48)).reverse) ≤ ULONG_MAX := by
      have : (2 : Nat) ^ 32 ≤ ULONG_MAX := by decide
      omega
    simp only [optionParseUInt32, strtoul_digits s hne hd h64, ne_eq, not_true_eq_false,
      if_false, Nat.mod_eq_of_lt hlt]
  · rfl

theorem optionParseUInt32_digits_witness :
    ("4096".toList ≠ [] ∧ (∀ c ∈ "4096".toList, isdigit c = true)
      ∧ Nat.ofDigits 10 (("4096".toList.map (fun c => c.toNat - 48)).reverse) < 2 ^ 32)
    ∧ optionParseUInt32 [] (some "4096".toList) = .ok 4096 := by
  refine ⟨⟨by decide, by decide, by decide⟩, ?_⟩
  have h := (optionParseUInt32_digits [] "4096".toList (by decide) (by decide)
    (by decide)).1
  simpa [Nat.ofDigits] using h

/-! ## Structure dispatch: custom values and unknown tokens -/

theorem ffValuestoreGet_set_self (vs : FFvaluestore) (key : CStr) (v : CustomValue) :
    ffValuestoreGet (ffValuestoreSet vs key v) key = some v := by
  induction vs with
  | nil => simp [ffValuestoreSet, ffValuestoreGet]
  | cons p rest ih =>
    obtain ⟨k, old⟩ := p
    by_cases h : k = key
    · simp [ffValuestoreSet, ffValuestoreGet, h]
    · simp [ffValuestoreSet, ffValuestoreGet, h, ih]

theorem parseOption_set (fs : FileSystem) (fuel : Nat) (st : PState) (v : Option CStr) :
    parseOption fs fuel st "--set".toList v
      = withParsed st (optionParseCustomValue st.data.customValues "--set".toList v true)
          st.setCustomValues := by
  cases fuel <;> rfl

theorem parseOption_set_keyless (fs : FileSystem) (fuel : Nat) (st : PState)
    (v : Option CStr) :
    parseOption fs fuel st "--set-keyless".toList v
      = withParsed st
          (optionParseCustomValue st.data.customValues "--set-keyless".toList v false)
          st.setCustomValues := by
  cases fuel <;> rfl

/-- C7: a structure token with an entry in the value store is printed by `ffPrintCustom`,
labelled with the token when `printKey` is set and unlabelled otherwise, with the stored
string as text, whatever the token is; after `--set foo=bar` the token `foo` prints label
`foo` and text `bar`, after `--set-keyless foo=bar` it prints `bar` without label. -/
theorem parseStructureCommand_custom (vs : FFvaluestore) (t : CStr) (cv : CustomValue)
    (h : ffValuestoreGet vs t = some cv) :
    parseStructureCommand vs t
        = .ffPrintCustom (if cv.printKey then some t else none) cv.value
    ∧ (∀ (fs : FileSystem) (fuel : Nat) (st : PState),
        ∃ st1, parseOption fs fuel st "--set".toList (some "foo=bar".toList) = .ret st1
          ∧ parseStructureCommand st1.data.customValues "foo".toList
              = .ffPrintCustom (some "foo".toList) "bar".toList)
    ∧ (∀ (fs : FileSystem) (fuel : Nat) (st : PState),
        ∃ st1, parseOption fs fuel st "--set-keyless".toList (some "foo=bar".toList)
            = .ret st1
          ∧ parseStructureCommand st1.data.customValues "foo".toList
              = .ffPrintCustom none "bar".toList) := by
  refine ⟨by simp [parseStructureCommand, h], ?_, ?_⟩
  · intro fs fuel st
    refine ⟨_, by rw [parseOption_set]; rfl, ?_⟩
    simp [parseStructureCommand, PState.setCustomValues, ffValuestoreGet_set_self]
  · intro fs fuel st
    refine ⟨_, by rw [parseOption_set_keyless]; rfl, ?_⟩
    simp [parseStructureCommand, PState.setCustomValues, ffValuestoreGet_set_self]

theorem parseStructureCommand_custom_witness :
    ffValuestoreGet [("title".toList, ⟨false, "hello".toList⟩)] "title".toList
        = some ⟨false, "hello".toList⟩
    ∧ parseStructureCommand [("title".toList, ⟨false, "hello".toList⟩)] "title".toList
        = .ffPrintCustom none "hello".toList :=
  ⟨by decide, (parseStructureCommand_custom [("title".toList, ⟨false, "hello".toList⟩)]
    "title".toList ⟨false, "hello".toList⟩ (by decide)).1⟩

theorem parseOption_structure (fs : FileSystem) (fuel : Nat) (st : PState)
    (v : Option CStr) :
    parseOption fs fuel st "-s".toList v
      = withParsed st (optionParseString "-s".toList v st.data.structureBuf)
          st.setStructure := by
  cases fuel <;> rfl

/-- C8: a token that is not in the value store and equals none of the row and module
names ignoring case is printed by `ffPrintErrorString` with that token and the message
`<no implementation provided>`; `main` with the structure `title:separator:bogus_token`
makes three print calls, the third being the error row, and ends with exit status 0. -/
theorem parseStructureCommand_unknown (vs : FFvaluestore) (t : CStr)
    (hstore : ffValuestoreGet vs t = none)
    (hname : ∀ n ∈ structureTokenNames, t.map tolower ≠ n.toList.map tolower) :
    parseStructureCommand vs t
        = .ffPrintErrorString t "<no implementation provided>".toList
    ∧ (∀ (fs : FileSystem) (fuel : Nat) (defaultStructure : CStr) (instance0 : FFinstance),
        ∃ st events,
          main fs fuel true defaultStructure instance0
              ["fastfetch".toList, "-s".toList, "title:separator:bogus_token".toList]
            = .ret (st, events)
          ∧ rowCalls events
              = [.entry .ffPrintTitle, .entry .ffPrintSeparator,
                 .ffPrintErrorString "bogus_token".toList
                   "<no implementation provided>".toList]
          ∧ (main fs fuel true defaultStructure instance0
              ["fastfetch".toList, "-s".toList,
                "title:separator:bogus_token".toList]).exitStatus = some 0) := by
  constructor
  · simp only [structureTokenNames, List.forall_mem_cons, List.not_mem_nil,
      IsEmpty.forall_iff, implies_true, and_true] at hname
    simp only [parseStructureCommand, hstore, strcasecmp_eq_zero_iff]
    simp only [hname, or_self, if_false]
  · intro fs fuel defaultStructure instance0
    have hstruct : ("title:separator:bogus_token".toList.length = 0) = False := by
      simp
    have hcpu : ffStrbufContainIgnCaseS "title:separator:bogus_token".toList
        "CPUUsage".toList = false := by decide
    have hip : ffStrbufContainIgnCaseS "title:separator:bogus_token".toList
        "PublicIp".toList = false := by decide
    have hweather : ffStrbufContainIgnCaseS "title:separator:bogus_token".toList
        "Weather".toList = false := by decide
    have hloop : ∀ body : CStr → List Event,
        dispatchLoop body ("title:separator:bogus_token".toList.length + 1)
          "title:separator:bogus_token".toList 0
        = some (body "title".toList ++ (body "separator".toList ++
            (body "bogus_token".toList ++ []))) := fun body => by rfl
    have h1 : parseStructureCommand [] "title".toList = .entry .ffPrintTitle := by decide
    have h2 : parseStructureCommand [] "separator".toList = .entry .ffPrintSeparator := by
      decide
    have h3 : parseStructureCommand [] "bogus_token".toList
        = .ffPrintErrorString "bogus_token".toList "<no implementation provided>".toList :=
      by decide
    have hargs : parseArguments (parseOption fs fuel) ⟨instance0, ⟨[], [], true⟩⟩
        ["fastfetch".toList, "-s".toList, "title:separator:bogus_token".toList]
        = .ret (PState.setStructure ⟨instance0, ⟨[], [], true⟩⟩
              "title:separator:bogus_token".toList) := by
      have hc : (charAt "title:separator:bogus_token".toList 0 = '-') = False := by
        simp [charAt]
      simp only [parseArguments, Bool.not_true, Bool.false_eq_true, if_false, List.drop,
        parseArgumentsLoop, parseOption_structure, hc, false_and, withParsed,
        optionParseString, optionCheckString, Outcome.bind]
    have hmain : main fs fuel true defaultStructure instance0
        ["fastfetch".toList, "-s".toList, "title:separator:bogus_token".toList]
        = .ret (PState.setStructure ⟨instance0, ⟨[], [], true⟩⟩
              "title:separator:bogus_token".toList,
            [Event.ffStart] ++
            ([Event.row (.entry .ffPrintTitle)] ++
              (if instance0.config.bools .stat
                then [Event.timing (instance0.config.bools .pipe)] else []) ++
             ([Event.row (.entry .ffPrintSeparator)] ++
              (if instance0.config.bools .stat
                then [Event.timing (instance0.config.bools .pipe)] else []) ++
             ([Event.row (.ffPrintErrorString "bogus_token".toList
                  "<no implementation provided>".toList)] ++
              (if instance0.config.bools .stat
                then [Event.timing (instance0.config.bools .pipe)] else []) ++ [])))
            ++ [Event.ffFinish]) := by
      simp only [main, mainParse, mainDispatch, Bool.not_true, Bool.false_eq_true,
        if_false, hargs, Outcome.bind, PState.setStructure, hstruct, hcpu, hip, hweather,
        hloop, dispatchToken, h1, h2, h3, ite_self, List.nil_append]
    refine ⟨_, _, hmain, ?_, by rw [hmain]; rfl⟩
    cases instance0.config.bools .stat <;> rfl

theorem parseStructureCommand_unknown_witness :
    (ffValuestoreGet [("foo".toList, ⟨true, "bar".toList⟩)] "bogus_token".toList = none
      ∧ ∀ n ∈ structureTokenNames, "bogus_token".toList.map tolower ≠ n.toList.map tolower)
    ∧ parseStructureCommand [("foo".toList, ⟨true, "bar".toList⟩)] "bogus_token".toList
        = .ffPrintErrorString "bogus_token".toList "<no implementation provided>".toList :=
  ⟨⟨by decide, by decide⟩,
   (parseStructureCommand_unknown [("foo".toList, ⟨true, "bar".toList⟩)]
      "bogus_token".toList (by decide) (by decide)).1⟩

/-! ## The dispatch loop -/

theorem split_at_colon (rem : List Char) :
    (∀ c ∈ rem, c ≠ ':') ∨
      ∃ pre post, rem = pre ++ ':' :: post ∧ ∀ c ∈ pre, c ≠ ':' := by
  induction rem with
  | nil => left; simp
  | cons a t ih =>
    by_cases ha : a = ':'
    · right
      exact ⟨[], t, by simp [ha], by simp⟩
    · rcases ih with h | ⟨pre, post, rfl, hpre⟩
      · left
        intro c hc
        rcases List.mem_cons.mp hc with rfl | hc
        · exact ha
        · exact h c hc
      · right
        refine ⟨a :: pre, post, by simp, ?_⟩
        intro c hc
        rcases List.mem_cons.mp hc with rfl | hc
        · exact ha
        · exact hpre c hc

theorem set_length_append {α : Type} (l₁ l₂ : List α) (a b : α) :
    (l₁ ++ a :: l₂).set l₁.length b = l₁ ++ b :: l₂ := by
  induction l₁ with
  | nil => rfl
  | cons x t ih => simp [List.set, ih]

theorem structureSegments_nil : structureSegments [] = [] := by
  simp [structureSegments, List.splitOn]

theorem structureSegments_single (rem : CStr) (hne : rem ≠ [])
    (h : ∀ c ∈ rem, c ≠ ':') : structureSegments rem = [rem] := by
  have hs : rem.splitOn ':' = [rem] :=
    List.splitOnP_eq_single _ _ (fun x hx => by simpa using h x hx)
  simp [structureSegments, hs, hne]

theorem structureSegments_colon (pre post : CStr) (h : ∀ c ∈ pre, c ≠ ':') :
    structureSegments (pre ++ ':' :: post) = pre :: structureSegments post := by
  have hs : (pre ++ ':' :: post).splitOn ':' = pre :: post.splitOn ':' :=
    List.splitOnP_first _ _ (fun x hx => by simpa using h x hx) ':' (by simp) post
  have hne : post.splitOn ':' ≠ [] := List.splitOnP_ne_nil _ _
  obtain ⟨x, l, hl⟩ := List.exists_cons_of_ne_nil hne
  simp only [structureSegments, hs, hl, List.getLast?_cons_cons, List.dropLast_cons₂]
  split <;> rfl

theorem dispatchLoop_past_end {α : Type} (body : CStr → List α) (fuel : Nat)
    (chars : List Char) (i : Nat) (h : ¬ i < chars.length) :
    dispatchLoop body (fuel + 1) chars i = some [] := by
  simp [dispatchLoop, h]

theorem dispatchLoop_from {α : Type} (body : CStr → List α) (fuel : Nat) :
    ∀ (done rem : List Char), rem.length + 1 ≤ fuel →
      (done ++ rem).length + 1 < 2 ^ 32 → (∀ c ∈ rem, c ≠ Char.ofNat 0) →
      dispatchLoop body fuel (done ++ rem) done.length
        = some ((structureSegments rem).flatMap body) := by
  induction fuel with
  | zero => intro done rem hf; omega
  | succ fuel ih =>
    intro done rem hf hlen hnul
    by_cases hrem : rem = []
    · subst hrem
      rw [dispatchLoop_past_end _ _ _ _ (by simp), structureSegments_nil]
      rfl
    · have hlt : done.length < (done ++ rem).length := by
        have : 0 < rem.length := List.length_pos.mpr hrem
        simp only [List.length_append]; omega
      rw [dispatchLoop, if_pos hlt]
      rcases split_at_colon rem with hall | ⟨pre, post, rfl, hpre⟩
      · -- no colon left: the token is the rest of the buffer
        have htake : rem.takeWhile (fun x => decide (x ≠ ':')) = rem :=
          List.takeWhile_eq_self_iff.mpr (fun c hc => by simpa using hall c hc)
        have hidx : ffStrbufNextIndexC (done ++ rem) done.length ':'
            = done.length + rem.length := by
          simp only [ffStrbufNextIndexC, List.drop_left, htake]
        have hset : (done ++ rem).set (done.length + rem.length) (Char.ofNat 0)
            = done ++ rem := by
          apply List.set_eq_of_length_le
          simp
        have hmod : (done.length + rem.length + 1) % 2 ^ 32
            = done.length + rem.length + 1 := by
          apply Nat.mod_eq_of_lt
          simp only [List.length_append] at hlen
          omega
        have htok : cstrAt (done ++ rem) done.length = rem := by
          simp only [cstrAt, List.drop_left]
          exact List.takeWhile_eq_self_iff.mpr (fun c hc => by simpa using hnul c hc)
        have hpos : 0 < rem.length := List.length_pos.mpr hrem
        obtain ⟨f, rfl⟩ : ∃ f, fuel = f + 1 := ⟨fuel - 1, by omega⟩
        simp only [hidx, hset, hmod, htok]
        rw [dispatchLoop_past_end _ _ _ _ (by simp), structureSegments_single rem hrem hall]
        simp
      · -- a colon: it is overwritten, the token ends there, the loop goes on behind it
        have hprenul : ∀ c ∈ pre, (decide (c ≠ Char.ofNat 0)) = true := by
          intro c hc
          simpa using hnul c (by simp [hc])
        have htake : (pre ++ ':' :: post).takeWhile (fun x => decide (x ≠ ':')) = pre := by
          rw [List.takeWhile_append_of_pos (fun c hc => by simpa using hpre c hc)]
          simp
        have hidx : ffStrbufNextIndexC (done ++ (pre ++ ':' :: post)) done.length ':'
            = done.length + pre.length := by
          simp only [ffStrbufNextIndexC, List.drop_left, htake]
        have hset : (done ++ (pre ++ ':' :: post)).set (done.length + pre.length)
            (Char.ofNat 0) = (done ++ pre ++ [Char.ofNat 0]) ++ post := by
          have := set_length_append (done ++ pre) post ':' (Char.ofNat 0)
          simp only [List.length_append] at this
          simp [List.append_assoc, this]
        have hmod : (done.length + pre.length + 1) % 2 ^ 32
            = (done ++ pre ++ [Char.ofNat 0]).length := by
          rw [Nat.mod_eq_of_lt]
          · simp only [List.length_append, List.length_cons, List.length_nil]
          · simp only [List.length_append, List.length_cons] at hlen
            omega
        have htok : cstrAt ((done ++ pre ++ [Char.ofNat 0]) ++ post) done.length = pre := by
          simp only [cstrAt, List.append_assoc, List.drop_left]
          rw [List.takeWhile_append_of_pos hprenul]
          simp
        simp only [hidx, hset, hmod, htok]
        rw [ih (done ++ pre ++ [Char.ofNat 0]) post
            (by simp only [List.length_append, List.length_cons] at hf; omega)
            (by simp only [List.length_append, List.length_cons, List.length_nil] at hlen ⊢
                omega)
            (fun c hc => hnul c (by simp [hc])),
          structureSegments_colon pre post hpre]
        simp

theorem rowCalls_flatMap_dispatchToken (st : PState) (l : List CStr) :
    rowCalls (l.flatMap (dispatchToken st))
      = l.map (parseStructureCommand st.data.customValues) := by
  induction l with
  | nil => rfl
  | cons t rest ih =>
    simp only [List.flatMap_cons, rowCalls, List.filterMap_append, List.map_cons] at ih ⊢
    rw [ih]
    cases h : st.inst.config.bools .stat <;> simp [dispatchToken, h]

/-- C9: for a structure string (without NUL, of a length that a string buffer can hold)
the dispatch loop of `main` ends within the fuel that `main` gives it and performs the
token action once per segment of the string split at `:`, in order, the empty segment
after a trailing `:` left out; so the print calls of `main` are those of
`parseStructureCommand` for the segments, one per segment and in structure order. -/
theorem dispatchLoop_structureSegments {α : Type} (body : CStr → List α) (s : CStr)
    (hnul : ∀ c ∈ s, c ≠ Char.ofNat 0) (hlen : s.length + 1 < 2 ^ 32) :
    dispatchLoop body (s.length + 1) s 0 = some ((structureSegments s).flatMap body)
    ∧ (∀ st : PState, ∃ events,
        dispatchLoop (dispatchToken st) (s.length + 1) s 0 = some events
        ∧ rowCalls events
            = (structureSegments s).map (parseStructureCommand st.data.customValues))
    ∧ structureSegments "title:os:cpu".toList
        = ["title".toList, "os".toList, "cpu".toList]
    ∧ structureSegments "title::cpu:".toList = ["title".toList, [], "cpu".toList] := by
  have h : ∀ {β : Type} (b : CStr → List β),
      dispatchLoop b (s.length + 1) s 0 = some ((structureSegments s).flatMap b) :=
    fun b => dispatchLoop_from b (s.length + 1) [] s (Nat.le_refl _) hlen hnul
  exact ⟨h body, fun st => ⟨_, h (dispatchToken st), rowCalls_flatMap_dispatchToken st _⟩,
    by decide, by decide⟩

theorem dispatchLoop_structureSegments_witness :
    ((∀ c ∈ "title:os:".toList, c ≠ Char.ofNat 0) ∧ "title:os:".toList.length + 1 < 2 ^ 32)
    ∧ dispatchLoop (fun t => [t]) ("title:os:".toList.length + 1) "title:os:".toList 0
        = some ["title".toList, "os".toList] := by
  refine ⟨⟨by decide, by decide⟩, ?_⟩
  have h := (dispatchLoop_structureSegments (fun t => [t]) "title:os:".toList
    (by decide) (by decide)).1
  rw [h]
  decide

/-! ## The action of a key -/

theorem parseOptionInformative_eq (lc : PState → CStr → Option CStr → Outcome PState)
    (fs : FileSystem) (st : PState) (key : CStr) (value : Option CStr) :
    parseOptionInformative st key value
      = (classifyInformative key).map (applyAction lc fs st key value) := by
  unfold parseOptionInformative classifyInformative
  simp only [apply_ite (Option.map (applyAction lc fs st key value)), Option.map_some',
    Option.map_none', applyAction, setLogoSourceAndType]

theorem parseOptionGeneral_eq (lc : PState → CStr → Option CStr → Outcome PState)
    (fs : FileSystem) (st : PState) (key : CStr) (value : Option CStr) :
    parseOptionGeneral lc fs st key value
      = (classifyGeneral key).map (applyAction lc fs st key value) := by
  unfold parseOptionGeneral classifyGeneral
  simp only [apply_ite (Option.map (applyAction lc fs st key value)), Option.map_some',
    Option.map_none', applyAction, setLogoSourceAndType]

theorem parseOptionLogo_eq (lc : PState → CStr → Option CStr → Outcome PState)
    (fs : FileSystem) (st : PState) (key : CStr) (value : Option CStr) :
    parseOptionLogo st key value
      = (classifyLogo key).map (applyAction lc fs st key value) := by
  unfold parseOptionLogo classifyLogo
  simp only [apply_ite (Option.map (applyAction lc fs st key value)), Option.map_some',
    Option.map_none', applyAction, setLogoSourceAndType]

theorem parseOptionDisplay_eq (lc : PState → CStr → Option CStr → Outcome PState)
    (fs : FileSystem) (st : PState) (key : CStr) (value : Option CStr) :
    parseOptionDisplay st key value
      = (classifyDisplay key).map (applyAction lc fs st key value) := by
  unfold parseOptionDisplay classifyDisplay
  simp only [apply_ite (Option.map (applyAction lc fs st key value)), Option.map_some',
    Option.map_none', applyAction, setLogoSourceAndType]

theorem parseOptionLibrary_eq (lc : PState → CStr → Option CStr → Outcome PState)
    (fs : FileSystem) (st : PState) (key : CStr) (value : Option CStr) :
    parseOptionLibrary st key value
      = (classifyLibrary key).map (applyAction lc fs st key value) := by
  unfold parseOptionLibrary classifyLibrary
  simp only [apply_ite (Option.map (applyAction lc fs st key value)), Option.map_some',
    Option.map_none', applyAction, setLogoSourceAndType]

theorem parseOptionModule_eq (lc : PState → CStr → Option CStr → Outcome PState)
    (fs : FileSystem) (st : PState) (key : CStr) (value : Option CStr) :
    parseOptionModule st key value
      = (classifyModule key).map (applyAction lc fs st key value) := by
  unfold parseOptionModule classifyModule
  simp only [apply_ite (Option.map (applyAction lc fs st key value)), Option.map_some',
    Option.map_none', applyAction, setLogoSourceAndType]

theorem optionParseString_buffer (key : CStr) (value : Option CStr) (buffer : CStr) :
    optionParseString key value buffer = optionParseString key value [] := by
  cases value <;> rfl

theorem optionParseModuleArgs_eq (key : CStr) (value : Option CStr) (moduleName : CStr)
    (r : FFModuleArgs) :
    optionParseModuleArgs key value moduleName r
      = match moduleArgField key moduleName with
        | none => .ok (false, r)
        | some w =>
          match optionParseString key value (r.get w) with
          | .error e => .error e
          | .ok s => .ok (true, r.set w s) := by
  unfold optionParseModuleArgs moduleArgField
  simp only []
  split_ifs <;> rfl

theorem parseOptionModuleArgs_eq (lc : PState → CStr → Option CStr → Outcome PState)
    (fs : FileSystem) (st : PState) (key : CStr) (value : Option CStr)
    (calls : List (String × Module)) :
    parseOptionModuleArgs st key value calls
      = (classifyModuleArgs key calls).map (applyAction lc fs st key value) := by
  induction calls with
  | nil => rfl
  | cons c rest ih =>
    obtain ⟨moduleName, m⟩ := c
    simp only [parseOptionModuleArgs, classifyModuleArgs, optionParseModuleArgs_eq]
    cases hw : moduleArgField key moduleName with
    | none => simpa using ih
    | some w =>
      cases value with
      | none => rfl
      | some v => rfl

/-- The option parser does what the action of the key says. -/
theorem parseOptionWith_eq_applyAction
    (lc : PState → CStr → Option CStr → Outcome PState) (fs : FileSystem) (st : PState)
    (key : CStr) (value : Option CStr) :
    parseOptionWith lc fs st key value = applyAction lc fs st key value (classify key) := by
  unfold parseOptionWith classify
  rw [parseOptionInformative_eq lc fs, parseOptionGeneral_eq lc fs, parseOptionLogo_eq lc fs,
    parseOptionDisplay_eq lc fs, parseOptionModuleArgs_eq lc fs,
    parseOptionLibrary_eq lc fs, parseOptionModule_eq lc fs]
  cases classifyInformative key <;> simp only [Option.map_some', Option.map_none']
  cases classifyGeneral key <;> simp only [Option.map_some', Option.map_none']
  cases classifyLogo key <;> simp only [Option.map_some', Option.map_none']
  cases classifyDisplay key <;> simp only [Option.map_some', Option.map_none']
  cases classifyModuleArgs key moduleArgsCalls <;>
    simp only [Option.map_some', Option.map_none']
  cases classifyLibrary key <;> simp only [Option.map_some', Option.map_none']
  cases classifyModule key <;> simp only [Option.map_some', Option.map_none']
  rfl

/-! ## Assignments -/

theorem Field.same_refl (F : Field) (a : PState) : F.same a a := by
  cases F <;> rfl

theorem Field.same_trans (F : Field) {a b c : PState} (h1 : F.same a b) (h2 : F.same b c) :
    F.same a c := by
  cases F <;> exact Eq.trans h1 h2

theorem Field.same_symm (F : Field) {a b : PState} (h : F.same a b) : F.same b a := by
  cases F <;> exact Eq.symm h

theorem Assigning.comp {u w : PState → PState} (hu : Assigning u) (hw : Assigning w) :
    Assigning (fun s => w (u s)) := by
  intro F
  rcases hw F with h | h
  · rcases hu F with h1 | h1
    · left
      intro s
      exact F.same_trans (h (u s)) (h1 s)
    · right
      intro s s1
      exact F.same_trans (h (u s)) (F.same_trans (h1 s s1) (F.same_symm (h (u s1))))
  · right
    intro s s1
    exact h (u s) (u s1)

theorem Assigning.id : Assigning (fun s => s) := fun F => Or.inl (fun s => F.same_refl s)

theorem assigning_setBool (f : BoolField) (b : Bool) :
    Assigning (fun s => s.setBool f b) := by
  intro F
  cases F with
  | bool g =>
    by_cases h : g = f
    · right; intro s s1; simp [Field.same, PState.setBool, h]
    · left; intro s; simp [Field.same, PState.setBool, h]
  | _ => left; intro s; rfl

theorem assigning_setUInt (f : UIntField) (n : Nat) :
    Assigning (fun s => s.setUInt f n) := by
  intro F
  cases F with
  | uint g =>
    by_cases h : g = f
    · right; intro s s1; simp [Field.same, PState.setUInt, h]
    · left; intro s; simp [Field.same, PState.setUInt, h]
  | _ => left; intro s; rfl

theorem assigning_setStr (f : StrField) (x : CStr) :
    Assigning (fun s => s.setStr f x) := by
  intro F
  cases F with
  | str g =>
    by_cases h : g = f
    · right; intro s s1; simp [Field.same, PState.setStr, h]
    · left; intro s; simp [Field.same, PState.setStr, h]
  | _ => left; intro s; rfl

theorem assigning_setModuleArg (m : Module) (w : ArgField) (x : CStr) :
    Assigning (fun s => s.setModuleArgs m ((s.inst.config.moduleArgs m).set w x)) := by
  intro F
  cases F with
  | moduleArg m1 w1 =>
    by_cases h : m1 = m
    · by_cases hw : w1 = w
      · right; intro s s1
        subst h; subst hw
        cases w1 <;> simp [Field.same, PState.setModuleArgs, FFModuleArgs.set, FFModuleArgs.get]
      · left; intro s
        subst h
        cases w1 <;> cases w <;>
          simp_all [Field.same, PState.setModuleArgs, FFModuleArgs.set, FFModuleArgs.get]
    · left; intro s; simp [Field.same, PState.setModuleArgs, h]
  | _ => left; intro s; rfl

theorem assigning_setLogoType (t : FFLogoType) : Assigning (fun s => s.setLogoType t) := by
  intro F
  cases F with
  | logoType => right; intro s s1; rfl
  | _ => left; intro s; rfl

theorem assigning_setBinaryPrefixType (t : FFBinaryPrefixType) :
    Assigning (fun s => s.setBinaryPrefixType t) := by
  intro F
  cases F with
  | binaryPrefixType => right; intro s s1; rfl
  | _ => left; intro s; rfl

theorem assigning_setSoundType (t : FFSoundType) :
    Assigning (fun s => s.setSoundType t) := by
  intro F
  cases F with
  | soundType => right; intro s s1; rfl
  | _ => left; intro s; rfl

theorem assigning_setLocalIpCompactType (t : FFLocalIpCompactType) :
    Assigning (fun s => s.setLocalIpCompactType t) := by
  intro F
  cases F with
  | localIpCompactType => right; intro s s1; rfl
  | _ => left; intro s; rfl

theorem assigning_setGLType (t : FFGLType) : Assigning (fun s => s.setGLType t) := by
  intro F
  cases F with
  | glType => right; intro s s1; rfl
  | _ => left; intro s; rfl

theorem assigning_setStructure (x : CStr) : Assigning (fun s => s.setStructure x) := by
  intro F
  cases F with
  | structureBuf => right; intro s s1; rfl
  | _ => left; intro s; rfl

theorem assigning_setLoadUserConfig (b : Bool) :
    Assigning (fun s => s.setLoadUserConfig b) := by
  intro F
  cases F with
  | loadUserConfig => right; intro s s1; rfl
  | _ => left; intro s; rfl

theorem withParsed_eq_ret {α : Type} (st : PState) (e : Except Nat α) (k : α → PState)
    (s : PState) : withParsed st e k = .ret s ↔ ∃ a, e = .ok a ∧ s = k a := by
  cases e with
  | error c => simp [withParsed]
  | ok a =>
    simp only [withParsed, Outcome.ret.injEq, Except.ok.injEq, exists_eq_left']
    exact eq_comm

/-- When a branch stores a parsed value by an assigning update, the fields it can change
end up the same whatever the state before. -/
theorem determines_of_assigning {α : Type} (e : Except Nat α) (u : α → PState → PState)
    (hu : ∀ a, Assigning (u a)) (A B sa sb : PState)
    (hA : withParsed A e (fun a => u a A) = .ret sa)
    (hB : withParsed B e (fun a => u a B) = .ret sb) (F : Field)
    (hF : ∃ st0 s0, withParsed st0 e (fun a => u a st0) = .ret s0 ∧ ¬ F.same s0 st0) :
    F.same sa sb := by
  obtain ⟨st0, s0, h0, hne⟩ := hF
  obtain ⟨a, ha, rfl⟩ := (withParsed_eq_ret _ _ _ _).mp hA
  obtain ⟨b, hb, rfl⟩ := (withParsed_eq_ret _ _ _ _).mp hB
  obtain ⟨c, hc, rfl⟩ := (withParsed_eq_ret _ _ _ _).mp h0
  have hab : a = b := by rw [ha] at hb; exact Except.ok.inj hb
  have hac : a = c := by rw [ha] at hc; exact Except.ok.inj hc
  subst hab; subst hac
  rcases hu a F with h | h
  · exact absurd (h st0) hne
  · exact h A B

/-- Every assigning action stores a value parsed from the option value alone by an
assigning update, which leaves the configuration directories alone and, unless the
action is that of `--load-user-config`, `loadUserConfig` too. -/
theorem applyAction_assigns_form (lc : PState → CStr → Option CStr → Outcome PState)
    (fs : FileSystem) (key : CStr) (v : Option CStr) (a : Action)
    (ha : a.assigns = true) :
    ∃ (α : Type) (e : Except Nat α) (u : α → PState → PState),
      (∀ x, Assigning (u x)) ∧
      (∀ st, applyAction lc fs st key v a = withParsed st e (fun x => u x st)) ∧
      (∀ x s, (u x s).inst.configDirs = s.inst.configDirs) ∧
      (a ≠ .loadUserConfig → ∀ x s, (u x s).data.loadUserConfig = s.data.loadUserConfig) := by
  cases a <;> simp only [Action.assigns, Bool.false_eq_true] at ha
  case setBool f =>
    exact ⟨Bool, .ok (optionParseBoolean v), fun b s => s.setBool f b,
      assigning_setBool f, fun st => rfl, fun _ _ => rfl, fun _ _ _ => rfl⟩
  case stat =>
    refine ⟨Bool, .ok (optionParseBoolean v),
      fun b s => if b then (s.setBool .stat b).setBool .showErrors true
        else s.setBool .stat b, ?_, ?_, fun b s => by cases b <;> rfl,
      fun _ b s => by cases b <;> rfl⟩
    · intro b
      cases b
      · exact assigning_setBool .stat false
      · exact (assigning_setBool .stat true).comp (assigning_setBool .showErrors true)
    · intro st
      cases h : optionParseBoolean v <;> simp [applyAction, withParsed, h]
  case loadUserConfig =>
    exact ⟨Bool, .ok (optionParseBoolean v), fun b s => s.setLoadUserConfig b,
      assigning_setLoadUserConfig, fun st => rfl, fun _ _ => rfl,
      fun h => absurd rfl h⟩
  case setUInt f =>
    exact ⟨Nat, optionParseUInt32 key v, fun n s => s.setUInt f n,
      assigning_setUInt f, fun st => rfl, fun _ _ => rfl, fun _ _ _ => rfl⟩
  case padding =>
    exact ⟨Nat, optionParseUInt32 key v,
      fun n s => (s.setUInt .logoPaddingLeft n).setUInt .logoPaddingRight n,
      fun n => (assigning_setUInt .logoPaddingLeft n).comp
        (assigning_setUInt .logoPaddingRight n), fun st => rfl, fun _ _ => rfl,
      fun _ _ _ => rfl⟩
  case setStr f =>
    exact ⟨CStr, optionParseString key v [], fun x s => s.setStr f x,
      assigning_setStr f,
      fun st => by simp only [applyAction]; rw [optionParseString_buffer],
      fun _ _ => rfl, fun _ _ _ => rfl⟩
  case logo =>
    refine ⟨CStr, optionParseString key v [],
      fun x s => if strcasecmp (v.getD []) "none" = 0 then
          ((((s.setStr .logoSource x).setUInt .logoPaddingTop 0).setUInt
            .logoPaddingRight 0).setUInt .logoPaddingLeft 0).setLogoType .NONE
        else s.setStr .logoSource x, ?_, ?_, ?_, ?_⟩
    · intro x
      split
      · exact ((((assigning_setStr .logoSource x).comp
          (assigning_setUInt .logoPaddingTop 0)).comp
          (assigning_setUInt .logoPaddingRight 0)).comp
          (assigning_setUInt .logoPaddingLeft 0)).comp (assigning_setLogoType .NONE)
      · exact assigning_setStr .logoSource x
    · intro st
      simp only [applyAction]
      rw [optionParseString_buffer]
    · intro x s
      show (if _ then _ else _ : PState).inst.configDirs = _
      split <;> rfl
    · intro _ x s
      show (if _ then _ else _ : PState).data.loadUserConfig = _
      split <;> rfl
  case structureStr =>
    exact ⟨CStr, optionParseString key v [], fun x s => s.setStructure x,
      assigning_setStructure,
      fun st => by simp only [applyAction]; rw [optionParseString_buffer],
      fun _ _ => rfl, fun _ _ _ => rfl⟩
  case sourceType t =>
    exact ⟨CStr, optionParseString key v [],
      fun x s => (s.setStr .logoSource x).setLogoType t,
      fun x => (assigning_setStr .logoSource x).comp (assigning_setLogoType t),
      fun st => by
        simp only [applyAction, setLogoSourceAndType]; rw [optionParseString_buffer],
      fun _ _ => rfl, fun _ _ _ => rfl⟩
  case logoType =>
    exact ⟨FFLogoType, optionParseEnum key v logoTypeNames, fun t s => s.setLogoType t,
      assigning_setLogoType, fun st => rfl, fun _ _ => rfl, fun _ _ _ => rfl⟩
  case binaryPrefix =>
    exact ⟨FFBinaryPrefixType, optionParseEnum key v binaryPrefixNames,
      fun t s => s.setBinaryPrefixType t, assigning_setBinaryPrefixType, fun st => rfl,
      fun _ _ => rfl, fun _ _ _ => rfl⟩
  case soundType =>
    exact ⟨FFSoundType, optionParseEnum key v soundTypeNames,
      fun t s => s.setSoundType t, assigning_setSoundType, fun st => rfl,
      fun _ _ => rfl, fun _ _ _ => rfl⟩
  case localIpCompactType =>
    exact ⟨FFLocalIpCompactType, optionParseEnum key v localIpCompactTypeNames,
      fun t s => s.setLocalIpCompactType t, assigning_setLocalIpCompactType,
      fun st => rfl, fun _ _ => rfl, fun _ _ _ => rfl⟩
  case glType =>
    exact ⟨FFGLType, optionParseEnum key v glTypeNames, fun t s => s.setGLType t,
      assigning_setGLType, fun st => rfl, fun _ _ => rfl, fun _ _ _ => rfl⟩
  case moduleArg m w =>
    exact ⟨CStr, optionParseString key v [],
      fun x s => s.setModuleArgs m ((s.inst.config.moduleArgs m).set w x),
      assigning_setModuleArg m w,
      fun st => by simp only [applyAction]; rw [optionParseString_buffer],
      fun _ _ => rfl, fun _ _ _ => rfl⟩

theorem parseOption_eq_applyAction (fs : FileSystem) (fuel : Nat) (key : CStr) :
    ∃ lc, ∀ st value, parseOption fs fuel st key value
      = applyAction lc fs st key value (classify key) := by
  cases fuel with
  | zero =>
    exact ⟨optionParseConfigFile (fun _ _ _ => .diverge) fs,
      fun st value => parseOptionWith_eq_applyAction _ fs st key value⟩
  | succ n =>
    exact ⟨optionParseConfigFile (parseOption fs n) fs,
      fun st value => parseOptionWith_eq_applyAction _ fs st key value⟩

/-- For a key with an assigning action, the fields that the option can change with a
value hold the same after the option, whatever the state before. -/
theorem parseOption_determines (fs : FileSystem) (fuel : Nat) (k : CStr)
    (hk : (classify k).assigns = true) (v : Option CStr) (A B sa sb : PState)
    (hA : parseOption fs fuel A k v = .ret sa) (hB : parseOption fs fuel B k v = .ret sb)
    (F : Field)
    (hF : ∃ st0 s0, parseOption fs fuel st0 k v = .ret s0 ∧ ¬ F.same s0 st0) :
    F.same sa sb := by
  obtain ⟨lc, hlc⟩ := parseOption_eq_applyAction fs fuel k
  obtain ⟨α, e, u, hu, hform, -, -⟩ := applyAction_assigns_form lc fs k v (classify k) hk
  simp only [hlc, hform] at hA hB hF
  exact determines_of_assigning e u hu A B sa sb hA hB F hF

/-! ## Last write wins -/

/-- C3: for a key whose action assigns the parsed value (boolean, unsigned integer, enum
or plain string options, among them `--recache`, `--logo-width`, `--binary-prefix`,
`--separator`, `--structure` and `--os-format`), applying the option with `v1` and then
with `v2` leaves every field that the option can change with `v2` equal to what the
option with `v2` alone stores there. -/
theorem parseOption_last_write_wins (fs : FileSystem) (fuel : Nat) (k : CStr)
    (hk : (classify k).assigns = true) (v1 v2 : Option CStr) (st s1 s12 s2 : PState)
    (h1 : parseOption fs fuel st k v1 = .ret s1)
    (h12 : parseOption fs fuel s1 k v2 = .ret s12)
    (h2 : parseOption fs fuel st k v2 = .ret s2) (F : Field)
    (hF : ∃ st0 s0, parseOption fs fuel st0 k v2 = .ret s0 ∧ ¬ F.same s0 st0) :
    F.same s12 s2
    ∧ (classify "--recache".toList).assigns = true
    ∧ (classify "--logo-width".toList).assigns = true
    ∧ (classify "--binary-prefix".toList).assigns = true
    ∧ (classify "--separator".toList).assigns = true
    ∧ (classify "--structure".toList).assigns = true
    ∧ (classify "--os-format".toList).assigns = true :=
  ⟨parseOption_determines fs fuel k hk v2 s1 st s12 s2 h12 h2 F hF,
    by decide, by decide, by decide, by decide, by decide, by decide⟩

theorem parseOption_last_write_wins_witness :
    ((classify "--separator".toList).assigns = true
      ∧ parseOption noFiles 0 exampleState "--separator".toList (some "a".toList)
          = .ret (exampleState.setStr .separator "a".toList)
      ∧ parseOption noFiles 0 (exampleState.setStr .separator "a".toList)
          "--separator".toList (some "b".toList)
          = .ret ((exampleState.setStr .separator "a".toList).setStr .separator "b".toList)
      ∧ parseOption noFiles 0 exampleState "--separator".toList (some "b".toList)
          = .ret (exampleState.setStr .separator "b".toList)
      ∧ ¬ (Field.str .separator).same (exampleState.setStr .separator "b".toList)
          exampleState)
    ∧ (Field.str .separator).same
        ((exampleState.setStr .separator "a".toList).setStr .separator "b".toList)
        (exampleState.setStr .separator "b".toList) := by
  have hne : ¬ (Field.str .separator).same (exampleState.setStr .separator "b".toList)
      exampleState := by
    show ¬ ("b".toList = ([] : List Char))
    decide
  exact ⟨⟨by decide, rfl, rfl, rfl, hne⟩,
    (parseOption_last_write_wins noFiles 0 "--separator".toList (by decide)
      (some "a".toList) (some "b".toList) exampleState _ _ _ rfl rfl rfl
      (.str .separator) ⟨exampleState, _, rfl, hne⟩).1⟩

/-- C4 (evaluation of the code): `--color-keys red` followed by `--color-keys blue`
leaves `colorKeys` equal to `3134`, the two expansions one after the other, while
`--color-keys blue` alone stores `34`: `optionParseColor` appends to the buffer and does
not clear it. -/
theorem parseOption_color_keys_twice :
    parseOption noFiles 0 exampleState "--color-keys".toList (some "red".toList)
        = .ret (exampleState.setStr .colorKeys "31".toList)
    ∧ parseOption noFiles 0 (exampleState.setStr .colorKeys "31".toList)
          "--color-keys".toList (some "blue".toList)
        = .ret ((exampleState.setStr .colorKeys "31".toList).setStr .colorKeys
            "3134".toList)
    ∧ parseOption noFiles 0 exampleState "--color-keys".toList (some "blue".toList)
        = .ret (exampleState.setStr .colorKeys "34".toList)
    ∧ ((exampleState.setStr .colorKeys "31".toList).setStr .colorKeys
          "3134".toList).str .colorKeys ≠ (exampleState.setStr .colorKeys "34".toList).str
            .colorKeys :=
  ⟨rfl, rfl, rfl, by decide⟩

/-! ## `main`: configuration files and command line -/

theorem parseArguments_of_loadUserConfig
    (po : PState → CStr → Option CStr → Outcome PState) (st : PState) (argv : List CStr)
    (h : st.data.loadUserConfig = true) :
    parseArguments po st argv = parseArgumentsLoop po (argv.drop 1) st := by
  simp [parseArguments, h]

/-- C2 (counterexample): with a configuration file that turns `loadUserConfig` off and
sets the separator to `Y`, the command line `--separator Z` is not applied: `main` ends
its parsing with the separator `Y`. -/
theorem mainParse_arguments_not_applied :
    ∃ s, mainParse exampleFiles 1 false exampleInstance
          ["fastfetch".toList, "--separator".toList, "Z".toList] = .ret s
      ∧ s.str .separator = "Y".toList
      ∧ s.str .separator ≠ "Z".toList :=
  ⟨_, rfl, rfl, by decide⟩

theorem Outcome.bind_ret {σ : Type} (o : Outcome σ) : o.bind (fun s => .ret s) = o := by
  cases o <;> rfl

theorem parseArgumentsLoop_pair (po : PState → CStr → Option CStr → Outcome PState)
    (st : PState) (k v : CStr) (hv : charAt v 0 ≠ '-') :
    parseArgumentsLoop po [k, v] st = po st k (some v) := by
  simp only [parseArgumentsLoop, hv, false_and, if_false]
  exact Outcome.bind_ret _

theorem applyAction_assigns_indep (lc lc1 : PState → CStr → Option CStr → Outcome PState)
    (fs fs1 : FileSystem) (st : PState) (key : CStr) (v : Option CStr) (a : Action)
    (ha : a.assigns = true) :
    applyAction lc fs st key v a = applyAction lc1 fs1 st key v a := by
  cases a <;> first | rfl | exact absurd ha (by simp [Action.assigns])

theorem parseOption_assigns_indep (fs fs1 : FileSystem) (fuel fuel1 : Nat) (st : PState)
    (k : CStr) (hk : (classify k).assigns = true) (v : Option CStr) :
    parseOption fs fuel st k v = parseOption fs1 fuel1 st k v := by
  obtain ⟨lc, hlc⟩ := parseOption_eq_applyAction fs fuel k
  obtain ⟨lc1, hlc1⟩ := parseOption_eq_applyAction fs1 fuel1 k
  rw [hlc, hlc1]
  exact applyAction_assigns_indep lc lc1 fs fs1 st k v _ hk

theorem mainParse_of_cascade (fs : FileSystem) (fuel : Nat) (instance0 : FFinstance)
    (argv : List CStr) (st1 : PState)
    (hc : parseConfigFiles (parseOption fs fuel) fs ⟨instance0, ⟨[], [], true⟩⟩ = .ret st1)
    (hl : st1.data.loadUserConfig = true) :
    mainParse fs fuel false instance0 argv
      = parseArgumentsLoop (parseOption fs fuel) (argv.drop 1) st1 := by
  simp only [mainParse, Bool.not_false, if_true, hc, Outcome.bind]
  exact parseArguments_of_loadUserConfig _ _ _ hl

/-- C2 (amended): `main` parses the command line after the cascade of configuration files
has returned and, when `loadUserConfig` is still on at that point, applies every command
line option to the state that the cascade left; an option with an assigning action given
on the command line then fixes the fields it can change, whatever the configuration files
contain. -/
theorem mainParse_arguments_after_cascade (fs : FileSystem) (fuel : Nat)
    (instance0 : FFinstance) (argv : List CStr) (st1 : PState)
    (hc : parseConfigFiles (parseOption fs fuel) fs ⟨instance0, ⟨[], [], true⟩⟩ = .ret st1)
    (hl : st1.data.loadUserConfig = true) :
    mainParse fs fuel false instance0 argv
        = parseArgumentsLoop (parseOption fs fuel) (argv.drop 1) st1
    ∧ ∀ (prog k v : CStr), (classify k).assigns = true → charAt v 0 ≠ '-' →
        ∀ (fs1 : FileSystem) (fuel1 : Nat) (instance1 : FFinstance) (st2 s s1 : PState),
          parseConfigFiles (parseOption fs1 fuel1) fs1 ⟨instance1, ⟨[], [], true⟩⟩
            = .ret st2 →
          st2.data.loadUserConfig = true →
          mainParse fs fuel false instance0 [prog, k, v] = .ret s →
          mainParse fs1 fuel1 false instance1 [prog, k, v] = .ret s1 →
          ∀ F : Field,
            (∃ st0 s0, parseOption fs fuel st0 k (some v) = .ret s0 ∧ ¬ F.same s0 st0) →
            F.same s s1 := by
  refine ⟨mainParse_of_cascade fs fuel instance0 argv st1 hc hl, ?_⟩
  intro prog k v hk hv fs1 fuel1 instance1 st2 s s1 hc1 hl1 hs hs1 F hF
  rw [mainParse_of_cascade fs fuel instance0 _ st1 hc hl] at hs
  rw [mainParse_of_cascade fs1 fuel1 instance1 _ st2 hc1 hl1] at hs1
  simp only [List.drop] at hs hs1
  rw [parseArgumentsLoop_pair _ _ _ _ hv] at hs hs1
  rw [parseOption_assigns_indep fs1 fs fuel1 fuel st2 k hk] at hs1
  exact parseOption_determines fs fuel k hk (some v) st1 st2 s s1 hs hs1 F hF

theorem mainParse_arguments_after_cascade_witness :
    (parseConfigFiles (parseOption noFiles 0) noFiles ⟨exampleInstance, ⟨[], [], true⟩⟩
        = .ret exampleState
      ∧ exampleState.data.loadUserConfig = true)
    ∧ mainParse noFiles 0 false exampleInstance
        ["fastfetch".toList, "--separator".toList, "Z".toList]
      = .ret (exampleState.setStr .separator "Z".toList) := by
  refine ⟨⟨rfl, rfl⟩, ?_⟩
  rw [(mainParse_arguments_after_cascade noFiles 0 exampleInstance
    ["fastfetch".toList, "--separator".toList, "Z".toList] exampleState rfl rfl).1]
  rfl

/-- C6: with `NO_CONFIG` set, `main` calls no `parseConfigFiles`: its parsing is the
argument loop applied to the initial state, in which `loadUserConfig` is on, the same
loop that runs on the state left by a cascade; with the example files, whose cascade
would turn the command line off, `--separator Z` is applied. -/
theorem main_noConfig (fs : FileSystem) (fuel : Nat) (defaultStructure : CStr)
    (instance0 : FFinstance) (argv : List CStr) :
    mainParse fs fuel true instance0 argv
        = parseArgumentsLoop (parseOption fs fuel) (argv.drop 1)
            ⟨instance0, ⟨[], [], true⟩⟩
    ∧ main fs fuel true defaultStructure instance0 argv
        = (parseArgumentsLoop (parseOption fs fuel) (argv.drop 1)
            ⟨instance0, ⟨[], [], true⟩⟩).bind (mainDispatch defaultStructure)
    ∧ (∀ st1 : PState, st1.data.loadUserConfig = true →
        parseArguments (parseOption fs fuel) st1 argv
          = parseArgumentsLoop (parseOption fs fuel) (argv.drop 1) st1)
    ∧ mainParse exampleFiles 1 true exampleInstance
          ["fastfetch".toList, "--separator".toList, "Z".toList]
        = .ret (exampleState.setStr .separator "Z".toList) := by
  have h : mainParse fs fuel true instance0 argv
      = parseArgumentsLoop (parseOption fs fuel) (argv.drop 1)
          ⟨instance0, ⟨[], [], true⟩⟩ := by
    simp only [mainParse, Bool.not_true, Bool.false_eq_true, if_false, Outcome.bind]
    exact parseArguments_of_loadUserConfig _ _ _ rfl
  exact ⟨h, by rw [main, h], fun st1 h1 => parseArguments_of_loadUserConfig _ _ _ h1, rfl⟩

/-! ## Configuration file lines -/

theorem strchr_append (k r : CStr) (ch : Char) (h : ∀ c ∈ k, c ≠ ch) :
    strchr (k ++ ch :: r) ch = some (k, ch :: r) := by
  induction k with
  | nil => simp [strchr]
  | cons a t ih =>
    have ha : a ≠ ch := h a (List.mem_cons_self _ _)
    simp [strchr, ha, ih (fun c hc => h c (List.mem_cons_of_mem _ hc))]

theorem isspace_newline : isspace '\n' = true := by decide

theorem isspace_space : isspace ' ' = true := by decide

theorem dropWhile_isspace_plain (x rest : List Char) (hne : x ≠ [])
    (hx : ∀ c ∈ x, isspace c = false) : (x ++ rest).dropWhile isspace = x ++ rest := by
  obtain ⟨c, t, rfl⟩ := List.exists_cons_of_ne_nil hne
  simp [List.dropWhile, hx c (List.mem_cons_self _ _)]

theorem trimLineRight_line (k x : CStr) (hk : k ≠ []) (hx : x ≠ [])
    (hxs : ∀ c ∈ x, isspace c = false) :
    trimLineRight (configLine k x) = k ++ ' ' :: x := by
  obtain ⟨c, t, rfl⟩ := List.exists_cons_of_ne_nil hk
  have hrev : (t ++ ' ' :: (x ++ ['\n'])).reverse
      = '\n' :: (x.reverse ++ (' ' :: t.reverse)) := by simp
  have hxr : x.reverse ≠ [] := by simpa using hx
  have hxrs : ∀ c ∈ x.reverse, isspace c = false := fun c hc => hxs c (by simpa using hc)
  simp only [configLine, List.cons_append, trimLineRight, hrev, List.dropWhile,
    isspace_newline, dropWhile_isspace_plain _ _ hxr hxrs]
  simp

theorem unquoteValue_plain (x : CStr) (h1 : charAt x 0 ≠ '"')
    (h2 : charAt x 0 ≠ Char.ofNat 39) : unquoteValue x = x := by
  simp [unquoteValue, h1, h2]

/-- A line made of a plain key, one space, a plain value and the newline is passed to the
option parser as that key and that value. -/
theorem parseConfigLine_plain (po : PState → CStr → Option CStr → Outcome PState)
    (st : PState) (k x : CStr) (hk : plainToken k) (hx : plainToken x) :
    parseConfigLine po st (configLine k x) = po st k (some x) := by
  obtain ⟨hkne, hks, hkh, -, -⟩ := hk
  obtain ⟨hxne, hxs, -, hxq1, hxq2⟩ := hx
  have hstart : (configLine k x).dropWhile isspace = configLine k x :=
    dropWhile_isspace_plain k _ hkne hks
  have hhead : charAt (configLine k x) 0 = charAt k 0 := by
    obtain ⟨c, t, rfl⟩ := List.exists_cons_of_ne_nil hkne
    rfl
  have hne : configLine k x ≠ [] := by
    obtain ⟨c, t, rfl⟩ := List.exists_cons_of_ne_nil hkne
    simp [configLine]
  have hnospace : ∀ c ∈ k, c ≠ ' ' := by
    intro c hc hcs
    have := hks c hc
    rw [hcs, isspace_space] at this
    exact absurd this (by decide)
  have hvalue : ((' ' :: x).drop 1).dropWhile isspace = x := by
    have := dropWhile_isspace_plain x [] hxne hxs
    simpa using this
  simp only [parseConfigLine, hstart, hhead, hkh, or_false]
  rw [if_neg hne, trimLineRight_line k x hkne hxne hxs, strchr_append k x ' ' hnospace]
  simp only [hvalue, unquoteValue_plain x hxq1 hxq2]

theorem strtoul_trailing (ds : CStr) (c : Char) (rest : CStr) (hne : ds ≠ [])
    (hd : ∀ x ∈ ds, isdigit x = true) (hc : isdigit c = false) :
    (strtoul (ds ++ c :: rest)).2 = c :: rest := by
  obtain ⟨d, t, rfl⟩ := List.exists_cons_of_ne_nil hne
  have hdd : isdigit d = true := hd d (List.mem_cons_self _ _)
  have hsp : ((d :: t) ++ c :: rest).dropWhile isspace = (d :: t) ++ c :: rest := by
    simp [List.dropWhile, isdigit_not_isspace hdd]
  have hsign := isdigit_ne_sign hdd
  have hch : charAt ((d :: t) ++ c :: rest) 0 = d := rfl
  have htake : ((d :: t) ++ c :: rest).takeWhile isdigit = d :: t := by
    rw [List.takeWhile_append_of_pos hd]
    simp [List.takeWhile, hc]
  have hdrop : ((d :: t) ++ c :: rest).dropWhile isdigit = c :: rest := by
    rw [List.dropWhile_append_of_pos hd]
    simp [List.dropWhile, hc]
  unfold strtoul
  simp only [hsp, hch, hsign.1, hsign.2, or_self, if_false, htake, hdrop, reduceCtorEq]

theorem applyAction_parsesUInt_error (lc : PState → CStr → Option CStr → Outcome PState)
    (fs : FileSystem) (st : PState) (key : CStr) (v : Option CStr) (a : Action)
    (ha : a.parsesUInt = true) (status : Nat)
    (h : optionParseUInt32 key v = .error status) :
    applyAction lc fs st key v a = .exit status st := by
  cases a <;> simp only [Action.parsesUInt, Bool.false_eq_true] at ha <;>
    simp only [applyAction, h, withParsed]

/-- C11: a value made of decimal digits followed by a character that is no digit (and
anything after it) ends `optionParseUInt32` with exit status 479, an absent value with
480; for every key that stores the result of `optionParseUInt32` the process ends with
that status in the unchanged state, so the field of the option is not modified. -/
theorem optionParseUInt32_trailing (key ds : CStr) (c : Char) (rest : CStr) (hne : ds ≠ [])
    (hd : ∀ x ∈ ds, isdigit x = true) (hc : isdigit c = false) :
    optionParseUInt32 key (some (ds ++ c :: rest)) = .error 479
    ∧ optionParseUInt32 key none = .error 480
    ∧ optionParseUInt32 key (some "12abc".toList) = .error 479
    ∧ (∀ (fs : FileSystem) (fuel : Nat) (st : PState) (k : CStr),
        (classify k).parsesUInt = true →
        parseOption fs fuel st k (some (ds ++ c :: rest)) = .exit 479 st
          ∧ parseOption fs fuel st k none = .exit 480 st)
    ∧ (∀ k ∈ ["--logo-width", "--logo-height", "--logo-padding", "--logo-padding-top",
          "--logo-padding-left", "--logo-padding-right", "--chafa-canvas-mode",
          "--chafa-color-space", "--chafa-dither-mode", "--public-ip-timeout",
          "--weather-timeout", "--percent-type"],
        (classify (String.toList k)).parsesUInt = true) := by
  have h479 : ∀ key1 : CStr, optionParseUInt32 key1 (some (ds ++ c :: rest)) = .error 479 := by
    intro key1
    simp only [optionParseUInt32, strtoul_trailing ds c rest hne hd hc]
    simp
  refine ⟨h479 key, rfl, rfl, ?_, by decide⟩
  intro fs fuel st k hk
  obtain ⟨lc, hlc⟩ := parseOption_eq_applyAction fs fuel k
  rw [hlc, hlc]
  exact ⟨applyAction_parsesUInt_error lc fs st k _ _ hk 479 (h479 k),
    applyAction_parsesUInt_error lc fs st k _ _ hk 480 rfl⟩

theorem optionParseUInt32_trailing_witness :
    ("12".toList ≠ [] ∧ (∀ x ∈ "12".toList, isdigit x = true) ∧ isdigit 'a' = false)
    ∧ parseOption noFiles 0 exampleState "--logo-width".toList
        (some ("12".toList ++ 'a' :: "bc".toList)) = .exit 479 exampleState :=
  ⟨⟨by decide, by decide, by decide⟩,
    ((optionParseUInt32_trailing [] "12".toList 'a' "bc".toList (by decide) (by decide)
      (by decide)).2.2.2.1 noFiles 0 exampleState "--logo-width".toList (by decide)).1⟩

theorem strtoul_end_nil (v : CStr) (h : (strtoul v).2 = []) : strtoulForm v := by
  unfold strtoul at h
  simp only at h
  have hnil : v = [] → strtoulForm v := fun e =>
    ⟨[], [], [], by rw [e]; rfl, by simp, Or.inl rfl, by simp⟩
  have hws : ∀ x ∈ v.takeWhile isspace, isspace x = true :=
    fun x hx => List.mem_takeWhile_imp hx
  have hv := List.takeWhile_append_dropWhile isspace v
  split at h
  · rename_i hsign
    split at h
    · -- no digit was converted: the end pointer is the value itself
      exact hnil h
    · have h2 : List.dropWhile isdigit (List.drop 1 (List.dropWhile isspace v)) = [] := h
      have hds := List.dropWhile_eq_nil_iff.mp h2
      cases hs1 : v.dropWhile isspace with
      | nil =>
        rw [hs1] at hsign
        exact absurd hsign (by decide)
      | cons c t =>
        rw [hs1] at hsign hds hv
        have hc : c = '-' ∨ c = '+' := hsign
        refine ⟨v.takeWhile isspace, [c], t, by rw [List.append_assoc]; exact hv.symm, hws, ?_,
          fun x hx => hds x (by simpa using hx)⟩
        rcases hc with rfl | rfl
        · exact Or.inr (Or.inr rfl)
        · exact Or.inr (Or.inl rfl)
  · split at h
    · exact hnil h
    · have h2 : List.dropWhile isdigit (List.dropWhile isspace v) = [] := h
      have hds := List.dropWhile_eq_nil_iff.mp h2
      exact ⟨v.takeWhile isspace, [], v.dropWhile isspace, by rw [List.append_nil, hv],
        hws, Or.inl rfl, hds⟩

/-- C12 (counterexample): the values ` 12` (with a leading space), `+5` and `-1` are no
strings of decimal digits, yet `optionParseUInt32` returns 12, 5 and 4294967295 for
them: `strtoul` skips leading white space and takes a sign. -/
theorem optionParseUInt32_accepts_space_and_sign :
    optionParseUInt32 [] (some " 12".toList) = .ok 12
    ∧ optionParseUInt32 [] (some "+5".toList) = .ok 5
    ∧ optionParseUInt32 [] (some "-1".toList) = .ok 4294967295
    ∧ ¬ (∀ x ∈ " 12".toList, isdigit x = true)
    ∧ ¬ (∀ x ∈ "+5".toList, isdigit x = true)
    ∧ ¬ (∀ x ∈ "-1".toList, isdigit x = true) :=
  ⟨rfl, rfl, rfl, by decide, by decide, by decide⟩

/-- C12 (amended): `optionParseUInt32` returns a number for a present value only if the
value is, as a whole, optional leading white space, at most one sign and after that
nothing but decimal digits; every value that is not of this form ends the process with
exit status 479. -/
theorem optionParseUInt32_ok_form (key v : CStr) (n : Nat)
    (h : optionParseUInt32 key (some v) = .ok n) :
    strtoulForm v
    ∧ ∀ v1 : CStr, ¬ strtoulForm v1 → optionParseUInt32 key (some v1) = .error 479 := by
  have hform : ∀ v1 : CStr, (∃ m, optionParseUInt32 key (some v1) = .ok m) →
      strtoulForm v1 := by
    intro v1 ⟨m, hm⟩
    apply strtoul_end_nil
    by_contra hne
    simp [optionParseUInt32, hne] at hm
  refine ⟨hform v ⟨n, h⟩, ?_⟩
  intro v1 hv1
  by_cases hend : (strtoul v1).2 = []
  · exact absurd (strtoul_end_nil v1 hend) hv1
  · simp [optionParseUInt32, hend]

theorem optionParseUInt32_ok_form_witness :
    optionParseUInt32 [] (some "+5".toList) = .ok 5 ∧ strtoulForm "+5".toList :=
  ⟨rfl, (optionParseUInt32_ok_form [] "+5".toList 5 rfl).1⟩

/-! ## Enum options -/

theorem optionParseEnumArgs_eq_firstName {α : Type} (v : CStr) (args : List (String × α)) :
    optionParseEnumArgs v args
      = match firstName v args with
        | some p => .ok p.2
        | none => .error 478 := by
  induction args with
  | nil => rfl
  | cons p rest ih =>
    obtain ⟨name, c⟩ := p
    by_cases h : strcasecmp v name.toList = 0
    · have h1 := (strcasecmp_eq_zero_iff v name.toList).mp h
      rw [optionParseEnumArgs, if_pos h]
      simp only [firstName, List.find?, h1, decide_True]
    · have h1 : ¬ v.map tolower = name.toList.map tolower :=
        fun e => h ((strcasecmp_eq_zero_iff v name.toList).mpr e)
      rw [optionParseEnumArgs, if_neg h, ih]
      simp only [firstName, List.find?, h1, decide_False]

theorem withParsed_optionParseEnum {α : Type} (st : PState) (key v : CStr)
    (args : List (String × α)) (k : α → PState) :
    withParsed st (optionParseEnum key (some v) args) k = setFirstName st v args k := by
  simp only [optionParseEnum, optionParseEnumArgs_eq_firstName, setFirstName]
  cases firstName v args <;> rfl

/-- C13: for each of the five enum options and every present value `v`, `parseOption`
sets the option's field to the constant paired with the first listed name that equals
`v` when case is ignored, and ends the process with exit status 478 in the state it was
given when there is no such name; an absent value ends it with exit status 476. So `KITTY` selects the constant of
`kitty`, and `vulkan` is no name of `--gl`. -/
theorem parseOption_enum (fs : FileSystem) (fuel : Nat) (st : PState) (v : CStr) :
    (parseOption fs fuel st "--logo-type".toList (some v)
        = setFirstName st v logoTypeNames st.setLogoType)
    ∧ (parseOption fs fuel st "--binary-prefix".toList (some v)
        = setFirstName st v binaryPrefixNames st.setBinaryPrefixType)
    ∧ (parseOption fs fuel st "--sound-type".toList (some v)
        = setFirstName st v soundTypeNames st.setSoundType)
    ∧ (parseOption fs fuel st "--localip-compact-type".toList (some v)
        = setFirstName st v localIpCompactTypeNames st.setLocalIpCompactType)
    ∧ (parseOption fs fuel st "--gl".toList (some v)
        = setFirstName st v glTypeNames st.setGLType)
    ∧ parseOption fs fuel st "--logo-type".toList none = .exit 476 st
    ∧ parseOption fs fuel st "--binary-prefix".toList none = .exit 476 st
    ∧ parseOption fs fuel st "--sound-type".toList none = .exit 476 st
    ∧ parseOption fs fuel st "--localip-compact-type".toList none = .exit 476 st
    ∧ parseOption fs fuel st "--gl".toList none = .exit 476 st
    ∧ setFirstName st "KITTY".toList logoTypeNames st.setLogoType
        = .ret (st.setLogoType .IMAGE_KITTY)
    ∧ setFirstName st "vulkan".toList glTypeNames st.setGLType = .exit 478 st := by
  refine ⟨?_, ?_, ?_, ?_, ?_, ?_, ?_, ?_, ?_, ?_, rfl, rfl⟩
  · refine Eq.trans ?_ (withParsed_optionParseEnum st "--logo-type".toList v logoTypeNames st.setLogoType)
    cases fuel <;> rfl
  · refine Eq.trans ?_ (withParsed_optionParseEnum st "--binary-prefix".toList v binaryPrefixNames st.setBinaryPrefixType)
    cases fuel <;> rfl
  · refine Eq.trans ?_ (withParsed_optionParseEnum st "--sound-type".toList v soundTypeNames st.setSoundType)
    cases fuel <;> rfl
  · refine Eq.trans ?_ (withParsed_optionParseEnum st "--localip-compact-type".toList v localIpCompactTypeNames st.setLocalIpCompactType)
    cases fuel <;> rfl
  · refine Eq.trans ?_ (withParsed_optionParseEnum st "--gl".toList v glTypeNames st.setGLType)
    cases fuel <;> rfl
  · cases fuel <;> rfl
  · cases fuel <;> rfl
  · cases fuel <;> rfl
  · cases fuel <;> rfl
  · cases fuel <;> rfl

/-! ## Colour values -/

theorem strncasecmp_eq_zero_iff (cmp str : CStr) :
    strncasecmp str cmp cmp.length = 0 ↔ startsIgnoringCase str cmp = true := by
  induction cmp generalizing str with
  | nil => simp [strncasecmp, startsIgnoringCase]
  | cons b bs ih =>
    cases str with
    | nil => simp [strncasecmp, startsIgnoringCase]
    | cons a as =>
      by_cases h : tolower a = tolower b
      · have := ih as
        simp only [startsIgnoringCase] at this
        simp [strncasecmp, startsIgnoringCase, h, this]
      · have h1 := tolower_toNat_sub_ne_zero h
        have h2 : ¬ tolower b = tolower a := fun e => h e.symm
        simp [strncasecmp, startsIgnoringCase, h, h1, h2]

theorem startsWith_eq_startsIgnoringCase (str cmp : CStr) :
    startsWith str cmp = startsIgnoringCase str cmp := by
  have h := strncasecmp_eq_zero_iff cmp str
  unfold startsWith strlen
  cases hs : startsIgnoringCase str cmp
  · simp only [hs, Bool.false_eq_true, iff_false] at h
    simp [h]
  · simp only [hs, iff_true] at h
    simp [h]

theorem colorScan_skip (n : Nat) (l : CStr) : colorScan n l = colorScan 0 (l.drop n) := by
  induction n generalizing l with
  | zero => rfl
  | succ n ih =>
    cases l with
    | nil => rfl
    | cons x r =>
      rw [colorScan, ih r]
      rfl

theorem optionParseColorLoop_eq_colorScan : ∀ (fuel : Nat) (v buf : CStr),
    v.length ≤ fuel → optionParseColorLoop fuel v buf = buf ++ colorScan 0 v
  | 0, v, buf, h => by
    have hv : v = [] := List.length_eq_zero.mp (Nat.le_zero.mp h)
    subst hv
    simp [optionParseColorLoop, colorScan]
  | fuel + 1, [], buf, h => by simp [optionParseColorLoop, colorScan]
  | fuel + 1, c :: rest, buf, h => by
    have hlen : rest.length ≤ fuel := by simpa using h
    have ih : ∀ (n : Nat) (b : CStr), optionParseColorLoop fuel (rest.drop n) b
        = b ++ colorScan n rest := fun n b => by
      rw [optionParseColorLoop_eq_colorScan fuel (rest.drop n) b
        (by rw [List.length_drop]; omega), colorScan_skip n rest]
    rw [optionParseColorLoop, colorScan]
    simp only [firstColorNameIn]
    rw [if_neg (List.cons_ne_nil c rest)]
    simp only [← startsWith_eq_startsIgnoringCase]
    by_cases h_reset_ : startsWith (c :: rest) "reset_".toList = true
    · rw [if_pos h_reset_, if_pos h_reset_]
      exact (ih 5 _).trans (List.append_assoc _ _ _)
    rw [if_neg h_reset_, if_neg h_reset_]
    by_cases h_bright_ : startsWith (c :: rest) "bright_".toList = true
    · rw [if_pos h_bright_, if_pos h_bright_]
      exact (ih 6 _).trans (List.append_assoc _ _ _)
    rw [if_neg h_bright_, if_neg h_bright_]
    by_cases h_black : startsWith (c :: rest) "black".toList = true
    · rw [if_pos h_black, if_pos h_black]
      exact (ih 4 _).trans (List.append_assoc _ _ _)
    rw [if_neg h_black, if_neg h_black]
    by_cases h_red : startsWith (c :: rest) "red".toList = true
    · rw [if_pos h_red, if_pos h_red]
      exact (ih 2 _).trans (List.append_assoc _ _ _)
    rw [if_neg h_red, if_neg h_red]
    by_cases h_green : startsWith (c :: rest) "green".toList = true
    · rw [if_pos h_green, if_pos h_green]
      exact (ih 4 _).trans (List.append_assoc _ _ _)
    rw [if_neg h_green, if_neg h_green]
    by_cases h_yellow : startsWith (c :: rest) "yellow".toList = true
    · rw [if_pos h_yellow, if_pos h_yellow]
      exact (ih 5 _).trans (List.append_assoc _ _ _)
    rw [if_neg h_yellow, if_neg h_yellow]
    by_cases h_blue : startsWith (c :: rest) "blue".toList = true
    · rw [if_pos h_blue, if_pos h_blue]
      exact (ih 3 _).trans (List.append_assoc _ _ _)
    rw [if_neg h_blue, if_neg h_blue]
    by_cases h_magenta : startsWith (c :: rest) "magenta".toList = true
    · rw [if_pos h_magenta, if_pos h_magenta]
      exact (ih 6 _).trans (List.append_assoc _ _ _)
    rw [if_neg h_magenta, if_neg h_magenta]
    by_cases h_cyan : startsWith (c :: rest) "cyan".toList = true
    · rw [if_pos h_cyan, if_pos h_cyan]
      exact (ih 3 _).trans (List.append_assoc _ _ _)
    rw [if_neg h_cyan, if_neg h_cyan]
    by_cases h_white : startsWith (c :: rest) "white".toList = true
    · rw [if_pos h_white, if_pos h_white]
      exact (ih 4 _).trans (List.append_assoc _ _ _)
    rw [if_neg h_white, if_neg h_white]
    exact (ih 0 _).trans (List.append_assoc _ _ _)

theorem colorScan_no_name (v : CStr)
    (h : ∀ t ∈ v.tails, firstColorNameIn t colorNames = none) : colorScan 0 v = v := by
  induction v with
  | nil => rfl
  | cons c rest ih =>
    have h0 := h (c :: rest) (by simp)
    have hrest := ih (fun t ht => h t (by simp [ht]))
    rw [colorScan, h0]
    simp only [hrest]

/-- C14: for every present value `v`, `optionParseColor` returns, and what it appends to
the buffer is exactly the scan of `v` from left to right, where a position that starts,
ignoring case, with one of the names `reset_`, `bright_`, `black`, `red`, `green`,
`yellow`, `blue`, `magenta`, `cyan`, `white` (tested in this order) gives the text of the
name and skips it, and any other character is copied. Any number of iterations from the
length of `v` on gives this result; `bright_red` gives `1;31`, and a value that starts
with none of the names at any position is copied unchanged. -/
theorem optionParseColor_eq_colorScan (key v buffer : CStr) :
    optionParseColor key (some v) buffer = .ok (buffer ++ colorScan 0 v)
    ∧ (∀ fuel, strlen v ≤ fuel → optionParseColorLoop fuel v buffer = buffer ++ colorScan 0 v)
    ∧ colorScan 0 "bright_red".toList = "1;31".toList
    ∧ ((∀ t ∈ v.tails, firstColorNameIn t colorNames = none) → colorScan 0 v = v) :=
  ⟨by
    simp only [optionParseColor, optionCheckString]
    rw [optionParseColorLoop_eq_colorScan (strlen v) v buffer (Nat.le_refl _)],
   fun fuel h => optionParseColorLoop_eq_colorScan fuel v buffer h,
   by decide,
   colorScan_no_name v⟩

theorem optionParseColor_eq_colorScan_witness :
    optionParseColor [] (some "Bright_Green;4x".toList) [] = .ok "1;32;4x".toList
    ∧ (∀ t ∈ "38;5;208".toList.tails, firstColorNameIn t colorNames = none)
    ∧ colorScan 0 "38;5;208".toList = "38;5;208".toList :=
  ⟨(optionParseColor_eq_colorScan [] "Bright_Green;4x".toList []).1,
   by decide,
   (optionParseColor_eq_colorScan [] "38;5;208".toList []).2.2.2 (by decide)⟩

/-! ## Module argument options -/

set_option maxRecDepth 100000 in
theorem classify_moduleArgKey :
    ∀ p ∈ moduleArgsCalls, ∀ w ∈ [ArgField.key, .outputFormat, .errorFormat],
      (classify (moduleArgKey p.1 w)).isModuleArg p.2 w = true := by
  decide

theorem Action.eq_of_isModuleArg (m : Module) (w : ArgField) (a : Action)
    (h : a.isModuleArg m w = true) : a = .moduleArg m w := by
  cases a <;> simp only [Action.isModuleArg, Bool.false_eq_true] at h
  simp only [decide_eq_true_eq] at h
  rw [h.1, h.2]

/-- C15: for every module name of the module argument section, with its record `m`,
every suffix (`key`, `format`, `error`, naming the field `w`) and every present value
`v`, `parseOption` on the key `--<name>-<suffix>` returns the state in which the field
`w` of the record of `m` is `v`; the other two fields of that record, the records of all
other modules, and every other field that the option parser writes are unchanged. -/
theorem parseOption_moduleArgs (name : String) (m : Module) (w : ArgField)
    (hm : (name, m) ∈ moduleArgsCalls) (fs : FileSystem) (fuel : Nat) (st : PState)
    (v : CStr) :
    parseOption fs fuel st (moduleArgKey name w) (some v)
        = .ret (st.setModuleArgs m ((st.inst.config.moduleArgs m).set w v))
    ∧ ((st.setModuleArgs m ((st.inst.config.moduleArgs m).set w v)).inst.config.moduleArgs
          m).get w = v
    ∧ (∀ w1, w1 ≠ w →
        ((st.setModuleArgs m ((st.inst.config.moduleArgs m).set w v)).inst.config.moduleArgs
          m).get w1 = (st.inst.config.moduleArgs m).get w1)
    ∧ (∀ m1, m1 ≠ m →
        (st.setModuleArgs m ((st.inst.config.moduleArgs m).set w v)).inst.config.moduleArgs m1
          = st.inst.config.moduleArgs m1)
    ∧ (∀ F : Field, F ≠ .moduleArg m w →
        F.same (st.setModuleArgs m ((st.inst.config.moduleArgs m).set w v)) st) := by
  have hw : w ∈ [ArgField.key, .outputFormat, .errorFormat] := by cases w <;> simp
  have hc := Action.eq_of_isModuleArg m w _ (classify_moduleArgKey (name, m) hm w hw)
  obtain ⟨lc, hlc⟩ := parseOption_eq_applyAction fs fuel (moduleArgKey name w)
  refine ⟨?_, ?_, ?_, ?_, ?_⟩
  · rw [hlc, hc]
    rfl
  · cases w <;> simp [PState.setModuleArgs, FFModuleArgs.set, FFModuleArgs.get]
  · intro w1 h1
    cases w <;> cases w1 <;>
      first
        | exact absurd rfl h1
        | simp [PState.setModuleArgs, FFModuleArgs.set, FFModuleArgs.get]
  · intro m1 h1
    simp [PState.setModuleArgs, h1]
  · intro F hF
    cases F <;> try (simp [Field.same, PState.setModuleArgs]; done)
    rename_i m1 w1
    by_cases hm1 : m1 = m
    · subst hm1
      have hw1 : w1 ≠ w := fun e => hF (by rw [e])
      cases w <;> cases w1 <;>
        first
          | exact absurd rfl hw1
          | simp [Field.same, PState.setModuleArgs, FFModuleArgs.set, FFModuleArgs.get]
    · simp [Field.same, PState.setModuleArgs, hm1]

theorem parseOption_moduleArgs_witness :
    ("wm-theme", Module.wmTheme) ∈ moduleArgsCalls
    ∧ parseOption noFiles 0 exampleState "--wm-theme-format".toList (some "Theme: x".toList)
        = .ret (exampleState.setModuleArgs .wmTheme
            ((exampleState.inst.config.moduleArgs .wmTheme).set .outputFormat "Theme: x".toList)) :=
  ⟨by decide,
   (parseOption_moduleArgs "wm-theme" .wmTheme .outputFormat (by decide) noFiles 0
      exampleState "Theme: x".toList).1⟩

/-! ## Custom values -/

theorem strchr_eq_some (v : CStr) (c : Char) (b f : CStr) (h : strchr v c = some (b, f)) :
    ∃ r, f = c :: r ∧ v = b ++ c :: r ∧ ∀ x ∈ b, x ≠ c := by
  induction v generalizing b with
  | nil => simp [strchr] at h
  | cons a as ih =>
    rw [strchr] at h
    by_cases hac : a = c
    · rw [if_pos hac] at h
      simp only [Option.some.injEq, Prod.mk.injEq] at h
      obtain ⟨rfl, rfl⟩ := h
      exact ⟨as, by rw [hac], by rw [hac]; rfl, by simp⟩
    · rw [if_neg hac] at h
      cases hs : strchr as c with
      | none => rw [hs] at h; simp at h
      | some p =>
        obtain ⟨b1, f1⟩ := p
        rw [hs] at h
        simp only [Option.some.injEq, Prod.mk.injEq] at h
        obtain ⟨rfl, rfl⟩ := h
        obtain ⟨r, hr, hv, hb⟩ := ih b1 hs
        refine ⟨r, hr, by rw [hv]; rfl, ?_⟩
        intro x hx
        rcases List.mem_cons.mp hx with rfl | hx
        · exact hac
        · exact hb x hx

theorem strchr_eq_none (v : CStr) (c : Char) (h : ∀ x ∈ v, x ≠ c) : strchr v c = none := by
  induction v with
  | nil => rfl
  | cons a as ih =>
    have ha : a ≠ c := h a (by simp)
    rw [strchr, if_neg ha, ih (fun x hx => h x (by simp [hx]))]

theorem strchr_of_mem (v : CStr) (c : Char) (h : c ∈ v) :
    ∃ name rest, v = name ++ c :: rest ∧ (∀ x ∈ name, x ≠ c)
      ∧ strchr v c = some (name, c :: rest) := by
  obtain ⟨name, rest, hv, hn⟩ := List.eq_append_cons_of_mem h
  have hn1 : ∀ x ∈ name, x ≠ c := fun x hx e => hn (e ▸ hx)
  exact ⟨name, rest, hv, hn1, by rw [hv]; exact strchr_append name rest c hn1⟩

theorem parseOption_setKey (fs : FileSystem) (fuel : Nat) (st : PState) (pk : Bool)
    (v : Option CStr) :
    parseOption fs fuel st (setKey pk) v
      = withParsed st (optionParseCustomValue st.data.customValues (setKey pk) v pk)
          st.setCustomValues := by
  cases pk
  · exact parseOption_set_keyless fs fuel st v
  · exact parseOption_set fs fuel st v

theorem optionParseCustomValue_split (store : FFvaluestore) (key name rest : CStr)
    (pk : Bool) (h : ∀ x ∈ name, x ≠ '=') :
    optionParseCustomValue store key (some (name ++ '=' :: rest)) pk
      = .ok (ffValuestoreSet store name ⟨pk, rest⟩) := by
  simp only [optionParseCustomValue, strchr_append name rest '=' h, List.drop_one,
    List.tail_cons]

/-- C16: for every present value `v` that contains `=`, with `name` the text before the
first `=` and `rest` the text after it, `optionParseCustomValue` stores under `name` the
record with value `rest` and the `printKey` of the call, so that the lookup of `name`
gives this record; `parseOption` calls it with `printKey` true for `--set` and false for
`--set-keyless`. -/
theorem optionParseCustomValue_stores (store : FFvaluestore) (key v : CStr) (pk : Bool)
    (hv : '=' ∈ v) :
    ∃ name rest, v = name ++ '=' :: rest ∧ (∀ x ∈ name, x ≠ '=')
      ∧ optionParseCustomValue store key (some v) pk
          = .ok (ffValuestoreSet store name ⟨pk, rest⟩)
      ∧ ffValuestoreGet (ffValuestoreSet store name ⟨pk, rest⟩) name = some ⟨pk, rest⟩
      ∧ (∀ fs fuel st, parseOption fs fuel st "--set".toList (some v)
          = .ret (st.setCustomValues
              (ffValuestoreSet st.data.customValues name ⟨true, rest⟩)))
      ∧ (∀ fs fuel st, parseOption fs fuel st "--set-keyless".toList (some v)
          = .ret (st.setCustomValues
              (ffValuestoreSet st.data.customValues name ⟨false, rest⟩))) := by
  obtain ⟨name, rest, hsplit, hname, _⟩ := strchr_of_mem v '=' hv
  subst hsplit
  refine ⟨name, rest, rfl, hname, optionParseCustomValue_split store key name rest pk hname,
    ffValuestoreGet_set_self _ _ _, ?_, ?_⟩
  · intro fs fuel st
    rw [parseOption_set, optionParseCustomValue_split _ _ name rest true hname]
    rfl
  · intro fs fuel st
    rw [parseOption_set_keyless, optionParseCustomValue_split _ _ name rest false hname]
    rfl

theorem optionParseCustomValue_stores_witness :
    '=' ∈ "os=Arch=btw".toList
    ∧ ∃ name rest, "os=Arch=btw".toList = name ++ '=' :: rest ∧ (∀ x ∈ name, x ≠ '=')
      ∧ optionParseCustomValue [] "--set".toList (some "os=Arch=btw".toList) true
          = .ok (ffValuestoreSet [] name ⟨true, rest⟩)
      ∧ ffValuestoreGet (ffValuestoreSet [] name ⟨true, rest⟩) name = some ⟨true, rest⟩ := by
  refine ⟨by decide, ?_⟩
  obtain ⟨name, rest, h1, h2, h3, h4, _⟩ :=
    optionParseCustomValue_stores [] "--set".toList "os=Arch=btw".toList true (by decide)
  exact ⟨name, rest, h1, h2, h3, h4⟩

/-- C17: for `--set` and `--set-keyless` an absent value ends the process with exit
status 411, and a present value without `=` ends it with exit status 412; in both cases
the state, and with it the value store, is the one the option was given. -/
theorem parseOption_set_malformed (fs : FileSystem) (fuel : Nat) (st : PState) (v : CStr)
    (pk : Bool) (hv : ∀ x ∈ v, x ≠ '=') :
    optionParseCustomValue st.data.customValues (setKey pk) none pk = .error 411
    ∧ optionParseCustomValue st.data.customValues (setKey pk) (some v) pk = .error 412
    ∧ parseOption fs fuel st "--set".toList none = .exit 411 st
    ∧ parseOption fs fuel st "--set-keyless".toList none = .exit 411 st
    ∧ parseOption fs fuel st "--set".toList (some v) = .exit 412 st
    ∧ parseOption fs fuel st "--set-keyless".toList (some v) = .exit 412 st := by
  have h412 : ∀ key p, optionParseCustomValue st.data.customValues key (some v) p
      = .error 412 := fun key p => by
    simp only [optionParseCustomValue, strchr_eq_none v '=' hv]
  refine ⟨rfl, h412 _ _, ?_, ?_, ?_, ?_⟩
  · rw [parseOption_set]; rfl
  · rw [parseOption_set_keyless]; rfl
  · rw [parseOption_set, h412]; rfl
  · rw [parseOption_set_keyless, h412]; rfl

theorem parseOption_set_malformed_witness :
    (∀ x ∈ "os:Arch".toList, x ≠ '=')
    ∧ parseOption noFiles 0 exampleState "--set".toList (some "os:Arch".toList)
        = .exit 412 exampleState :=
  ⟨by decide,
   (parseOption_set_malformed noFiles 0 exampleState "os:Arch".toList true
      (by decide)).2.2.2.2.1⟩

/-- C18 (counterexample): the value `a=b=c` holds two `=` characters and is accepted by
`--set` and by `--set-keyless`: the entry `a` is stored with the value `b=c`. -/
theorem parseOption_set_two_separators :
    parseOption noFiles 0 exampleState "--set".toList (some "a=b=c".toList)
      = .ret (exampleState.setCustomValues
          (ffValuestoreSet exampleState.data.customValues "a".toList ⟨true, "b=c".toList⟩))
    ∧ parseOption noFiles 0 exampleState "--set-keyless".toList (some "a=b=c".toList)
      = .ret (exampleState.setCustomValues
          (ffValuestoreSet exampleState.data.customValues "a".toList ⟨false, "b=c".toList⟩))
    ∧ "a=b=c".toList.count '=' = 2 :=
  ⟨rfl, rfl, by decide⟩

/-- C18 (amended): every value accepted by `--set` or `--set-keyless` (the option
returns with an entry stored instead of ending the process) contains at least one `=`
character; the text before the first `=` is the key of the entry and all the text after
it, further `=` characters included, is the stored value. -/
theorem parseOption_set_accepted (fs : FileSystem) (fuel : Nat) (st s : PState) (v : CStr)
    (pk : Bool) (h : parseOption fs fuel st (setKey pk) (some v) = .ret s) :
    1 ≤ v.count '='
    ∧ ∃ name rest, v = name ++ '=' :: rest ∧ (∀ x ∈ name, x ≠ '=')
        ∧ s = st.setCustomValues (ffValuestoreSet st.data.customValues name ⟨pk, rest⟩) := by
  rw [parseOption_setKey] at h
  cases hs : strchr v '=' with
  | none =>
    simp only [optionParseCustomValue, hs, withParsed] at h
    exact absurd h (by simp)
  | some p =>
    obtain ⟨name, f⟩ := p
    obtain ⟨rest, hf, hsplit, hname⟩ := strchr_eq_some v '=' name f hs
    subst hf
    simp only [optionParseCustomValue, hs, withParsed, List.drop_one, List.tail_cons,
      Outcome.ret.injEq] at h
    refine ⟨?_, name, rest, hsplit, hname, h.symm⟩
    rw [hsplit]
    exact List.count_pos_iff.mpr (by simp)

theorem parseOption_set_accepted_witness :
    parseOption noFiles 0 exampleState (setKey true) (some "a=b=c".toList)
      = .ret (exampleState.setCustomValues
          (ffValuestoreSet exampleState.data.customValues "a".toList ⟨true, "b=c".toList⟩))
    ∧ 1 ≤ "a=b=c".toList.count '=' :=
  ⟨rfl, (parseOption_set_accepted noFiles 0 exampleState _ "a=b=c".toList true rfl).1⟩

/-! ## The value store under repeated `--set` -/

theorem ffValuestoreSet_keys (vs : FFvaluestore) (k : CStr) (v : CustomValue) :
    (ffValuestoreSet vs k v).map Prod.fst
      = if k ∈ vs.map Prod.fst then vs.map Prod.fst else vs.map Prod.fst ++ [k] := by
  induction vs with
  | nil => simp [ffValuestoreSet]
  | cons p rest ih =>
    obtain ⟨k1, old⟩ := p
    by_cases h : k1 = k
    · subst h
      simp only [ffValuestoreSet, if_true, List.map_cons, List.mem_cons, true_or]
    · have h1 : ¬ k = k1 := fun e => h e.symm
      simp only [ffValuestoreSet, h, if_false, List.map_cons, ih, List.mem_cons, h1, false_or]
      by_cases hm : k ∈ rest.map Prod.fst
      · rw [if_pos hm, if_pos hm]
      · rw [if_neg hm, if_neg hm]
        rfl

theorem ffValuestoreGet_set_other (vs : FFvaluestore) (k k1 : CStr) (v : CustomValue)
    (h : k1 ≠ k) : ffValuestoreGet (ffValuestoreSet vs k v) k1 = ffValuestoreGet vs k1 := by
  induction vs with
  | nil =>
    have h1 : ¬ k = k1 := fun e => h e.symm
    simp [ffValuestoreSet, ffValuestoreGet, h1]
  | cons p rest ih =>
    obtain ⟨k2, old⟩ := p
    by_cases h2 : k2 = k
    · subst h2
      have h1 : ¬ k2 = k1 := fun e => h e.symm
      simp [ffValuestoreSet, ffValuestoreGet, h1]
    · by_cases h3 : k2 = k1
      · subst h3
        simp [ffValuestoreSet, ffValuestoreGet, h]
      · simp [ffValuestoreSet, ffValuestoreGet, h2, h3, ih]

theorem ffValuestoreSet_mem_other (vs : FFvaluestore) (k : CStr) (v : CustomValue)
    (e : CStr × CustomValue) (he : e ∈ vs) (hk : e.1 ≠ k) : e ∈ ffValuestoreSet vs k v := by
  induction vs with
  | nil => simp at he
  | cons p rest ih =>
    obtain ⟨k2, old⟩ := p
    rcases List.mem_cons.mp he with rfl | he
    · have : ¬ k2 = k := hk
      simp [ffValuestoreSet, this]
    · by_cases h2 : k2 = k
      · simp [ffValuestoreSet, h2, he]
      · simp [ffValuestoreSet, h2, ih he]

theorem ffValuestoreSet_nodup (vs : FFvaluestore) (k : CStr) (v : CustomValue)
    (h : (vs.map Prod.fst).Nodup) : ((ffValuestoreSet vs k v).map Prod.fst).Nodup := by
  rw [ffValuestoreSet_keys]
  by_cases hk : k ∈ vs.map Prod.fst
  · rw [if_pos hk]
    exact h
  · rw [if_neg hk]
    exact List.nodup_append.mpr ⟨h, List.nodup_singleton k, List.disjoint_singleton.mpr hk⟩

theorem ffValuestoreSet_key_mem (vs : FFvaluestore) (k : CStr) (v : CustomValue) :
    k ∈ (ffValuestoreSet vs k v).map Prod.fst := by
  rw [ffValuestoreSet_keys]
  by_cases hk : k ∈ vs.map Prod.fst
  · rw [if_pos hk]
    exact hk
  · rw [if_neg hk]
    exact List.mem_append_right _ (List.mem_singleton_self k)

theorem ffValuestoreSet_keys_subset (vs : FFvaluestore) (k k1 : CStr) (v : CustomValue)
    (h : k1 ∈ vs.map Prod.fst) : k1 ∈ (ffValuestoreSet vs k v).map Prod.fst := by
  rw [ffValuestoreSet_keys]
  by_cases hk : k ∈ vs.map Prod.fst
  · rw [if_pos hk]
    exact h
  · rw [if_neg hk]
    exact List.mem_append_left _ h

theorem ffValuestoreSet_length (vs : FFvaluestore) (k : CStr) (v : CustomValue) :
    vs.length ≤ (ffValuestoreSet vs k v).length := by
  have h := congrArg List.length (ffValuestoreSet_keys vs k v)
  rw [List.length_map] at h
  rw [h]
  by_cases hk : k ∈ vs.map Prod.fst
  · rw [if_pos hk, List.length_map]
  · rw [if_neg hk, List.length_append, List.length_map]
    exact Nat.le_add_right _ _

theorem ffValuestoreGet_of_mem (vs : FFvaluestore) (e : CStr × CustomValue)
    (h : (vs.map Prod.fst).Nodup) (he : e ∈ vs) : ffValuestoreGet vs e.1 = some e.2 := by
  induction vs with
  | nil => exact absurd he (List.not_mem_nil e)
  | cons p rest ih =>
    obtain ⟨k2, old⟩ := p
    rw [List.map_cons, List.nodup_cons] at h
    rcases List.mem_cons.mp he with rfl | he
    · simp only [ffValuestoreGet, if_true]
    · have hne : ¬ k2 = e.1 := fun heq =>
        h.1 (by rw [heq]; exact List.mem_map.mpr ⟨e, he, rfl⟩)
      simp only [ffValuestoreGet, hne, if_false]
      exact ih h.2 he

theorem countP_key_eq_one (vs : FFvaluestore) (k : CStr) (h : (vs.map Prod.fst).Nodup)
    (hk : k ∈ vs.map Prod.fst) : vs.countP (fun e => decide (e.1 = k)) = 1 := by
  induction vs with
  | nil => exact absurd hk (List.not_mem_nil k)
  | cons p rest ih =>
    obtain ⟨k2, old⟩ := p
    rw [List.map_cons, List.nodup_cons] at h
    by_cases h2 : k2 = k
    · subst h2
      rw [List.countP_cons_of_pos _ _ (by simp)]
      have h0 : rest.countP (fun e => decide (e.1 = k2)) = 0 := by
        rw [List.countP_eq_zero]
        intro e he hek
        exact h.1 (by rw [← of_decide_eq_true hek]; exact List.mem_map.mpr ⟨e, he, rfl⟩)
      rw [h0]
    · rw [List.countP_cons_of_neg _ _ (by simpa using h2)]
      rcases List.mem_cons.mp hk with hk | hk
      · exact absurd hk.symm h2
      · exact ih h.2 hk

/-- C19: let the keys of the value store be distinct, as they are in the empty store of
the start and after every `--set` or `--set-keyless`, and let `k` be a key (a text
without `=`). Then `k=a` given to `--set` or `--set-keyless` followed by `k=b` given to
`--set` or `--set-keyless` returns with exactly one entry for `k` in the store, whose
value is `b` and whose `printKey` is that of the second option; the lookup of every other
key gives what it gave before, every entry of another key is still in the store, no key
is lost, the store has not become shorter, and its keys are distinct again. -/
theorem parseOption_set_twice (fs : FileSystem) (fuel : Nat) (st : PState) (k a b : CStr)
    (pk1 pk2 : Bool) (hk : ∀ x ∈ k, x ≠ '=')
    (hnd : (st.data.customValues.map Prod.fst).Nodup) :
    ∃ s1 s2, parseOption fs fuel st (setKey pk1) (some (k ++ '=' :: a)) = .ret s1
      ∧ parseOption fs fuel s1 (setKey pk2) (some (k ++ '=' :: b)) = .ret s2
      ∧ s2.data.customValues.countP (fun e => decide (e.1 = k)) = 1
      ∧ (∀ e ∈ s2.data.customValues, e.1 = k → e.2 = ⟨pk2, b⟩)
      ∧ ffValuestoreGet s2.data.customValues k = some ⟨pk2, b⟩
      ∧ (∀ k1, k1 ≠ k → ffValuestoreGet s2.data.customValues k1
            = ffValuestoreGet st.data.customValues k1)
      ∧ (∀ e ∈ st.data.customValues, e.1 ≠ k → e ∈ s2.data.customValues)
      ∧ (∀ k1 ∈ st.data.customValues.map Prod.fst,
            k1 ∈ s2.data.customValues.map Prod.fst)
      ∧ st.data.customValues.length ≤ s2.data.customValues.length
      ∧ (s2.data.customValues.map Prod.fst).Nodup := by
  have hnd1 := ffValuestoreSet_nodup st.data.customValues k ⟨pk1, a⟩ hnd
  have hnd2 := ffValuestoreSet_nodup _ k ⟨pk2, b⟩ hnd1
  have hget := ffValuestoreGet_set_self
    (ffValuestoreSet st.data.customValues k ⟨pk1, a⟩) k ⟨pk2, b⟩
  refine ⟨st.setCustomValues (ffValuestoreSet st.data.customValues k ⟨pk1, a⟩),
    (st.setCustomValues (ffValuestoreSet st.data.customValues k ⟨pk1, a⟩)).setCustomValues
      (ffValuestoreSet (ffValuestoreSet st.data.customValues k ⟨pk1, a⟩) k ⟨pk2, b⟩),
    ?_, ?_, ?_, ?_, hget, ?_, ?_, ?_, ?_, hnd2⟩
  · rw [parseOption_setKey, optionParseCustomValue_split _ _ k a pk1 hk]
    rfl
  · rw [parseOption_setKey, optionParseCustomValue_split _ _ k b pk2 hk]
    rfl
  · exact countP_key_eq_one _ k hnd2 (ffValuestoreSet_key_mem _ k _)
  · intro e he hek
    have h1 := ffValuestoreGet_of_mem _ e hnd2 he
    have h2 : ffValuestoreGet
        (ffValuestoreSet (ffValuestoreSet st.data.customValues k ⟨pk1, a⟩) k ⟨pk2, b⟩) e.1
        = some ⟨pk2, b⟩ := by rw [hek]; exact hget
    exact Option.some.inj (h1.symm.trans h2)
  · intro k1 hk1
    exact (ffValuestoreGet_set_other _ k k1 _ hk1).trans
      (ffValuestoreGet_set_other _ k k1 _ hk1)
  · intro e he hek
    exact ffValuestoreSet_mem_other _ k _ e (ffValuestoreSet_mem_other _ k _ e he hek) hek
  · intro k1 hk1
    exact ffValuestoreSet_keys_subset _ k k1 _ (ffValuestoreSet_keys_subset _ k k1 _ hk1)
  · exact Nat.le_trans (ffValuestoreSet_length _ k _) (ffValuestoreSet_length _ k _)

theorem parseOption_set_twice_witness :
    ((∀ x ∈ "os".toList, x ≠ '=')
      ∧ (exampleState.data.customValues.map Prod.fst).Nodup)
    ∧ ∃ s1 s2,
      parseOption noFiles 0 exampleState (setKey true) (some ("os".toList ++ '=' :: "A".toList))
        = .ret s1
      ∧ parseOption noFiles 0 s1 (setKey false) (some ("os".toList ++ '=' :: "B".toList))
        = .ret s2
      ∧ s2.data.customValues.countP (fun e => decide (e.1 = "os".toList)) = 1
      ∧ ffValuestoreGet s2.data.customValues "os".toList = some ⟨false, "B".toList⟩ := by
  refine ⟨⟨by decide, by decide⟩, ?_⟩
  obtain ⟨s1, s2, h1, h2, h3, _, h5, _⟩ :=
    parseOption_set_twice noFiles 0 exampleState "os".toList "A".toList "B".toList true false
      (by decide) (by decide)
  exact ⟨s1, s2, h1, h2, h3, h5⟩

/-! ## Loading a named configuration -/

theorem Outcome.bind_assoc {σ τ υ : Type} (o : Outcome σ) (f : σ → Outcome τ)
    (g : τ → Outcome υ) : (o.bind f).bind g = o.bind (fun s => (f s).bind g) := by
  cases o <;> rfl

theorem Outcome.bind_ret_self {σ : Type} (o : Outcome σ) : o.bind Outcome.ret = o := by
  cases o <;> rfl

theorem parseFirst_cons (po : PState → CStr → Option CStr → Outcome PState)
    (fs : FileSystem) (st : PState) (p : CStr) (ps : List CStr) :
    parseFirst po fs st (p :: ps)
      = (parseConfigFile po fs st p).bind
          (fun r => if r.1 then .ret r.2 else parseFirst po fs r.2 ps) := by
  rw [parseFirst, openFirst, parseConfigFile]
  cases hp : fs p with
  | none => rfl
  | some content =>
    simp only [Outcome.bind_assoc]
    exact (Outcome.bind_ret_self _).symm

theorem presets_eq_parseFirst (po : PState → CStr → Option CStr → Outcome PState)
    (fs : FileSystem) (v : CStr) (dirs : List CStr) (st : PState) :
    optionParseConfigFile.presets po fs v dirs st
      = parseFirst po fs st (dirs.map (fun d => d ++ "fastfetch/presets/".toList ++ v)) := by
  induction dirs generalizing st with
  | nil => rfl
  | cons d rest ih =>
    rw [List.map_cons, parseFirst_cons, optionParseConfigFile.presets]
    congr 1
    funext r
    rw [ih]

theorem optionParseConfigFile_some (po : PState → CStr → Option CStr → Outcome PState)
    (fs : FileSystem) (st : PState) (key v : CStr) :
    optionParseConfigFile po fs st key (some v)
      = parseFirst po fs st (loadCandidates st.inst.dataDirs v) := by
  rw [loadCandidates, parseFirst_cons]
  unfold optionParseConfigFile
  simp only [presets_eq_parseFirst]
  unfold parseConfigFile
  cases hv : fs v with
  | none => rfl
  | some content =>
    simp only [Outcome.bind_assoc]
    rfl

theorem parseFirst_noFiles (po : PState → CStr → Option CStr → Outcome PState)
    (st : PState) (paths : List CStr) : parseFirst po noFiles st paths = .exit 414 st := by
  have h : openFirst noFiles paths = none := by
    induction paths with
    | nil => rfl
    | cons p ps ih => rw [openFirst]; exact ih
  rw [parseFirst, h]

/-- C20: for every present name `v`, `optionParseConfigFile` parses exactly one file, the
first that can be opened among `v` itself and then `<d>fastfetch/presets/<v>` for the
data directories `d` in list order: its lines are applied to the state and no later path
is tried. When none can be opened the process ends with exit status 414 in the state it
was in, and an absent name ends it with exit status 413. `parseOption` reaches the
function, with itself as the parser of the lines, for the key `--load-config`; without
any file `--load-config missing-name` ends with exit status 414. -/
theorem optionParseConfigFile_eq_parseFirst
    (po : PState → CStr → Option CStr → Outcome PState) (fs : FileSystem) (st : PState)
    (key v : CStr) (fuel : Nat) :
    optionParseConfigFile po fs st key (some v)
        = parseFirst po fs st (loadCandidates st.inst.dataDirs v)
    ∧ optionParseConfigFile po fs st key none = .exit 413 st
    ∧ parseOption fs (fuel + 1) st "--load-config".toList (some v)
        = parseFirst (parseOption fs fuel) fs st (loadCandidates st.inst.dataDirs v)
    ∧ parseOption fs fuel st "--load-config".toList none = .exit 413 st
    ∧ parseOption noFiles fuel st "--load-config".toList (some "missing-name".toList)
        = .exit 414 st
    ∧ parseOption examplePresets 1 exampleState "--load-config".toList
        (some "neofetch".toList) = .ret (exampleState.setStr .separator "X".toList) := by
  refine ⟨optionParseConfigFile_some po fs st key v, rfl, ?_, ?_, ?_, rfl⟩
  · exact (optionParseConfigFile_some (parseOption fs fuel) fs st
      "--load-config".toList v)
  · cases fuel <;> rfl
  · cases fuel with
    | zero =>
      exact (optionParseConfigFile_some (fun _ _ _ => .diverge) noFiles st
        "--load-config".toList "missing-name".toList).trans (parseFirst_noFiles _ st _)
    | succ n =>
      exact (optionParseConfigFile_some (parseOption noFiles n) noFiles st
        "--load-config".toList "missing-name".toList).trans (parseFirst_noFiles _ st _)

/-! ## Preparation steps of `main` -/

theorem dispatchLoop_mem {α : Type} (body : CStr → List α) :
    ∀ (fuel : Nat) (chars : List Char) (start : Nat) (out : List α),
      dispatchLoop body fuel chars start = some out → ∀ e ∈ out, ∃ line, e ∈ body line
  | 0, _, _, _, h => by simp [dispatchLoop] at h
  | fuel + 1, chars, start, out, h => by
    rw [dispatchLoop] at h
    by_cases hlt : start < chars.length
    · rw [if_pos hlt] at h
      simp only at h
      cases hrec : dispatchLoop body fuel
          (chars.set (ffStrbufNextIndexC chars start ':') (Char.ofNat 0))
          ((ffStrbufNextIndexC chars start ':' + 1) % 2 ^ 32) with
      | none => rw [hrec] at h; simp at h
      | some rest =>
        rw [hrec] at h
        simp only [Option.some.injEq] at h
        subst h
        intro e he
        rcases List.mem_append.mp he with he | he
        · exact ⟨_, he⟩
        · exact dispatchLoop_mem body fuel _ _ rest hrec e he
    · rw [if_neg hlt] at h
      simp only [Option.some.injEq] at h
      subst h
      intro e he
      exact absurd he (List.not_mem_nil e)

/-- C30 (counterexample): with multithreading off and the structure `CPUUsage`, `main`
runs the preparation step of CPU usage before `ffStart`. -/
theorem mainDispatch_prepares_cpuUsage_single_threaded :
    (exampleState.setStructure "CPUUsage".toList).inst.config.bools .multithreading = false
    ∧ mainDispatch "title".toList (exampleState.setStructure "CPUUsage".toList)
      = .ret (exampleState.setStructure "CPUUsage".toList,
          [Event.ffPrepareCPUUsage, Event.ffStart,
            Event.row (.entry .ffPrintCPUUsage), Event.ffFinish]) :=
  ⟨rfl, rfl⟩

theorem dispatchToken_isDispatch (st : PState) (line : CStr) :
    ∀ e ∈ dispatchToken st line, e.isDispatch = true := by
  intro e he
  unfold dispatchToken at he
  by_cases hs : st.inst.config.bools .stat = true
  · rw [if_pos hs] at he
    simp only [List.cons_append, List.nil_append, List.mem_cons, List.mem_singleton,
      List.not_mem_nil, or_false] at he
    rcases he with rfl | rfl <;> rfl
  · rw [if_neg hs] at he
    simp only [List.append_nil, List.mem_singleton] at he
    rw [he]
    rfl

theorem preparationSteps_eq (s : PState) :
    (if ffStrbufContainIgnCaseS s.data.structureBuf "CPUUsage".toList
      then [Event.ffPrepareCPUUsage] else []) ++
    (if s.inst.config.bools .multithreading then
      (if ffStrbufContainIgnCaseS s.data.structureBuf "PublicIp".toList
        then [Event.ffPreparePublicIp] else []) ++
      (if ffStrbufContainIgnCaseS s.data.structureBuf "Weather".toList
        then [Event.ffPrepareWeather] else [])
     else []) = preparationSteps s := by
  unfold preparationSteps references
  cases h1 : s.inst.config.bools .multithreading <;>
    cases h2 : ffStrbufContainIgnCaseS s.data.structureBuf "PublicIp".toList <;>
    cases h3 : ffStrbufContainIgnCaseS s.data.structureBuf "Weather".toList <;>
    simp

theorem mainDispatch_eq (defaultStructure : CStr) (st s : PState) (events : List Event)
    (h : mainDispatch defaultStructure st = .ret (s, events)) :
    ∃ rows, events = preparationSteps s ++ [Event.ffStart] ++ rows ++ [Event.ffFinish]
      ∧ ∀ e ∈ rows, e.isDispatch = true := by
  unfold mainDispatch at h
  simp only at h
  generalize (if st.data.structureBuf.length = 0
      then st.setStructure (st.data.structureBuf ++ defaultStructure) else st) = st3 at h
  cases hrows : dispatchLoop (dispatchToken st3) (st3.data.structureBuf.length + 1)
      st3.data.structureBuf 0 with
  | none =>
    rw [hrows] at h
    exact absurd h (by simp)
  | some rows =>
    rw [hrows] at h
    simp only [Outcome.ret.injEq, Prod.mk.injEq] at h
    obtain ⟨hs, hev⟩ := h
    subst hs
    refine ⟨rows, ?_, ?_⟩
    · rw [← hev, preparationSteps_eq]
    · intro e he
      obtain ⟨line, hl⟩ := dispatchLoop_mem _ _ _ _ rows hrows e he
      exact dispatchToken_isDispatch _ line e hl

/-- C30 (amended): before dispatch, that is before `ffStart`, `main` runs the preparation
step of CPU usage exactly when the resolved structure references `CPUUsage`, with
multithreading on or off; it runs the preparation steps of public IP and of weather
exactly when multithreading is on and the resolved structure references `PublicIp`,
respectively `Weather`. With multithreading off no preparation step is run for public IP
and weather. After `ffStart` come only print calls and timing overlays, then
`ffFinish`. -/
theorem mainDispatch_preparation (defaultStructure : CStr) (st s : PState)
    (events : List Event) (h : mainDispatch defaultStructure st = .ret (s, events)) :
    (∃ rows, events = preparationSteps s ++ [Event.ffStart] ++ rows ++ [Event.ffFinish]
      ∧ ∀ e ∈ rows, e.isDispatch = true)
    ∧ (Event.ffPrepareCPUUsage ∈ events ↔ references s "CPUUsage" = true)
    ∧ (Event.ffPreparePublicIp ∈ events
        ↔ s.inst.config.bools .multithreading = true ∧ references s "PublicIp" = true)
    ∧ (Event.ffPrepareWeather ∈ events
        ↔ s.inst.config.bools .multithreading = true ∧ references s "Weather" = true)
    ∧ (s.inst.config.bools .multithreading = false →
        Event.ffPreparePublicIp ∉ events ∧ Event.ffPrepareWeather ∉ events) := by
  obtain ⟨rows, hev, hrows⟩ := mainDispatch_eq defaultStructure st s events h
  have hnot : ∀ e : Event, e.isDispatch = false → e ∉ rows := by
    intro e he hmem
    rw [hrows e hmem] at he
    exact absurd he (by decide)
  have h1 := hnot Event.ffPrepareCPUUsage rfl
  have h2 := hnot Event.ffPreparePublicIp rfl
  have h3 := hnot Event.ffPrepareWeather rfl
  have hcpu : Event.ffPrepareCPUUsage ∈ events ↔ references s "CPUUsage" = true := by
    rw [hev]
    unfold preparationSteps
    cases references s "CPUUsage" <;> cases s.inst.config.bools .multithreading <;>
      cases references s "PublicIp" <;> cases references s "Weather" <;> simp [h1]
  have hpub : Event.ffPreparePublicIp ∈ events
      ↔ s.inst.config.bools .multithreading = true ∧ references s "PublicIp" = true := by
    rw [hev]
    unfold preparationSteps
    cases references s "CPUUsage" <;> cases s.inst.config.bools .multithreading <;>
      cases references s "PublicIp" <;> cases references s "Weather" <;> simp [h2]
  have hwea : Event.ffPrepareWeather ∈ events
      ↔ s.inst.config.bools .multithreading = true ∧ references s "Weather" = true := by
    rw [hev]
    unfold preparationSteps
    cases references s "CPUUsage" <;> cases s.inst.config.bools .multithreading <;>
      cases references s "PublicIp" <;> cases references s "Weather" <;> simp [h3]
  refine ⟨⟨rows, hev, hrows⟩, hcpu, hpub, hwea, ?_⟩
  intro hm
  constructor
  · intro hmem
    rw [(hpub.mp hmem).1] at hm
    exact absurd hm (by decide)
  · intro hmem
    rw [(hwea.mp hmem).1] at hm
    exact absurd hm (by decide)

theorem mainDispatch_preparation_witness :
    mainDispatch "title".toList (exampleState.setStructure "weather:cpuusage".toList)
      = .ret (exampleState.setStructure "weather:cpuusage".toList,
          [Event.ffPrepareCPUUsage, Event.ffStart, Event.row (.entry .ffPrintWeather),
            Event.row (.entry .ffPrintCPUUsage), Event.ffFinish])
    ∧ (Event.ffPrepareCPUUsage ∈ [Event.ffPrepareCPUUsage, Event.ffStart,
          Event.row (.entry .ffPrintWeather), Event.row (.entry .ffPrintCPUUsage),
          Event.ffFinish]
        ↔ references (exampleState.setStructure "weather:cpuusage".toList) "CPUUsage"
            = true) :=
  ⟨rfl, (mainDispatch_preparation "title".toList
    (exampleState.setStructure "weather:cpuusage".toList) _ _ rfl).2.1⟩

/-! ## The command line -/

theorem parseArgumentsLoop_eq_applyPairs
    (po : PState → CStr → Option CStr → Outcome PState) :
    ∀ (n : Nat) (args : List CStr) (st : PState), args.length ≤ n →
      parseArgumentsLoop po args st = applyPairs po (pairArguments args) st
  | _, [], st, _ => rfl
  | _, [key], st, _ => by
    simp only [parseArgumentsLoop, pairArguments, applyPairs]
    exact (Outcome.bind_ret_self _).symm
  | 0, _ :: _ :: _, _, h => absurd h (by simp)
  | n + 1, key :: next :: rest, st, h => by
    have h1 : (next :: rest).length ≤ n := by simpa using h
    have h2 : rest.length ≤ n := by
      have : rest.length + 1 ≤ n := by simpa using h1
      omega
    rw [parseArgumentsLoop, pairArguments]
    by_cases hd : charAt next 0 = '-' ∧ strcasecmp key "--separator-string".toList ≠ 0
    · have ht : takesValue key (some next) = false :=
        Bool.or_eq_false_iff.mpr ⟨decide_eq_false (not_not.mpr hd.1), decide_eq_false hd.2⟩
      rw [if_pos hd, ht]
      simp only [Bool.false_eq_true, if_false, applyPairs]
      congr 1
      funext s
      exact parseArgumentsLoop_eq_applyPairs po n (next :: rest) s h1
    · have ht : takesValue key (some next) = true := by
        by_cases h0 : charAt next 0 = '-'
        · have : strcasecmp key "--separator-string".toList = 0 := by
            by_contra hne
            exact hd ⟨h0, hne⟩
          exact Bool.or_eq_true_iff.mpr (Or.inr (decide_eq_true this))
        · exact Bool.or_eq_true_iff.mpr (Or.inl (decide_eq_true h0))
      rw [if_neg hd, ht]
      simp only [if_true, applyPairs]
      congr 1
      funext s
      exact parseArgumentsLoop_eq_applyPairs po n rest s h2

theorem pairArguments_flatten : ∀ (n : Nat) (args : List CStr), args.length ≤ n →
    (pairArguments args).flatMap (fun p => p.1 :: p.2.toList) = args
  | _, [], _ => rfl
  | _, [key], _ => rfl
  | 0, _ :: _ :: _, h => absurd h (by simp)
  | n + 1, key :: next :: rest, h => by
    have h1 : (next :: rest).length ≤ n := by simpa using h
    have h2 : rest.length ≤ n := by
      have : rest.length + 1 ≤ n := by simpa using h1
      omega
    rw [pairArguments]
    by_cases ht : takesValue key (some next) = true
    · rw [if_pos ht, List.flatMap_cons, pairArguments_flatten n rest h2]
      rfl
    · rw [if_neg ht, List.flatMap_cons, pairArguments_flatten n (next :: rest) h1]
      rfl

/-- C28 (counterexample): with `loadUserConfig` off at its entry, `parseArguments` parses
no argument: `--recache` on the command line leaves the state as it was, although the
option itself would set the flag. -/
theorem parseArguments_consumes_nothing :
    parseArguments (parseOption noFiles 0) (exampleState.setLoadUserConfig false)
        ["fastfetch".toList, "--recache".toList]
      = .ret (exampleState.setLoadUserConfig false)
    ∧ parseOption noFiles 0 (exampleState.setLoadUserConfig false) "--recache".toList none
      = .ret ((exampleState.setLoadUserConfig false).setBool .recache true)
    ∧ (exampleState.setLoadUserConfig false).inst.config.bools .recache = false :=
  ⟨rfl, rfl, rfl⟩

/-- C28 (amended): when `loadUserConfig` is on at its entry, `parseArguments` skips
`argv[0]` and reads every later argument exactly once, from left to right, as an option
key or as the value of the key just before it: a key takes the next argument as its value
exactly when there is one and it does not start with `-` or the key equals
`--separator-string` ignoring case; otherwise the key is parsed with an absent value and
the next argument, if any, is the next key. The options are applied in this order until
one ends the process. When `loadUserConfig` is off at the entry no argument is parsed. -/
theorem parseArguments_pairs (po : PState → CStr → Option CStr → Outcome PState)
    (st : PState) (argv : List CStr) (h : st.data.loadUserConfig = true) :
    parseArguments po st argv = applyPairs po (pairArguments (argv.drop 1)) st
    ∧ (pairArguments (argv.drop 1)).flatMap (fun p => p.1 :: p.2.toList) = argv.drop 1
    ∧ (∀ key next rest, pairArguments (key :: next :: rest)
        = if takesValue key (some next) then (key, some next) :: pairArguments rest
          else (key, none) :: pairArguments (next :: rest))
    ∧ (∀ key, pairArguments [key] = [(key, none)])
    ∧ (∀ st1 : PState, st1.data.loadUserConfig = false →
        parseArguments po st1 argv = .ret st1) := by
  refine ⟨?_, pairArguments_flatten _ _ (Nat.le_refl _), fun _ _ _ => by rw [pairArguments],
    fun _ => rfl, ?_⟩
  · rw [parseArguments, h]
    exact parseArgumentsLoop_eq_applyPairs po _ _ st (Nat.le_refl _)
  · intro st1 h1
    rw [parseArguments, h1]
    rfl

theorem parseArguments_pairs_witness :
    exampleState.data.loadUserConfig = true
    ∧ parseArguments (parseOption noFiles 0) exampleState
        ["fastfetch".toList, "--recache".toList, "--separator-string".toList, "->".toList,
          "--pipe".toList, "false".toList]
      = applyPairs (parseOption noFiles 0)
          [("--recache".toList, none), ("--separator-string".toList, some "->".toList),
            ("--pipe".toList, some "false".toList)] exampleState :=
  ⟨rfl, (parseArguments_pairs (parseOption noFiles 0) exampleState
    ["fastfetch".toList, "--recache".toList, "--separator-string".toList, "->".toList,
      "--pipe".toList, "false".toList] rfl).1⟩

/-! ## The editor detector -/

theorem ffProcessAppendStdOut_world (w : World) (buffer command : CStr) :
    (ffProcessAppendStdOut w buffer command).1.spawned = w.spawned ++ [command]
    ∧ (ffProcessAppendStdOut w buffer command).1.getenv = w.getenv := by
  unfold ffProcessAppendStdOut
  cases w.stdoutOf w.spawned.length command <;> exact ⟨rfl, rfl⟩

theorem getVisual_world (w : World) (r : FFEditorResult) (visual : CStr)
    (hv : w.getenv "VISUAL".toList = some visual) :
    (getVisual w r).1.spawned = w.spawned ++ [visual]
    ∧ (getVisual w r).1.getenv = w.getenv := by
  have h := ffProcessAppendStdOut_world w [] visual
  unfold getVisual
  rw [hv]
  by_cases hc : (!(ffProcessAppendStdOut w [] visual).2.1) = true
      ∧ (ffProcessAppendStdOut w [] visual).2.2.length > 0
  · simp only [hc, and_self, if_true]
    exact h
  · simp only [hc, if_false]
    exact h

theorem getEditor_world (w : World) (r : FFEditorResult) (editor : CStr)
    (he : w.getenv "EDITOR".toList = some editor) :
    (getEditor w r).1.spawned = w.spawned ++ [editor]
    ∧ (getEditor w r).1.getenv = w.getenv := by
  have h := ffProcessAppendStdOut_world w [] editor
  unfold getEditor
  rw [he]
  by_cases hc : (!(ffProcessAppendStdOut w [] editor).2.1) = true
      ∧ (ffProcessAppendStdOut w [] editor).2.2.length > 0
  · simp only [hc, and_self, if_true]
    exact h
  · simp only [hc, if_false]
    exact h

theorem ffDetectEditor_world (w : World) (r : FFEditorResult) (visual editor : CStr)
    (hv : w.getenv "VISUAL".toList = some visual)
    (he : w.getenv "EDITOR".toList = some editor) :
    (ffDetectEditor w r).1.spawned = w.spawned ++ [visual, editor]
    ∧ (ffDetectEditor w r).1.getenv = w.getenv := by
  obtain ⟨h1, h2⟩ := getVisual_world w r visual hv
  obtain ⟨h3, h4⟩ := getEditor_world (getVisual w r).1 (getVisual w r).2 editor
    (by rw [h2]; exact he)
  unfold ffDetectEditor
  exact ⟨by rw [h3, h1, List.append_assoc]; rfl, by rw [h4, h2]⟩

/-- C29: `ffDetectEditor` has no test of an earlier call, so every call runs both
probes: with `VISUAL` and `EDITOR` set, two successive calls run four processes, two per
variable, and the second call returns what the processes print at that time, which can
differ from the result of the first call. -/
theorem ffDetectEditor_probes_every_call (w : World) (static : FFEditorResult)
    (visual editor : CStr) (hv : w.getenv "VISUAL".toList = some visual)
    (he : w.getenv "EDITOR".toList = some editor) :
    ((ffDetectEditor (ffDetectEditor w static).1 (ffDetectEditor w static).2).1).spawned
        = w.spawned ++ [visual, editor, visual, editor]
    ∧ (ffDetectEditor exampleWorld ⟨[], []⟩).2 = ⟨"VIM 8.2".toList, "GNU nano 6.2".toList⟩
    ∧ (ffDetectEditor (ffDetectEditor exampleWorld ⟨[], []⟩).1
          (ffDetectEditor exampleWorld ⟨[], []⟩).2).2
        = ⟨"VIM 9.0".toList, "GNU nano 6.2".toList⟩ := by
  obtain ⟨h1, h2⟩ := ffDetectEditor_world w static visual editor hv he
  obtain ⟨h3, -⟩ := ffDetectEditor_world (ffDetectEditor w static).1
    (ffDetectEditor w static).2 visual editor (by rw [h2]; exact hv) (by rw [h2]; exact he)
  refine ⟨?_, by decide, by decide⟩
  rw [h3, h1, List.append_assoc]
  rfl

theorem ffDetectEditor_probes_every_call_witness :
    (exampleWorld.getenv "VISUAL".toList = some "vi".toList
      ∧ exampleWorld.getenv "EDITOR".toList = some "nano".toList)
    ∧ ((ffDetectEditor (ffDetectEditor exampleWorld ⟨[], []⟩).1
          (ffDetectEditor exampleWorld ⟨[], []⟩).2).1).spawned
        = ["vi".toList, "nano".toList, "vi".toList, "nano".toList] :=
  ⟨⟨rfl, rfl⟩,
   (ffDetectEditor_probes_every_call exampleWorld ⟨[], []⟩ "vi".toList "nano".toList
      rfl rfl).1⟩

/-! ## Configuration file lines -/

theorem dropWhile_append_singleton (p : Char → Bool) (l : List Char) (c : Char)
    (hc : p c = false) : (l ++ [c]).dropWhile p = l.dropWhile p ++ [c] := by
  induction l with
  | nil => simp [List.dropWhile, hc]
  | cons a t ih =>
    by_cases ha : p a = true
    · simp [List.dropWhile, ha, ih]
    · simp [List.dropWhile, ha]

theorem dropWhile_isspace_head (line : List Char) (c : Char) (rest : List Char)
    (h : line.dropWhile isspace = c :: rest) : isspace c = false := by
  induction line with
  | nil => simp at h
  | cons a t ih =>
    by_cases ha : isspace a = true
    · rw [List.dropWhile_cons_of_pos ha] at h
      exact ih h
    · rw [List.dropWhile_cons_of_neg ha] at h
      simp only [List.cons.injEq] at h
      rw [← h.1]
      simpa using ha

theorem trimLineRight_eq_trimBoth (line : List Char) (h : line.dropWhile isspace ≠ []) :
    trimLineRight (line.dropWhile isspace) = trimBoth line := by
  unfold trimBoth
  obtain ⟨c, rest, hcr⟩ := List.exists_cons_of_ne_nil h
  have hc := dropWhile_isspace_head line c rest hcr
  rw [hcr, trimLineRight, List.reverse_cons, dropWhile_append_singleton _ _ _ hc,
    List.reverse_append]
  rfl

theorem skippedLine_iff (line : List Char) :
    skippedLine line = true
      ↔ (line.dropWhile isspace = [] ∨ charAt (line.dropWhile isspace) 0 = '#') := by
  unfold skippedLine
  induction line with
  | nil => simp
  | cons a t ih =>
    by_cases ha : isspace a = true
    · simp only [List.all_cons, ha, Bool.true_and, List.find?_cons, Bool.not_true,
        List.dropWhile_cons_of_pos ha]
      exact ih
    · have ha1 : isspace a = false := by simpa using ha
      simp only [List.all_cons, ha1, Bool.false_and, Bool.false_or, List.find?_cons,
        Bool.not_false, List.dropWhile_cons_of_neg ha, charAt]
      simp

theorem parseConfigLine_eq_lineCall (po : PState → CStr → Option CStr → Outcome PState)
    (st : PState) (line : List Char) :
    parseConfigLine po st line
      = if skippedLine line then .ret st
        else po st (lineCall (trimBoth line)).1 (lineCall (trimBoth line)).2 := by
  unfold parseConfigLine
  simp only
  by_cases hs : line.dropWhile isspace = [] ∨ charAt (line.dropWhile isspace) 0 = '#'
  · rw [if_pos hs, if_pos ((skippedLine_iff line).mpr hs)]
  · have hnot : ¬ skippedLine line = true := fun h => hs ((skippedLine_iff line).mp h)
    have hne : line.dropWhile isspace ≠ [] := fun h => hs (Or.inl h)
    rw [if_neg hs, if_neg hnot, trimLineRight_eq_trimBoth line hne]
    unfold lineCall
    cases strchr (trimBoth line) ' ' with
    | none => rfl
    | some p => rfl

/-- C22: a line on which key and value are separated by a tab is not split: the key is
looked for up to the first space (`strchr` with the space character), so
`--recache<TAB>true` is handed to `parseOption` as one key with an absent value, which is
the unknown option; the same line with a space applies the option. More generally a line
that is not skipped and holds no space after trimming is one key without a value,
whatever other white space it holds. -/
theorem parseConfigLine_tab_not_split (po : PState → CStr → Option CStr → Outcome PState)
    (st : PState) :
    parseConfigLine po st "--recache\ttrue\n".toList
        = po st "--recache\ttrue".toList none
    ∧ parseConfigLine (parseOption noFiles 0) st "--recache\ttrue\n".toList = .exit 400 st
    ∧ parseConfigLine (parseOption noFiles 0) st "--recache true\n".toList
        = .ret (st.setBool .recache true)
    ∧ (∀ line : List Char, skippedLine line = false → (∀ c ∈ trimBoth line, c ≠ ' ') →
        parseConfigLine po st line = po st (trimBoth line) none) := by
  refine ⟨?_, ?_, ?_, ?_⟩
  · rw [parseConfigLine_eq_lineCall]
    rfl
  · rw [parseConfigLine_eq_lineCall]
    rfl
  · rw [parseConfigLine_eq_lineCall]
    rfl
  · intro line hs hsp
    rw [parseConfigLine_eq_lineCall, hs]
    unfold lineCall
    rw [strchr_eq_none _ _ hsp]
    rfl

theorem parseConfigLine_tab_not_split_witness :
    (skippedLine "--pipe\tfalse\n".toList = false
      ∧ ∀ c ∈ trimBoth "--pipe\tfalse\n".toList, c ≠ ' ')
    ∧ parseConfigLine (parseOption noFiles 0) exampleState "--pipe\tfalse\n".toList
        = parseOption noFiles 0 exampleState (trimBoth "--pipe\tfalse\n".toList) none :=
  ⟨⟨by decide, by decide⟩,
   (parseConfigLine_tab_not_split (parseOption noFiles 0) exampleState).2.2.2
      "--pipe\tfalse\n".toList (by decide) (by decide)⟩

/-! ## Letter case of option keys -/

theorem toNat_ofNat_small (n : Nat) (h : n < 55296) : (Char.ofNat n).toNat = n := by
  have hv : n.isValidChar := Or.inl h
  unfold Char.ofNat
  rw [dif_pos hv]
  simp [Char.ofNatAux, Char.toNat, UInt32.toNat]

theorem tolower_cases (c : Char) :
    (65 ≤ c.toNat ∧ c.toNat ≤ 90 ∧ (tolower c).toNat = c.toNat + 32)
    ∨ (¬ (65 ≤ c.toNat ∧ c.toNat ≤ 90) ∧ tolower c = c) := by
  unfold tolower Char.toLower
  by_cases h : c.toNat ≥ 65 ∧ c.toNat ≤ 90
  · left
    refine ⟨h.1, h.2, ?_⟩
    simp only [h, and_self, if_true]
    exact toNat_ofNat_small _ (by omega)
  · right
    exact ⟨h, by simp only [h, if_false]⟩

theorem tolower_idem (c : Char) : tolower (tolower c) = tolower c := by
  rcases tolower_cases c with ⟨h1, h2, h3⟩ | ⟨-, h⟩
  · rcases tolower_cases (tolower c) with ⟨h4, h5, -⟩ | ⟨-, h⟩
    · omega
    · exact h
  · rw [h, h]

/-- A character that is no letter is the lower case of itself only. -/
theorem tolower_eq_iff_of_not_letter (c d : Char) (hd : ¬ (97 ≤ d.toNat ∧ d.toNat ≤ 122))
    (hd2 : ¬ (65 ≤ d.toNat ∧ d.toNat ≤ 90)) : tolower c = d ↔ c = d := by
  constructor
  · intro h
    rcases tolower_cases c with ⟨h1, h2, h3⟩ | ⟨-, h4⟩
    · rw [h] at h3
      omega
    · rw [← h4]; exact h
  · intro h
    subst h
    rcases tolower_cases c with ⟨h1, h2, h3⟩ | ⟨-, h4⟩
    · exact absurd ⟨h1, h2⟩ hd2
    · exact h4

theorem strcasecmp_map_tolower (k lit : CStr) :
    strcasecmp (k.map tolower) lit = strcasecmp k lit := by
  induction k generalizing lit with
  | nil => cases lit <;> rfl
  | cons a t ih =>
    cases lit with
    | nil => rfl
    | cons b bs => simp only [List.map_cons, strcasecmp, tolower_idem, ih]

theorem strncasecmp_map_tolower (k lit : CStr) (n : Nat) :
    strncasecmp (k.map tolower) lit n = strncasecmp k lit n := by
  induction k generalizing lit n with
  | nil => cases lit <;> cases n <;> rfl
  | cons a t ih =>
    cases lit with
    | nil => cases n <;> rfl
    | cons b bs =>
      cases n with
      | zero => rfl
      | succ m => simp only [List.map_cons, strncasecmp, tolower_idem, ih]

theorem startsWith_map_tolower (k lit : CStr) :
    startsWith (k.map tolower) lit = startsWith k lit := by
  unfold startsWith
  rw [strncasecmp_map_tolower]

theorem charAt_map_tolower (k : CStr) (i : Nat) :
    charAt (k.map tolower) i = tolower (charAt k i) := by
  unfold charAt
  induction k generalizing i with
  | nil => simp; decide
  | cons a t ih =>
    cases i with
    | zero => rfl
    | succ j => simpa using ih j

theorem tolower_eq_dash (c : Char) : (tolower c = '-') = (c = '-') :=
  propext (tolower_eq_iff_of_not_letter c '-' (by decide) (by decide))

theorem tolower_eq_nul (c : Char) : (tolower c = Char.ofNat 0) = (c = Char.ofNat 0) :=
  propext (tolower_eq_iff_of_not_letter c (Char.ofNat 0) (by decide) (by decide))

theorem classifyInformative_map_tolower (k : CStr) :
    classifyInformative (k.map tolower) = classifyInformative k := by
  unfold classifyInformative
  simp only [strcasecmp_map_tolower, startsWith_map_tolower, ← List.map_drop]

theorem classifyGeneral_map_tolower (k : CStr) :
    classifyGeneral (k.map tolower) = classifyGeneral k := by
  unfold classifyGeneral
  simp only [strcasecmp_map_tolower, startsWith_map_tolower, ← List.map_drop]

theorem classifyDisplay_map_tolower (k : CStr) :
    classifyDisplay (k.map tolower) = classifyDisplay k := by
  unfold classifyDisplay
  simp only [strcasecmp_map_tolower, startsWith_map_tolower, ← List.map_drop]

theorem classifyLibrary_map_tolower (k : CStr) :
    classifyLibrary (k.map tolower) = classifyLibrary k := by
  unfold classifyLibrary
  simp only [strcasecmp_map_tolower, startsWith_map_tolower, ← List.map_drop]

theorem classifyModule_map_tolower (k : CStr) :
    classifyModule (k.map tolower) = classifyModule k := by
  unfold classifyModule
  simp only [strcasecmp_map_tolower, startsWith_map_tolower, ← List.map_drop]

theorem moduleArgField_map_tolower (k name : CStr) :
    moduleArgField (k.map tolower) name = moduleArgField k name := by
  unfold moduleArgField
  simp only [strcasecmp_map_tolower, strncasecmp_map_tolower, ← List.map_drop,
    charAt_map_tolower, tolower_eq_dash, ne_eq]

theorem classifyModuleArgs_map_tolower (k : CStr) (l : List (String × Module)) :
    classifyModuleArgs (k.map tolower) l = classifyModuleArgs k l := by
  induction l with
  | nil => rfl
  | cons p rest ih =>
    obtain ⟨name, m⟩ := p
    simp only [classifyModuleArgs, moduleArgField_map_tolower, ih]

theorem classifyLogo_map_tolower (k : CStr) :
    classifyLogo (k.map tolower) = (classifyLogo k).map Action.lower := by
  unfold classifyLogo
  simp only [strcasecmp_map_tolower, startsWith_map_tolower, ← List.map_drop,
    charAt_map_tolower, tolower_eq_nul, ne_eq, apply_ite (Option.map Action.lower),
    Option.map_some', Option.map_none', Action.lower]

theorem classifyInformative_lower (k : CStr) :
    (classifyInformative k).map Action.lower = classifyInformative k := by
  unfold classifyInformative
  simp only [apply_ite (Option.map Action.lower), Option.map_some', Option.map_none',
    Action.lower]

theorem classifyGeneral_lower (k : CStr) :
    (classifyGeneral k).map Action.lower = classifyGeneral k := by
  unfold classifyGeneral
  simp only [apply_ite (Option.map Action.lower), Option.map_some', Option.map_none',
    Action.lower]

theorem classifyDisplay_lower (k : CStr) :
    (classifyDisplay k).map Action.lower = classifyDisplay k := by
  unfold classifyDisplay
  simp only [apply_ite (Option.map Action.lower), Option.map_some', Option.map_none',
    Action.lower]

theorem classifyLibrary_lower (k : CStr) :
    (classifyLibrary k).map Action.lower = classifyLibrary k := by
  unfold classifyLibrary
  simp only [apply_ite (Option.map Action.lower), Option.map_some', Option.map_none',
    Action.lower]

theorem classifyModule_lower (k : CStr) :
    (classifyModule k).map Action.lower = classifyModule k := by
  unfold classifyModule
  simp only [apply_ite (Option.map Action.lower), Option.map_some', Option.map_none',
    Action.lower]

theorem classifyModuleArgs_lower (k : CStr) (l : List (String × Module)) :
    (classifyModuleArgs k l).map Action.lower = classifyModuleArgs k l := by
  induction l with
  | nil => rfl
  | cons p rest ih =>
    obtain ⟨name, m⟩ := p
    rw [classifyModuleArgs]
    cases moduleArgField k name with
    | none => exact ih
    | some w => rfl

theorem lower_of_map_eq {o : Option Action} {a : Action}
    (h : o.map Action.lower = o) (ha : o = some a) : a.lower = a := by
  subst ha
  exact Option.some.inj h

theorem classify_map_tolower (k : CStr) :
    classify (k.map tolower) = (classify k).lower := by
  unfold classify
  rw [classifyInformative_map_tolower, classifyGeneral_map_tolower, classifyLogo_map_tolower,
    classifyDisplay_map_tolower, classifyModuleArgs_map_tolower, classifyLibrary_map_tolower,
    classifyModule_map_tolower]
  cases h1 : classifyInformative k with
  | some a => exact (lower_of_map_eq (classifyInformative_lower k) h1).symm
  | none =>
  cases h2 : classifyGeneral k with
  | some a => exact (lower_of_map_eq (classifyGeneral_lower k) h2).symm
  | none =>
  cases h3 : classifyLogo k with
  | some a => rfl
  | none =>
  cases h4 : classifyDisplay k with
  | some a => exact (lower_of_map_eq (classifyDisplay_lower k) h4).symm
  | none =>
  cases h5 : classifyModuleArgs k moduleArgsCalls with
  | some a => exact (lower_of_map_eq (classifyModuleArgs_lower k _) h5).symm
  | none =>
  cases h6 : classifyLibrary k with
  | some a => exact (lower_of_map_eq (classifyLibrary_lower k) h6).symm
  | none =>
  cases h7 : classifyModule k with
  | some a => exact (lower_of_map_eq (classifyModule_lower k) h7).symm
  | none => rfl

theorem applyAction_key (lc : PState → CStr → Option CStr → Outcome PState)
    (hlc : ∀ s k1 k2 x, lc s k1 x = lc s k2 x) (fs : FileSystem) (st : PState)
    (k1 k2 : CStr) (v : Option CStr) (a : Action) :
    applyAction lc fs st k1 v a = applyAction lc fs st k2 v a := by
  cases a <;> first | rfl | exact hlc st k1 k2 v

theorem applyAction_lower (lc : PState → CStr → Option CStr → Outcome PState)
    (fs : FileSystem) (st : PState) (key : CStr) (v : Option CStr) (a : Action) :
    applyAction lc fs st key v a.lower = applyAction lc fs st key v a := by
  cases a <;> try rfl
  rename_i c
  rcases tolower_cases c with ⟨h1, h2, h3⟩ | ⟨-, h⟩
  · have hc : ((c.toNat : Int) - 49 < 0) ∨ ((c.toNat : Int) - 49 ≥ FASTFETCH_LOGO_MAX_COLORS) := by
      right
      unfold FASTFETCH_LOGO_MAX_COLORS
      omega
    have hl : (((tolower c).toNat : Int) - 49 < 0)
        ∨ (((tolower c).toNat : Int) - 49 ≥ FASTFETCH_LOGO_MAX_COLORS) := by
      right
      unfold FASTFETCH_LOGO_MAX_COLORS
      omega
    simp only [Action.lower, applyAction, if_pos hc, if_pos hl]
  · simp only [Action.lower, h]

theorem optionParseConfigFile_key (po : PState → CStr → Option CStr → Outcome PState)
    (fs : FileSystem) (s : PState) (k1 k2 : CStr) (x : Option CStr) :
    optionParseConfigFile po fs s k1 x = optionParseConfigFile po fs s k2 x := rfl

theorem parseOption_map_tolower (fs : FileSystem) (fuel : Nat) (st : PState) (k : CStr)
    (v : Option CStr) :
    parseOption fs fuel st (k.map tolower) v = parseOption fs fuel st k v := by
  have h : ∀ lc : PState → CStr → Option CStr → Outcome PState,
      (∀ s k1 k2 x, lc s k1 x = lc s k2 x) →
      parseOptionWith lc fs st (k.map tolower) v = parseOptionWith lc fs st k v := by
    intro lc hlc
    rw [parseOptionWith_eq_applyAction, parseOptionWith_eq_applyAction, classify_map_tolower,
      applyAction_lower]
    exact applyAction_key lc hlc fs st _ _ v _
  cases fuel with
  | zero => exact h _ (fun s k1 k2 x => optionParseConfigFile_key _ fs s k1 k2 x)
  | succ n => exact h _ (fun s k1 k2 x => optionParseConfigFile_key _ fs s k1 k2 x)

/-- C27: for keys `k` and `k1` that are equal when letter case is ignored, and every
optional value, `parseOption` has the same outcome: the same state after a return, or the
same exit status in the same state. -/
theorem parseOption_ignores_case (fs : FileSystem) (fuel : Nat) (st : PState)
    (k k1 : CStr) (v : Option CStr) (h : k.map tolower = k1.map tolower) :
    parseOption fs fuel st k v = parseOption fs fuel st k1 v
    ∧ strcasecmp k k1 = 0 := by
  refine ⟨?_, (strcasecmp_eq_zero_iff k k1).mpr h⟩
  rw [← parseOption_map_tolower fs fuel st k, h, parseOption_map_tolower]

theorem parseOption_ignores_case_witness :
    "--Logo-Color-A".toList.map tolower = "--logo-color-a".toList.map tolower
    ∧ parseOption noFiles 0 exampleState "--Logo-Color-A".toList (some "red".toList)
        = parseOption noFiles 0 exampleState "--logo-color-a".toList (some "red".toList) :=
  ⟨by decide,
   (parseOption_ignores_case noFiles 0 exampleState "--Logo-Color-A".toList
      "--logo-color-a".toList (some "red".toList) (by decide)).1⟩

/-! ## Nested `--load-config` and the data directories -/

theorem Outcome.bind_eq_ret {σ τ : Type} (o : Outcome σ) (f : σ → Outcome τ) (t : τ)
    (h : o.bind f = .ret t) : ∃ s, o = .ret s ∧ f s = .ret t := by
  cases o with
  | ret s => exact ⟨s, rfl, h⟩
  | exit status s => exact absurd h (by simp [Outcome.bind])
  | diverge => exact absurd h (by simp [Outcome.bind])

theorem Outcome.bind_congr {σ τ : Type} (o : Outcome σ) (f g : σ → Outcome τ)
    (h : ∀ s, o = .ret s → f s = g s) : o.bind f = o.bind g := by
  cases o with
  | ret s => exact h s rfl
  | exit status s => rfl
  | diverge => rfl

theorem applyAction_dataDirs (lc : PState → CStr → Option CStr → Outcome PState)
    (hlc : PreservesDataDirs lc) (fs : FileSystem) (st : PState) (key : CStr)
    (v : Option CStr) (a : Action) (s : PState)
    (h : applyAction lc fs st key v a = .ret s) : s.inst.dataDirs = st.inst.dataDirs := by
  cases a <;> simp only [applyAction, setLogoSourceAndType, generateConfigFile] at h
  all_goals first
    | exact hlc st key v s h
    | (cases h; rfl)
    | cases h
    | (obtain ⟨x, -, rfl⟩ := (withParsed_eq_ret _ _ _ _).mp h
       first | rfl | (split <;> rfl))
    | (split at h <;> first
        | (cases h; rfl)
        | cases h
        | (obtain ⟨x, -, rfl⟩ := (withParsed_eq_ret _ _ _ _).mp h; rfl))

theorem parseConfigLines_dataDirs (po : PState → CStr → Option CStr → Outcome PState)
    (hpo : PreservesDataDirs po) (lines : List (List Char)) (st s : PState)
    (h : parseConfigLines po lines st = .ret s) : s.inst.dataDirs = st.inst.dataDirs := by
  induction lines generalizing st with
  | nil =>
    simp only [parseConfigLines, Outcome.ret.injEq] at h
    rw [h]
  | cons line rest ih =>
    rw [parseConfigLines] at h
    obtain ⟨s1, h1, h2⟩ := Outcome.bind_eq_ret _ _ _ h
    have hs1 : s1.inst.dataDirs = st.inst.dataDirs := by
      rw [parseConfigLine_eq_lineCall] at h1
      by_cases hsk : skippedLine line = true
      · rw [if_pos hsk] at h1
        cases h1
        rfl
      · rw [if_neg hsk] at h1
        exact hpo _ _ _ _ h1
    rw [ih s1 h2, hs1]

theorem parseFirst_dataDirs (po : PState → CStr → Option CStr → Outcome PState)
    (hpo : PreservesDataDirs po) (fs : FileSystem) (st s : PState) (paths : List CStr)
    (h : parseFirst po fs st paths = .ret s) : s.inst.dataDirs = st.inst.dataDirs := by
  unfold parseFirst at h
  cases hopen : openFirst fs paths with
  | none => rw [hopen] at h; cases h
  | some p =>
    rw [hopen] at h
    exact parseConfigLines_dataDirs po hpo _ st s h

theorem optionParseConfigFile_preserves
    (po : PState → CStr → Option CStr → Outcome PState) (hpo : PreservesDataDirs po)
    (fs : FileSystem) : PreservesDataDirs (optionParseConfigFile po fs) := by
  intro st key value s h
  cases value with
  | none => cases h
  | some v =>
    rw [optionParseConfigFile_some] at h
    exact parseFirst_dataDirs po hpo fs st s _ h

theorem parseOptionWith_preserves (lc : PState → CStr → Option CStr → Outcome PState)
    (hlc : PreservesDataDirs lc) (fs : FileSystem) :
    PreservesDataDirs (parseOptionWith lc fs) := by
  intro st key value s h
  rw [parseOptionWith_eq_applyAction] at h
  exact applyAction_dataDirs lc hlc fs st key value _ s h

theorem parseOption_preserves (fs : FileSystem) :
    ∀ fuel, PreservesDataDirs (parseOption fs fuel)
  | 0 => parseOptionWith_preserves _
      (optionParseConfigFile_preserves _ (fun _ _ _ _ h => by cases h) fs) fs
  | fuel + 1 => parseOptionWith_preserves _
      (optionParseConfigFile_preserves _ (parseOption_preserves fs fuel) fs) fs

theorem PState.setDataDirs_self (st : PState) : st.setDataDirs st.inst.dataDirs = st := rfl

theorem parseConfigLines_restore (po : PState → CStr → Option CStr → Outcome PState)
    (hpo : PreservesDataDirs po) (d : List CStr) (lines : List (List Char)) (st : PState)
    (hd : st.inst.dataDirs = d) :
    parseConfigLines po lines st
      = parseConfigLines (fun s key value => po (s.setDataDirs d) key value) lines st := by
  induction lines generalizing st with
  | nil => rfl
  | cons line rest ih =>
    have hline : parseConfigLine (fun s key value => po (s.setDataDirs d) key value) st line
        = parseConfigLine po st line := by
      rw [parseConfigLine_eq_lineCall, parseConfigLine_eq_lineCall, ← hd,
        PState.setDataDirs_self]
    rw [parseConfigLines, parseConfigLines, hline]
    apply Outcome.bind_congr
    intro s1 hs1
    apply ih
    rw [← hd]
    rw [parseConfigLine_eq_lineCall] at hs1
    by_cases hsk : skippedLine line = true
    · rw [if_pos hsk] at hs1
      cases hs1
      rfl
    · rw [if_neg hsk] at hs1
      exact hpo _ _ _ _ hs1

/-- C21: `optionParseConfigFile`, with the nested `--load-config` options of the file it
loads at any depth, returns with every entry of the data directories as it was; the same
holds for every option. So each option of a loaded file, a nested `--load-config`
included, is run on the data directories of the outer call (putting them back before
every line changes nothing), and the preset paths tried for a name are always the
directories of this list followed by `fastfetch/presets/` and the name. -/
theorem optionParseConfigFile_dataDirs (fs : FileSystem) (fuel : Nat) (st s : PState)
    (key : CStr) (value : Option CStr)
    (h : optionParseConfigFile (parseOption fs fuel) fs st key value = .ret s) :
    s.inst.dataDirs = st.inst.dataDirs
    ∧ (∀ st1 k x s1, parseOption fs fuel st1 k x = .ret s1 →
        s1.inst.dataDirs = st1.inst.dataDirs)
    ∧ (∀ lines, parseConfigLines (parseOption fs fuel) lines st
        = parseConfigLines
            (fun s1 k x => parseOption fs fuel (s1.setDataDirs st.inst.dataDirs) k x)
            lines st)
    ∧ (∀ st1 name, st1.inst.dataDirs = st.inst.dataDirs →
        optionParseConfigFile (parseOption fs fuel) fs st1 key (some name)
          = parseFirst (parseOption fs fuel) fs st1
              (name :: st.inst.dataDirs.map (fun d => d ++ "fastfetch/presets/".toList ++ name)))
    ∧ parseOption nestedPresets 2 exampleState "--load-config".toList (some "outer".toList)
        = .ret ((exampleState.setBool .showErrors true).setStr .separator "X".toList) := by
  refine ⟨optionParseConfigFile_preserves _ (parseOption_preserves fs fuel) fs _ _ _ _ h,
    parseOption_preserves fs fuel,
    fun lines => parseConfigLines_restore _ (parseOption_preserves fs fuel) _ lines st rfl,
    ?_, rfl⟩
  intro st1 name hd
  rw [optionParseConfigFile_some, loadCandidates, hd]

theorem optionParseConfigFile_dataDirs_witness :
    optionParseConfigFile (parseOption nestedPresets 1) nestedPresets exampleState
        "--load-config".toList (some "outer".toList)
      = .ret ((exampleState.setBool .showErrors true).setStr .separator "X".toList)
    ∧ ((exampleState.setBool .showErrors true).setStr .separator "X".toList).inst.dataDirs
        = exampleState.inst.dataDirs :=
  ⟨rfl, (optionParseConfigFile_dataDirs nestedPresets 1 exampleState _
    "--load-config".toList (some "outer".toList) rfl).1⟩

/-! ## Unknown options -/

theorem charAt_zero_of_map_eq (a b : CStr) (h : a.map tolower = b.map tolower) :
    tolower (charAt a 0) = tolower (charAt b 0) := by
  rw [← charAt_map_tolower, ← charAt_map_tolower, h]

theorem strcasecmp_ne_of_head (key lit : CStr) (hk : charAt key 0 ≠ '-')
    (hl : charAt lit 0 = '-') : (strcasecmp key lit = 0) = False := by
  apply eq_false
  intro h0
  have h := charAt_zero_of_map_eq key lit ((strcasecmp_eq_zero_iff key lit).mp h0)
  rw [hl] at h
  have h2 : tolower '-' = '-' := by decide
  rw [h2, tolower_eq_dash] at h
  exact hk h

theorem startsWith_false_of_head (key lit : CStr) (hk : charAt key 0 ≠ '-')
    (hl : charAt lit 0 = '-') : startsWith key lit = false := by
  rw [startsWith_eq_startsIgnoringCase]
  cases lit with
  | nil => exact absurd hl (by decide)
  | cons b bs =>
    cases key with
    | nil => rfl
    | cons a as =>
      have hb : b = '-' := hl
      have ha : a ≠ '-' := hk
      subst hb
      have hne : ¬ tolower '-' = tolower a := by
        have h2 : tolower '-' = '-' := by decide
        rw [h2]
        intro e
        exact ha ((tolower_eq_iff_of_not_letter a '-' (by decide) (by decide)).mp e.symm)
      simp [startsIgnoringCase, List.isPrefixOf, hne]

theorem classifyModuleArgs_of_no_dashes (key : CStr)
    (h : ¬ (charAt key 0 = '-' ∧ charAt key 1 = '-')) (l : List (String × Module)) :
    classifyModuleArgs key l = none := by
  induction l with
  | nil => rfl
  | cons p rest ih =>
    obtain ⟨name, m⟩ := p
    have hf : moduleArgField key name.toList = none := by
      unfold moduleArgField
      rw [if_pos h]
    rw [classifyModuleArgs, hf]
    exact ih

theorem classify_of_no_dash (key : CStr) (h : charAt key 0 ≠ '-') :
    classify key = .exit400 := by
  have h1 : ∀ lit : CStr, charAt lit 0 = '-' → (strcasecmp key lit = 0) = False :=
    fun lit hl => strcasecmp_ne_of_head key lit h hl
  have h2 : ∀ lit : CStr, charAt lit 0 = '-' → startsWith key lit = false :=
    fun lit hl => startsWith_false_of_head key lit h hl
  have h3 := classifyModuleArgs_of_no_dashes key (fun hh => h hh.1) moduleArgsCalls
  have hI : classifyInformative key = none := by
    unfold classifyInformative
    simp (disch := decide) only [h1, h2, or_self, if_false, Bool.false_eq_true]
  have hG : classifyGeneral key = none := by
    unfold classifyGeneral
    simp (disch := decide) only [h1, h2, or_self, if_false, Bool.false_eq_true]
  have hL : classifyLogo key = none := by
    unfold classifyLogo
    simp (disch := decide) only [h1, h2, or_self, if_false, Bool.false_eq_true]
  have hD : classifyDisplay key = none := by
    unfold classifyDisplay
    simp (disch := decide) only [h1, h2, or_self, if_false, Bool.false_eq_true]
  have hB : classifyLibrary key = none := by
    unfold classifyLibrary
    rw [h2 "--lib".toList (by decide)]
    rfl
  have h1n : ∀ lit : CStr, charAt lit 0 = '-' → ¬ strcasecmp key lit = 0 :=
    fun lit hl h0 => (h1 lit hl).mp h0
  have hM : classifyModule key = none := by
    unfold classifyModule
    repeat
      refine Eq.trans (if_neg ?_) ?_
      · first
          | exact h1n _ (by decide)
    rfl
  unfold classify
  rw [hI, hG, hL, hD, h3, hB, hM]

theorem strcasecmp_ne_of_start (key P lit : CStr) (hp : startsIgnoringCase key P = true)
    (hl : startsIgnoringCase lit P = false) : ¬ strcasecmp key lit = 0 := by
  intro h0
  have h := (strcasecmp_eq_zero_iff key lit).mp h0
  unfold startsIgnoringCase at hp hl
  rw [h, hl] at hp
  exact absurd hp (by decide)

theorem startsIgnoringCase_false_of_start (key P Q : CStr)
    (hp : startsIgnoringCase key P = true) (hpq : startsIgnoringCase P Q = false)
    (hqp : startsIgnoringCase Q P = false) : startsIgnoringCase key Q = false := by
  cases hq : startsIgnoringCase key Q with
  | false => rfl
  | true =>
    unfold startsIgnoringCase at hp hpq hqp hq
    have hp1 := List.isPrefixOf_iff_prefix.mp hp
    have hq1 := List.isPrefixOf_iff_prefix.mp hq
    rcases Nat.le_total (P.map tolower).length (Q.map tolower).length with hle | hle
    · have := List.prefix_of_prefix_length_le hp1 hq1 hle
      rw [List.isPrefixOf_iff_prefix.mpr this] at hqp
      exact absurd hqp (by decide)
    · have := List.prefix_of_prefix_length_le hq1 hp1 hle
      rw [List.isPrefixOf_iff_prefix.mpr this] at hpq
      exact absurd hpq (by decide)

theorem startsWith_false_of_start (key P Q : CStr) (hp : startsWith key P = true)
    (hpq : startsIgnoringCase P Q = false) (hqp : startsIgnoringCase Q P = false) :
    ¬ startsWith key Q = true := by
  rw [startsWith_eq_startsIgnoringCase] at hp ⊢
  rw [startsIgnoringCase_false_of_start key P Q hp hpq hqp]
  decide

/-- The classification of a key that starts with `--print`. -/
theorem classify_print (key : CStr) (hp : startsWith key "--print".toList = true)
    (hs : ∀ s ∈ printSuffixes,
      ¬ strcasecmp (key.drop (strlen "--print".toList)) s.toList = 0) :
    classify key = .exit400 := by
  have hp1 : startsIgnoringCase key "--print".toList = true := by
    rw [← startsWith_eq_startsIgnoringCase]; exact hp
  have h1n : ∀ lit : CStr, startsIgnoringCase lit "--print".toList = false →
      ¬ strcasecmp key lit = 0 := fun lit hl => strcasecmp_ne_of_start key _ lit hp1 hl
  have hI : classifyInformative key = some .exit400 := by
    unfold classifyInformative
    repeat
      refine Eq.trans (if_neg ?_) ?_
      · first
          | exact not_or.mpr ⟨h1n _ (by decide), h1n _ (by decide)⟩
          | exact h1n _ (by decide)
    rw [if_pos hp]
    simp only
    repeat
      refine Eq.trans (if_neg ?_) ?_
      · exact hs _ (by decide)
    rfl
  unfold classify
  rw [hI]

/-- The classification of a key that starts with `--list`. -/
theorem classify_list (key : CStr) (hp : startsWith key "--list".toList = true)
    (hs : ∀ s ∈ listSuffixes,
      ¬ strcasecmp (key.drop (strlen "--list".toList)) s.toList = 0) :
    classify key = .exit400 := by
  have hp1 : startsIgnoringCase key "--list".toList = true := by
    rw [← startsWith_eq_startsIgnoringCase]; exact hp
  have h1n : ∀ lit : CStr, startsIgnoringCase lit "--list".toList = false →
      ¬ strcasecmp key lit = 0 := fun lit hl => strcasecmp_ne_of_start key _ lit hp1 hl
  have h2n : ∀ Q : CStr, startsIgnoringCase "--list".toList Q = false →
      startsIgnoringCase Q "--list".toList = false → ¬ startsWith key Q = true :=
    fun Q h1 h2 => startsWith_false_of_start key _ Q hp h1 h2
  have hI : classifyInformative key = some .exit400 := by
    unfold classifyInformative
    repeat
      refine Eq.trans (if_neg ?_) ?_
      · first
          | exact not_or.mpr ⟨h1n _ (by decide), h1n _ (by decide)⟩
          | exact h1n _ (by decide)
          | exact h2n _ (by decide) (by decide)
    rw [if_pos hp]
    simp only
    repeat
      refine Eq.trans (if_neg ?_) ?_
      · exact hs _ (by decide)
    rfl
  unfold classify
  rw [hI]

/-- The classification of a key that starts with `--logo`, is not `--logo` itself and
does not have the form of `--logo-color-N`. -/
theorem classify_logo (key : CStr) (hp : startsWith key "--logo".toList = true)
    (hne : ¬ strcasecmp key "--logo".toList = 0)
    (hcolor : ¬ (startsWith (key.drop (strlen "--logo".toList)) "-color-".toList = true
      ∧ charAt key 13 ≠ Char.ofNat 0 ∧ charAt key 14 = Char.ofNat 0))
    (hs : ∀ s ∈ logoSuffixes,
      ¬ strcasecmp (key.drop (strlen "--logo".toList)) s.toList = 0) :
    classify key = .exit400 := by
  have hp1 : startsIgnoringCase key "--logo".toList = true := by
    rw [← startsWith_eq_startsIgnoringCase]; exact hp
  have h1n : ∀ lit : CStr, startsIgnoringCase lit "--logo".toList = false →
      ¬ strcasecmp key lit = 0 := fun lit hl => strcasecmp_ne_of_start key _ lit hp1 hl
  have h2n : ∀ Q : CStr, startsIgnoringCase "--logo".toList Q = false →
      startsIgnoringCase Q "--logo".toList = false → ¬ startsWith key Q = true :=
    fun Q h1 h2 => startsWith_false_of_start key _ Q hp h1 h2
  have hI : classifyInformative key = none := by
    unfold classifyInformative
    repeat
      refine Eq.trans (if_neg ?_) ?_
      · first
          | exact not_or.mpr ⟨h1n _ (by decide), h1n _ (by decide)⟩
          | exact h1n _ (by decide)
          | exact h2n _ (by decide) (by decide)
    rfl
  have hG : classifyGeneral key = none := by
    unfold classifyGeneral
    repeat
      refine Eq.trans (if_neg ?_) ?_
      · first
          | exact not_or.mpr ⟨h1n _ (by decide), h1n _ (by decide)⟩
          | exact h1n _ (by decide)
    rfl
  have hL : classifyLogo key = some .exit400 := by
    unfold classifyLogo
    refine Eq.trans (if_neg (not_or.mpr ⟨h1n _ (by decide), hne⟩)) ?_
    rw [if_pos hp]
    simp only
    repeat
      refine Eq.trans (if_neg ?_) ?_
      · first
          | exact hs _ (by decide)
          | exact hcolor
    rfl
  unfold classify
  rw [hI, hG, hL]

theorem startsIgnoringCase_drop (key P : CStr) (n : Nat)
    (h : startsIgnoringCase key P = true) :
    startsIgnoringCase (key.drop n) (P.drop n) = true := by
  unfold startsIgnoringCase at h ⊢
  obtain ⟨t, ht⟩ := List.isPrefixOf_iff_prefix.mp h
  apply List.isPrefixOf_iff_prefix.mpr
  rw [List.map_drop, List.map_drop, ← ht, List.drop_append_eq_append_drop]
  exact ⟨_, rfl⟩

theorem classifyModuleArgs_of_start (key p : CStr)
    (hp : startsIgnoringCase (key.drop 2) p = true) (l : List (String × Module))
    (hl : ∀ x ∈ l, startsIgnoringCase p x.1.toList = false
      ∧ startsIgnoringCase x.1.toList p = false) :
    classifyModuleArgs key l = none := by
  induction l with
  | nil => rfl
  | cons x rest ih =>
    obtain ⟨name, m⟩ := x
    have hx := hl (name, m) (List.mem_cons_self _ _)
    have hno : startsIgnoringCase (key.drop 2) name.toList = false :=
      startsIgnoringCase_false_of_start _ p _ hp hx.1 hx.2
    have hf : moduleArgField key name.toList = none := by
      unfold moduleArgField
      by_cases h0 : ¬ (charAt key 0 = '-' ∧ charAt key 1 = '-')
      · rw [if_pos h0]
      · rw [if_neg h0]
        have hn : strncasecmp (key.drop 2) name.toList (strlen name.toList) ≠ 0 := by
          intro h
          have := (strncasecmp_eq_zero_iff name.toList (key.drop 2)).mp h
          rw [hno] at this
          exact absurd this (by decide)
        rw [if_pos hn]
    rw [classifyModuleArgs, hf]
    exact ih (fun y hy => hl y (List.mem_cons_of_mem _ hy))

/-- The classification of a key that starts with `--lib`. -/
theorem classify_lib (key : CStr) (hp : startsWith key "--lib".toList = true)
    (hs : ∀ s ∈ libSuffixes,
      ¬ strcasecmp (key.drop (strlen "--lib".toList)) s.toList = 0) :
    classify key = .exit400 := by
  have hp1 : startsIgnoringCase key "--lib".toList = true := by
    rw [← startsWith_eq_startsIgnoringCase]; exact hp
  have h1n : ∀ lit : CStr, startsIgnoringCase lit "--lib".toList = false →
      ¬ strcasecmp key lit = 0 := fun lit hl => strcasecmp_ne_of_start key _ lit hp1 hl
  have h2n : ∀ Q : CStr, startsIgnoringCase "--lib".toList Q = false →
      startsIgnoringCase Q "--lib".toList = false → ¬ startsWith key Q = true :=
    fun Q h1 h2 => startsWith_false_of_start key _ Q hp h1 h2
  have hI : classifyInformative key = none := by
    unfold classifyInformative
    repeat
      refine Eq.trans (if_neg ?_) ?_
      · first
          | exact not_or.mpr ⟨h1n _ (by decide), h1n _ (by decide)⟩
          | exact h1n _ (by decide)
          | exact h2n _ (by decide) (by decide)
    rfl
  have hG : classifyGeneral key = none := by
    unfold classifyGeneral
    repeat
      refine Eq.trans (if_neg ?_) ?_
      · first
          | exact not_or.mpr ⟨h1n _ (by decide), h1n _ (by decide)⟩
          | exact h1n _ (by decide)
    rfl
  have hL : classifyLogo key = none := by
    unfold classifyLogo
    repeat
      refine Eq.trans (if_neg ?_) ?_
      · first
          | exact not_or.mpr ⟨h1n _ (by decide), h1n _ (by decide)⟩
          | exact h1n _ (by decide)
          | exact h2n _ (by decide) (by decide)
    rfl
  have hD : classifyDisplay key = none := by
    unfold classifyDisplay
    repeat
      refine Eq.trans (if_neg ?_) ?_
      · first
          | exact not_or.mpr ⟨h1n _ (by decide), h1n _ (by decide)⟩
          | exact h1n _ (by decide)
    rfl
  have hA : classifyModuleArgs key moduleArgsCalls = none :=
    classifyModuleArgs_of_start key "lib".toList
      (startsIgnoringCase_drop key "--lib".toList 2 hp1) moduleArgsCalls (by decide)
  have hB : classifyLibrary key = some .exit400 := by
    unfold classifyLibrary
    rw [if_pos hp]
    simp only
    repeat
      refine Eq.trans (if_neg ?_) ?_
      · first
          | exact not_or.mpr ⟨hs _ (by decide), hs _ (by decide)⟩
          | exact hs _ (by decide)
          | exact h1n _ (by decide)
    rfl
  unfold classify
  rw [hI, hG, hL, hD, hA, hB]

/-- C26: a key for which every key test of `parseOption` fails ends the process with exit
status 400 in the state the option was given, so that no configuration field, value store
entry or structure string is changed. This is the case for every key that starts with
`--print`, `--list`, `--logo` or `--lib` followed by a suffix that is none of those known
after the prefix (for `--logo`: a suffix that is not empty and not of the form
`-color-N`), and for every key that does not start with `-`. -/
theorem parseOption_unknown (fs : FileSystem) (fuel : Nat) (st : PState) (key : CStr)
    (v : Option CStr) (h : classify key = .exit400) :
    parseOption fs fuel st key v = .exit 400 st
    ∧ (∀ k : CStr, startsWith k "--print".toList = true →
        (∀ s ∈ printSuffixes, ¬ strcasecmp (k.drop (strlen "--print".toList)) s.toList = 0) →
        classify k = .exit400)
    ∧ (∀ k : CStr, startsWith k "--list".toList = true →
        (∀ s ∈ listSuffixes, ¬ strcasecmp (k.drop (strlen "--list".toList)) s.toList = 0) →
        classify k = .exit400)
    ∧ (∀ k : CStr, startsWith k "--logo".toList = true →
        ¬ strcasecmp k "--logo".toList = 0 →
        ¬ (startsWith (k.drop (strlen "--logo".toList)) "-color-".toList = true
          ∧ charAt k 13 ≠ Char.ofNat 0 ∧ charAt k 14 = Char.ofNat 0) →
        (∀ s ∈ logoSuffixes, ¬ strcasecmp (k.drop (strlen "--logo".toList)) s.toList = 0) →
        classify k = .exit400)
    ∧ (∀ k : CStr, startsWith k "--lib".toList = true →
        (∀ s ∈ libSuffixes, ¬ strcasecmp (k.drop (strlen "--lib".toList)) s.toList = 0) →
        classify k = .exit400)
    ∧ (∀ k : CStr, charAt k 0 ≠ '-' → classify k = .exit400) := by
  refine ⟨?_, classify_print, classify_list, classify_logo, classify_lib,
    classify_of_no_dash⟩
  obtain ⟨lc, hlc⟩ := parseOption_eq_applyAction fs fuel key
  rw [hlc, h]
  rfl

theorem parseOption_unknown_witness :
    classify "--lib-foo".toList = .exit400
    ∧ parseOption noFiles 0 exampleState "--lib-foo".toList (some "x".toList)
        = .exit 400 exampleState
    ∧ (startsWith "--print-all".toList "--print".toList = true
        ∧ ∀ s ∈ printSuffixes,
            ¬ strcasecmp ("--print-all".toList.drop (strlen "--print".toList)) s.toList = 0)
    ∧ classify "--print-all".toList = .exit400 :=
  ⟨rfl,
   (parseOption_unknown noFiles 0 exampleState "--lib-foo".toList (some "x".toList) rfl).1,
   ⟨by decide, by decide⟩,
   (parseOption_unknown noFiles 0 exampleState "--lib-foo".toList none rfl).2.1
      "--print-all".toList (by decide) (by decide)⟩

/-- C25 (counterexample): the line `recache true`, the option name without its leading
`--`, is not accepted: it ends the process with exit status 400, while the command-line
pair `--recache true` sets the flag. -/
theorem parseConfigLine_name_without_dashes :
    parseConfigLine (parseOption noFiles 0) exampleState "recache true\n".toList
      = .exit 400 exampleState
    ∧ parseArguments (parseOption noFiles 0) exampleState
        ["fastfetch".toList, "--recache".toList, "true".toList]
      = .ret (exampleState.setBool .recache true) :=
  ⟨rfl, rfl⟩

/-- C25 (amended): for every key `k` and value `v` without white space, neither starting
with the comment character or a quote, the configuration file line made of `k` as it is
written on the command line, with its leading dashes, a space and `v` is handed to the
same option parser with the same key and value as the command-line pair `k v`, so it
makes the same change or ends the process in the same way (`v` not starting with `-`, so
that the command line takes it as the value). A line whose key does not start with `-`,
such as an option name without its leading `--`, ends the process with exit status
400. -/
theorem parseConfigLine_as_command_line (fs : FileSystem) (fuel : Nat) (st : PState)
    (prog k v : CStr) (hk : plainToken k) (hv : plainToken v)
    (hl : st.data.loadUserConfig = true) (hdash : charAt v 0 ≠ '-') :
    parseConfigLine (parseOption fs fuel) st (configLine k v)
        = parseOption fs fuel st k (some v)
    ∧ parseArguments (parseOption fs fuel) st [prog, k, v]
        = parseOption fs fuel st k (some v)
    ∧ (charAt k 0 ≠ '-' →
        parseConfigLine (parseOption fs fuel) st (configLine k v) = .exit 400 st) := by
  have hline := parseConfigLine_plain (parseOption fs fuel) st k v hk hv
  refine ⟨hline, ?_, ?_⟩
  · rw [parseArguments_of_loadUserConfig _ _ _ hl]
    exact parseArgumentsLoop_pair _ st k v hdash
  · intro hno
    obtain ⟨lc, hlc⟩ := parseOption_eq_applyAction fs fuel k
    rw [hline, hlc, classify_of_no_dash k hno]
    rfl

theorem parseConfigLine_as_command_line_witness :
    (plainToken "--separator".toList ∧ plainToken "X".toList
      ∧ exampleState.data.loadUserConfig = true ∧ charAt "X".toList 0 ≠ '-')
    ∧ parseConfigLine (parseOption noFiles 0) exampleState
        (configLine "--separator".toList "X".toList)
      = parseOption noFiles 0 exampleState "--separator".toList (some "X".toList)
    ∧ parseArguments (parseOption noFiles 0) exampleState
        ["fastfetch".toList, "--separator".toList, "X".toList]
      = parseOption noFiles 0 exampleState "--separator".toList (some "X".toList) :=
  have h := parseConfigLine_as_command_line noFiles 0 exampleState "fastfetch".toList
    "--separator".toList "X".toList
    ⟨by decide, by decide, by decide, by decide, by decide⟩
    ⟨by decide, by decide, by decide, by decide, by decide⟩ rfl (by decide)
  ⟨⟨⟨by decide, by decide, by decide, by decide, by decide⟩,
    ⟨by decide, by decide, by decide, by decide, by decide⟩, rfl, by decide⟩, h.1, h.2.1⟩

/-! ## Numbers of 2^32 and above -/

/-- C39: for a non-empty string of decimal digits that denotes a number `n` with
`2^32 ≤ n < 2^64`, `optionParseUInt32` raises no error and returns `n mod 2^32`, which is
not the number written; through `parseOption`, `--logo-width 4294967297` stores 1. -/
theorem optionParseUInt32_wraps (key s : CStr) (hne : s ≠ [])
    (hd : ∀ c ∈ s, isdigit c = true)
    (hge : 2 ^ 32 ≤ Nat.ofDigits 10 ((s.map (fun c => c.toNat - 48)).reverse))
    (hlt : Nat.ofDigits 10 ((s.map (fun c => c.toNat - 48)).reverse) < 2 ^ 64) :
    optionParseUInt32 key (some s)
        = .ok (Nat.ofDigits 10 ((s.map (fun c => c.toNat - 48)).reverse) % 2 ^ 32)
    ∧ Nat.ofDigits 10 ((s.map (fun c => c.toNat - 48)).reverse) % 2 ^ 32
        ≠ Nat.ofDigits 10 ((s.map (fun c => c.toNat - 48)).reverse)
    ∧ (∀ fs fuel st, parseOption fs fuel st "--logo-width".toList (some s)
        = .ret (st.setUInt .logoWidth
            (Nat.ofDigits 10 ((s.map (fun c => c.toNat - 48)).reverse) % 2 ^ 32)))
    ∧ optionParseUInt32 key (some "4294967297".toList) = .ok 1 := by
  have h64 : Nat.ofDigits 10 ((s.map (fun c => c.toNat - 48)).reverse) ≤ ULONG_MAX := by
    unfold ULONG_MAX
    omega
  have hok : ∀ k : CStr, optionParseUInt32 k (some s)
      = .ok (Nat.ofDigits 10 ((s.map (fun c => c.toNat - 48)).reverse) % 2 ^ 32) := by
    intro k
    simp only [optionParseUInt32, strtoul_digits s hne hd h64, ne_eq, not_true_eq_false,
      if_false]
  refine ⟨hok key, ?_, ?_, rfl⟩
  · intro h
    have := Nat.mod_lt (Nat.ofDigits 10 ((s.map (fun c => c.toNat - 48)).reverse))
      (show 0 < 2 ^ 32 by decide)
    omega
  · intro fs fuel st
    have hp : parseOption fs fuel st "--logo-width".toList (some s)
        = withParsed st (optionParseUInt32 "--logo-width".toList (some s))
            (st.setUInt .logoWidth) := by
      cases fuel <;> rfl
    rw [hp, hok]
    rfl

theorem optionParseUInt32_wraps_witness :
    ("4294967297".toList ≠ [] ∧ (∀ c ∈ "4294967297".toList, isdigit c = true)
      ∧ 2 ^ 32 ≤ Nat.ofDigits 10 (("4294967297".toList.map (fun c => c.toNat - 48)).reverse)
      ∧ Nat.ofDigits 10 (("4294967297".toList.map (fun c => c.toNat - 48)).reverse) < 2 ^ 64)
    ∧ parseOption noFiles 0 exampleState "--logo-width".toList (some "4294967297".toList)
        = .ret (exampleState.setUInt .logoWidth
            (Nat.ofDigits 10 (("4294967297".toList.map (fun c => c.toNat - 48)).reverse)
              % 2 ^ 32)) :=
  ⟨⟨by decide, by decide, by decide, by decide⟩,
   (optionParseUInt32_wraps [] "4294967297".toList (by decide) (by decide) (by decide)
      (by decide)).2.2.1 noFiles 0 exampleState⟩

/-! ## The option `--stat` -/

/-- C38: `--stat` with a value that parses as true sets the flags `stat` and `showErrors`
to true; with a value that parses as false it sets `stat` to false and leaves
`showErrors` as it was; in both cases the option returns and every other field that the
option parser writes is unchanged. -/
theorem parseOption_stat (fs : FileSystem) (fuel : Nat) (st : PState) (v : Option CStr) :
    (optionParseBoolean v = true →
      parseOption fs fuel st "--stat".toList v
        = .ret ((st.setBool .stat true).setBool .showErrors true)
      ∧ ((st.setBool .stat true).setBool .showErrors true).inst.config.bools .stat = true
      ∧ ((st.setBool .stat true).setBool .showErrors true).inst.config.bools .showErrors
          = true
      ∧ ∀ F : Field, F ≠ .bool .stat → F ≠ .bool .showErrors →
          F.same ((st.setBool .stat true).setBool .showErrors true) st)
    ∧ (optionParseBoolean v = false →
      parseOption fs fuel st "--stat".toList v = .ret (st.setBool .stat false)
      ∧ (st.setBool .stat false).inst.config.bools .stat = false
      ∧ (st.setBool .stat false).inst.config.bools .showErrors
          = st.inst.config.bools .showErrors
      ∧ ∀ F : Field, F ≠ .bool .stat → F.same (st.setBool .stat false) st) := by
  have hp : parseOption fs fuel st "--stat".toList v
      = if optionParseBoolean v then
          .ret ((st.setBool .stat (optionParseBoolean v)).setBool .showErrors true)
        else .ret (st.setBool .stat (optionParseBoolean v)) := by
    cases fuel <;> rfl
  constructor
  · intro hv
    rw [hp, hv]
    refine ⟨rfl, rfl, rfl, ?_⟩
    intro F h1 h2
    cases F <;> try rfl
    rename_i f
    have hf1 : ¬ f = BoolField.stat := fun e => h1 (by rw [e])
    have hf2 : ¬ f = BoolField.showErrors := fun e => h2 (by rw [e])
    simp [Field.same, PState.setBool, hf1, hf2]
  · intro hv
    rw [hp, hv]
    refine ⟨rfl, rfl, rfl, ?_⟩
    intro F h1
    cases F <;> try rfl
    rename_i f
    have hf1 : ¬ f = BoolField.stat := fun e => h1 (by rw [e])
    simp [Field.same, PState.setBool, hf1]

theorem parseOption_stat_witness :
    (optionParseBoolean (some "yes".toList) = true
      ∧ optionParseBoolean (some "off".toList) = false)
    ∧ parseOption noFiles 0 exampleState "--stat".toList (some "yes".toList)
        = .ret ((exampleState.setBool .stat true).setBool .showErrors true)
    ∧ parseOption noFiles 0 exampleState "--stat".toList (some "off".toList)
        = .ret (exampleState.setBool .stat false) :=
  ⟨⟨by decide, by decide⟩,
   ((parseOption_stat noFiles 0 exampleState (some "yes".toList)).1 (by decide)).1,
   ((parseOption_stat noFiles 0 exampleState (some "off".toList)).2 (by decide)).1⟩

/-! ## Library path options -/

theorem classify_libFields :
    ∀ p ∈ libFields, p.1 ≠ "-pulse" →
      (classify ("--lib".toList ++ p.1.toList)).isSetStr p.2 = true := by
  decide

theorem Action.eq_of_isSetStr (f : StrField) (a : Action) (h : a.isSetStr f = true) :
    a = .setStr f := by
  cases a <;> simp only [Action.isSetStr, Bool.false_eq_true] at h
  simp only [decide_eq_true_eq] at h
  rw [h]

theorem setStr_frame (st : PState) (f : StrField) (p : CStr) (F : Field)
    (hF : F ≠ .str f) : F.same (st.setStr f p) st := by
  cases F <;> try rfl
  rename_i g
  have hg : ¬ g = f := fun e => hF (by rw [e])
  simp [Field.same, PState.setStr, hg]

/-- C36: the key `--lib-pulse` is not accepted: the test of this branch compares the
whole key with `-pulse`, so the key runs through to the unknown option and ends the
process with exit status 400, the path unchanged. For each of the other twenty-five
suffixes of the group and every present value `p`, `parseOption` returns with `p` stored
in the path field of the library and every other field unchanged. -/
theorem parseOption_lib (fs : FileSystem) (fuel : Nat) (st : PState) (p : CStr) :
    parseOption fs fuel st "--lib-pulse".toList (some p) = .exit 400 st
    ∧ ("-pulse", StrField.libPulse) ∈ libFields
    ∧ (∀ x ∈ libFields, x.1 ≠ "-pulse" →
        parseOption fs fuel st ("--lib".toList ++ x.1.toList) (some p)
          = .ret (st.setStr x.2 p)
        ∧ (st.setStr x.2 p).inst.config.strs x.2 = p
        ∧ ∀ F : Field, F ≠ .str x.2 → F.same (st.setStr x.2 p) st) := by
  refine ⟨by cases fuel <;> rfl, by decide, ?_⟩
  intro x hx hne
  have hc := Action.eq_of_isSetStr x.2 _ (classify_libFields x hx hne)
  obtain ⟨lc, hlc⟩ := parseOption_eq_applyAction fs fuel ("--lib".toList ++ x.1.toList)
  refine ⟨?_, by simp [PState.setStr], fun F hF => setStr_frame st x.2 p F hF⟩
  rw [hlc, hc]
  rfl

theorem parseOption_lib_witness :
    (("-vulkan", StrField.libVulkan) ∈ libFields ∧ "-vulkan" ≠ "-pulse")
    ∧ parseOption noFiles 0 exampleState "--lib-vulkan".toList (some "/usr/lib/v.so".toList)
        = .ret (exampleState.setStr .libVulkan "/usr/lib/v.so".toList) :=
  ⟨⟨by decide, by decide⟩,
   ((parseOption_lib noFiles 0 exampleState "/usr/lib/v.so".toList).2.2
      ("-vulkan", .libVulkan) (by decide) (by decide)).1⟩

/-! ## Letter case of structure tokens -/

theorem PrintCall.handler_entry (f : EntryPoint) :
    (PrintCall.entry f).handler = .entry f := rfl

theorem PrintCall.handler_error (m msg : CStr) :
    (PrintCall.ffPrintErrorString m msg).handler = .ffPrintErrorString := rfl

theorem parseStructureCommand_handler_lower (vs : FFvaluestore) (t : CStr)
    (h : ffValuestoreGet vs t = none) :
    (parseStructureCommand vs t).handler
      = (parseStructureCommand [] (t.map tolower)).handler := by
  simp only [parseStructureCommand, h, ffValuestoreGet, strcasecmp_map_tolower,
    apply_ite PrintCall.handler, PrintCall.handler_entry, PrintCall.handler_error]

theorem ffValuestoreGet_none_of_lower (vs : FFvaluestore) (t : CStr)
    (h : ∀ e ∈ vs, e.1.map tolower ≠ t.map tolower) : ffValuestoreGet vs t = none := by
  induction vs with
  | nil => rfl
  | cons e rest ih =>
    obtain ⟨k, v⟩ := e
    have hk : ¬ k = t := fun e1 => h (k, v) (List.mem_cons_self _ _) (by rw [e1])
    rw [ffValuestoreGet, if_neg hk]
    exact ih (fun e1 he1 => h e1 (List.mem_cons_of_mem _ he1))

/-- C35, counterexample: with the custom value `OS` in the value store, as after
`--set OS=x`, the token `os` is not in the store and invokes the print function of the OS
module, while the token `OS`, equal to it when letter case is ignored, is a key of the
store and is printed as the custom value. -/
theorem parseStructureCommand_case_shadowed :
    parseOption noFiles 0 exampleState "--set".toList (some "OS=x".toList)
      = .ret (exampleState.setCustomValues [("OS".toList, ⟨true, "x".toList⟩)])
    ∧ ffValuestoreGet [("OS".toList, ⟨true, "x".toList⟩)] "os".toList = none
    ∧ "os".toList.map tolower = "OS".toList.map tolower
    ∧ parseStructureCommand [("OS".toList, ⟨true, "x".toList⟩)] "os".toList
        = .entry .ffPrintOS
    ∧ parseStructureCommand [("OS".toList, ⟨true, "x".toList⟩)] "OS".toList
        = .ffPrintCustom (some "OS".toList) "x".toList
    ∧ (parseStructureCommand [("OS".toList, ⟨true, "x".toList⟩)] "os".toList).handler
        ≠ (parseStructureCommand [("OS".toList, ⟨true, "x".toList⟩)] "OS".toList).handler :=
  ⟨rfl, by decide, by decide, by decide, by decide, by decide⟩

/-- C35: for structure tokens `t` and `t1` that are equal when letter case is ignored and
that are both not in the value store, `parseStructureCommand` invokes the same handler,
and when that is the print function of a row or module the calls are the same; this
holds for every `t1` when no key of the value store equals `t` ignoring case. The tokens
`de` and `desktopenvironment` invoke the same function, and so do `wm` and
`windowmanager`. -/
theorem parseStructureCommand_ignores_case (vs : FFvaluestore) (t t1 : CStr)
    (hcase : t.map tolower = t1.map tolower) (ht : ffValuestoreGet vs t = none)
    (ht1 : ffValuestoreGet vs t1 = none) :
    (parseStructureCommand vs t).handler = (parseStructureCommand vs t1).handler
    ∧ (∀ f, parseStructureCommand vs t = .entry f → parseStructureCommand vs t1 = .entry f)
    ∧ (∀ (ws : FFvaluestore) (u u1 : CStr), u.map tolower = u1.map tolower →
        (∀ e ∈ ws, e.1.map tolower ≠ u.map tolower) →
        (parseStructureCommand ws u).handler = (parseStructureCommand ws u1).handler)
    ∧ (∀ ws : FFvaluestore, ffValuestoreGet ws "de".toList = none →
        ffValuestoreGet ws "desktopenvironment".toList = none →
        parseStructureCommand ws "de".toList = .entry .ffPrintDesktopEnvironment
        ∧ parseStructureCommand ws "desktopenvironment".toList
            = .entry .ffPrintDesktopEnvironment)
    ∧ (∀ ws : FFvaluestore, ffValuestoreGet ws "wm".toList = none →
        ffValuestoreGet ws "windowmanager".toList = none →
        parseStructureCommand ws "wm".toList = .entry .ffPrintWM
        ∧ parseStructureCommand ws "windowmanager".toList = .entry .ffPrintWM) := by
  have hh : (parseStructureCommand vs t).handler = (parseStructureCommand vs t1).handler := by
    rw [parseStructureCommand_handler_lower vs t ht,
      parseStructureCommand_handler_lower vs t1 ht1, hcase]
  have hfix : ∀ (ws : FFvaluestore) (u : CStr), ffValuestoreGet ws u = none →
      parseStructureCommand ws u = parseStructureCommand [] u := by
    intro ws u hu
    simp only [parseStructureCommand, hu, ffValuestoreGet]
  refine ⟨hh, ?_, ?_, ?_, ?_⟩
  · intro f hf
    rw [hf] at hh
    cases hc : parseStructureCommand vs t1 with
    | ffPrintCustom k v => rw [hc] at hh; cases hh
    | ffPrintErrorString m msg => rw [hc] at hh; cases hh
    | entry g =>
      rw [hc] at hh
      simp only [PrintCall.handler, Handler.entry.injEq] at hh
      rw [hh]
  · intro ws u u1 hu hws
    have h1 := ffValuestoreGet_none_of_lower ws u hws
    have h2 := ffValuestoreGet_none_of_lower ws u1 (fun e he => by rw [← hu]; exact hws e he)
    rw [parseStructureCommand_handler_lower ws u h1,
      parseStructureCommand_handler_lower ws u1 h2, hu]
  · intro ws h1 h2
    exact ⟨(hfix ws _ h1).trans (by decide), (hfix ws _ h2).trans (by decide)⟩
  · intro ws h1 h2
    exact ⟨(hfix ws _ h1).trans (by decide), (hfix ws _ h2).trans (by decide)⟩

theorem parseStructureCommand_ignores_case_witness :
    ("CpuUsage".toList.map tolower = "cpuusage".toList.map tolower
      ∧ ffValuestoreGet [("OS".toList, ⟨true, "x".toList⟩)] "CpuUsage".toList = none
      ∧ ffValuestoreGet [("OS".toList, ⟨true, "x".toList⟩)] "cpuusage".toList = none)
    ∧ (parseStructureCommand [("OS".toList, ⟨true, "x".toList⟩)] "CpuUsage".toList).handler
        = (parseStructureCommand [("OS".toList, ⟨true, "x".toList⟩)]
            "cpuusage".toList).handler :=
  ⟨⟨by decide, by decide, by decide⟩,
   (parseStructureCommand_ignores_case [("OS".toList, ⟨true, "x".toList⟩)]
      "CpuUsage".toList "cpuusage".toList (by decide) (by decide) (by decide)).1⟩

/-! ## The logo colour slots -/

theorem getVisual_eq (w : World) (r : FFEditorResult) :
    (getVisual w r).2 = { r with visualName := probeName w "VISUAL" } := by
  unfold getVisual probeName ffProcessAppendStdOut
  cases hv : w.getenv "VISUAL".toList with
  | none => rfl
  | some cmd =>
    dsimp only
    cases ho : w.stdoutOf w.spawned.length cmd with
    | none => simp
    | some out => cases out <;> simp [ffStrbufSubstrBeforeFirstC]

theorem getEditor_eq (w : World) (r : FFEditorResult) :
    (getEditor w r).2 = { r with editorName := probeName w "EDITOR" } := by
  unfold getEditor probeName ffProcessAppendStdOut
  cases hv : w.getenv "EDITOR".toList with
  | none => rfl
  | some cmd =>
    dsimp only
    cases ho : w.stdoutOf w.spawned.length cmd with
    | none => simp
    | some out => cases out <;> simp [ffStrbufSubstrBeforeFirstC]

theorem getVisual_world_env (w : World) (r : FFEditorResult) :
    (getVisual w r).1.getenv = w.getenv ∧ (getVisual w r).1.stdoutOf = w.stdoutOf := by
  unfold getVisual ffProcessAppendStdOut
  cases hv : w.getenv "VISUAL".toList with
  | none => exact ⟨rfl, rfl⟩
  | some cmd =>
    dsimp only
    cases ho : w.stdoutOf w.spawned.length cmd with
    | none => simp
    | some out => cases out <;> simp

theorem getVisual_world_static (w : World) (r other : FFEditorResult) :
    (getVisual w other).1 = (getVisual w r).1 := by
  unfold getVisual ffProcessAppendStdOut
  cases hv : w.getenv "VISUAL".toList with
  | none => rfl
  | some cmd =>
    dsimp only
    cases ho : w.stdoutOf w.spawned.length cmd with
    | none => simp
    | some out => cases out <;> simp

theorem probeName_no_newline (w : World) (envName : String) :
    '\n' ∉ probeName w envName := by
  unfold probeName
  cases w.getenv envName.toList with
  | none => simp
  | some cmd =>
    dsimp only
    cases w.stdoutOf w.spawned.length cmd with
    | none => simp
    | some out =>
      dsimp only
      by_cases ho : out ≠ []
      · rw [if_pos ho]
        intro hmem
        have := List.mem_takeWhile_imp hmem
        simp at this
      · rw [if_neg ho]
        simp

theorem probeName_congr (w w1 : World) (envName : String) (he : w1.getenv = w.getenv)
    (ho : ∀ command, w1.stdoutOf w1.spawned.length command
      = w.stdoutOf w.spawned.length command) :
    probeName w1 envName = probeName w envName := by
  unfold probeName
  rw [he]
  cases w.getenv envName.toList with
  | none => rfl
  | some cmd =>
    dsimp only
    rw [ho cmd]

/-- C40: `ffDetectEditor` sets `visualName` to the text before the first newline of the
standard output of the command in `VISUAL` run with `--version`, when the variable is
set, the command succeeds and its output is not empty, and to the empty string otherwise;
`editorName` is determined in the same way from `EDITOR`, by the run of that command
after the probe of `VISUAL`, which leaves the environment as it is, so for commands whose
output does not change from run to run it is what `EDITOR` alone gives. Neither name
contains a newline, and neither depends on what the static record held before. -/
theorem ffDetectEditor_names (w : World) (static : FFEditorResult) :
    (ffDetectEditor w static).2.visualName = probeName w "VISUAL"
    ∧ (ffDetectEditor w static).2.editorName = probeName (getVisual w static).1 "EDITOR"
    ∧ ((getVisual w static).1.getenv = w.getenv
        ∧ (getVisual w static).1.stdoutOf = w.stdoutOf)
    ∧ ((∀ n m command, w.stdoutOf n command = w.stdoutOf m command) →
        (ffDetectEditor w static).2.editorName = probeName w "EDITOR")
    ∧ '\n' ∉ (ffDetectEditor w static).2.visualName
    ∧ '\n' ∉ (ffDetectEditor w static).2.editorName
    ∧ (∀ other : FFEditorResult,
        (ffDetectEditor w other).2 = (ffDetectEditor w static).2) := by
  have hv : (ffDetectEditor w static).2.visualName = probeName w "VISUAL" := by
    unfold ffDetectEditor
    simp only [getEditor_eq, getVisual_eq]
  have he : (ffDetectEditor w static).2.editorName
      = probeName (getVisual w static).1 "EDITOR" := by
    unfold ffDetectEditor
    simp only [getEditor_eq]
  have henv := getVisual_world_env w static
  refine ⟨hv, he, henv, ?_, ?_, ?_, ?_⟩
  · intro hconst
    rw [he]
    apply probeName_congr _ _ _ henv.1
    intro command
    rw [henv.2]
    exact hconst _ _ _
  · rw [hv]
    exact probeName_no_newline _ _
  · rw [he]
    exact probeName_no_newline _ _
  · intro other
    unfold ffDetectEditor
    simp only [getEditor_eq, getVisual_eq, getVisual_world_static w static other]

theorem ffDetectEditor_names_witness :
    (∀ n m command, steadyWorld.stdoutOf n command = steadyWorld.stdoutOf m command)
    ∧ (ffDetectEditor steadyWorld ⟨[], []⟩).2.editorName = probeName steadyWorld "EDITOR"
    ∧ (ffDetectEditor exampleWorld ⟨"old".toList, "old".toList⟩).2
      = ⟨"VIM 8.2".toList, "GNU nano 6.2".toList⟩ :=
  ⟨fun _ _ _ => rfl,
   (ffDetectEditor_names steadyWorld ⟨[], []⟩).2.2.2.1 (fun _ _ _ => rfl),
   by decide⟩

/-! ## The help of the format options -/

theorem placeholderLoop_eq_none_iff (n i : Nat) (ds : List String) :
    placeholderLoop n i ds = none ↔ ds.length < n := by
  induction n generalizing i ds with
  | zero => simp [placeholderLoop]
  | succ n ih =>
    cases ds with
    | nil => simp [placeholderLoop]
    | cons d ds => simp [placeholderLoop, ih]

theorem placeholderLoop_eq_some (n i : Nat) (ds : List String) (h : n ≤ ds.length) :
    placeholderLoop n i ds
      = some ((List.range n).map (fun k => (i + k, ds.getD k ""))) := by
  induction n generalizing i ds with
  | zero => simp [placeholderLoop]
  | succ n ih =>
    cases ds with
    | nil => simp at h
    | cons d ds =>
      have h1 : n ≤ ds.length := by simpa using h
      rw [placeholderLoop, ih (i + 1) ds h1, List.range_succ_eq_map]
      simp only [Option.map_some', List.map_cons, List.map_map, Nat.add_zero,
        List.getD_cons_zero]
      congr 2
      apply List.map_congr_left
      intro k hk
      simp only [Function.comp, List.getD_cons_succ]
      congr 1
      omega

/-- C37: in `printCommandHelp` the placeholder count differs from the number of
descriptions passed in four calls, those for chassis (4 against 3), wifi (3 against
10), opengl (3 against 4) and gamepad (1 against 2), and is equal in every other call.
For `chassis-format` the loop of `constructAndPrintCommandHelpFormat` calls `va_arg` a
fourth time with three arguments passed, a read past the end; in general the loop reads
past the end exactly when the count exceeds the number of descriptions, and otherwise
prints the first `numArgs` descriptions, numbered from 1. -/
theorem printCommandHelp_counts :
    helpCountMismatches
      = [("chassis", 4, 3), ("wifi", 3, 10), ("opengl", 3, 4), ("gamepad", 1, 2)]
    ∧ (∀ e ∈ helpFormatCalls, e.name ∉ ["chassis", "wifi", "opengl", "gamepad"] →
        e.numArgs = e.descriptions.length)
    ∧ placeholderLoop 4 1 ["chassis type", "chassis vendor", "chassis version"] = none
    ∧ (∃ e ∈ helpFormatCalls, e.name = "chassis"
        ∧ printCommandHelp (some "chassis-format".toList) = .undefinedRead e)
    ∧ (∀ (n i : Nat) (ds : List String), placeholderLoop n i ds = none ↔ ds.length < n)
    ∧ (∀ (n : Nat) (ds : List String), n ≤ ds.length →
        placeholderLoop n 1 ds
          = some ((List.range n).map (fun k => (1 + k, ds.getD k "")))) := by
  refine ⟨by decide, by decide, rfl, ?_, placeholderLoop_eq_none_iff, ?_⟩
  · exact ⟨_, by decide, rfl, rfl⟩
  · intro n ds h
    exact placeholderLoop_eq_some n 1 ds h

/-! ## The editor module -/

theorem ffPrintEditorWith_names (editor : FFEditorResult)
    (h : editor.visualName ≠ [] ∨ editor.editorName ≠ []) :
    ¬ (editor.visualName.length = 0 ∧ editor.editorName.length = 0) := by
  intro hb
  rcases h with h | h
  · exact h (List.length_eq_zero.mp hb.1)
  · exact h (List.length_eq_zero.mp hb.2)

/-- C31: when the detection gives a non-empty `visualName` or `editorName`,
`ffPrintEditor` prints in exactly one of two ways. With an empty `outputFormat` of the
editor record it prints the key and then the default text, `visualName` when that is not
empty and `editorName` otherwise. With a non-empty `outputFormat` it makes the one call
of `ffPrintFormat`, with two arguments, `visualName` first and `editorName` second, the
two placeholders that the help of `editor-format` lists. -/
theorem ffPrintEditor_success (config : FFconfig) (w : World) (static : FFEditorResult)
    (h : (ffDetectEditor w static).2.visualName ≠ []
      ∨ (ffDetectEditor w static).2.editorName ≠ []) :
    ((config.moduleArgs .editor).outputFormat = [] →
      (ffPrintEditor config w static).2.2
        = [.ffPrintLogoAndKey "Editor".toList 0 (config.moduleArgs .editor).key,
           .ffStrbufPutTo
             (if (ffDetectEditor w static).2.visualName ≠ []
              then (ffDetectEditor w static).2.visualName
              else (ffDetectEditor w static).2.editorName)])
    ∧ ((config.moduleArgs .editor).outputFormat ≠ [] →
      (ffPrintEditor config w static).2.2
        = [.ffPrintFormat "Editor".toList 0 (config.moduleArgs .editor) 2
            [(ffDetectEditor w static).2.visualName,
             (ffDetectEditor w static).2.editorName]])
    ∧ printCommandHelp (some "editor-format".toList)
        = .formatHelp
          ["--editor-format:",
           "Sets the format string for editor output.",
           "To see how a format string is constructed, take a look at \"fastfetch --help format\".",
           "The following values are passed:",
           "        \x7b1\x7d: Visual editor name",
           "        \x7b2\x7d: Editor name",
           "The default is something similar to \"\x7b\x7d\"."] := by
  have hb := ffPrintEditorWith_names _ h
  refine ⟨?_, ?_, ?_⟩
  · intro hf
    have hl : (config.moduleArgs .editor).outputFormat.length = 0 := by rw [hf]; rfl
    show ffPrintEditorWith config (ffDetectEditor w static).2 = _
    rw [ffPrintEditorWith, if_neg hb, if_pos hl]
    by_cases hv : (ffDetectEditor w static).2.visualName = []
    · rw [if_neg (by rw [hv]; decide), if_neg (not_not.mpr hv)]
    · rw [if_pos (List.length_pos.mpr hv), if_pos hv]
  · intro hf
    have hl : ¬ (config.moduleArgs .editor).outputFormat.length = 0 :=
      fun hz => hf (List.length_eq_zero.mp hz)
    show ffPrintEditorWith config (ffDetectEditor w static).2 = _
    rw [ffPrintEditorWith, if_neg hb, if_neg hl]
  · rfl

theorem ffPrintEditor_success_witness :
    ((ffDetectEditor exampleWorld ⟨[], []⟩).2.visualName ≠ []
      ∨ (ffDetectEditor exampleWorld ⟨[], []⟩).2.editorName ≠ [])
    ∧ (ffPrintEditor exampleState.inst.config exampleWorld ⟨[], []⟩).2.2
      = [.ffPrintLogoAndKey "Editor".toList 0 [], .ffStrbufPutTo "VIM 8.2".toList]
    ∧ (ffPrintEditor editorFormatConfig exampleWorld ⟨[], []⟩).2.2
      = [.ffPrintFormat "Editor".toList 0 (editorFormatConfig.moduleArgs .editor) 2
          ["VIM 8.2".toList, "GNU nano 6.2".toList]] :=
  ⟨Or.inl (by decide),
   (ffPrintEditor_success exampleState.inst.config exampleWorld ⟨[], []⟩
      (Or.inl (by decide))).1 rfl,
   (ffPrintEditor_success editorFormatConfig exampleWorld ⟨[], []⟩
      (Or.inl (by decide))).2.1 (by decide)⟩

/-- C32: `ffPrintEditor` reports an error row, the call of `ffPrintError` with the editor
record and the message "neither $VISUAL nor $EDITOR is set.", if and only if both names of
the detection result are empty. In that case the error row is all it prints, with no call
on the output side; when a name is not empty no error row is printed. -/
theorem ffPrintEditor_error_row (config : FFconfig) (w : World) (static : FFEditorResult) :
    ((ffPrintEditor config w static).2.2.any EditorPrint.isError = true
      ↔ (ffDetectEditor w static).2.visualName = []
        ∧ (ffDetectEditor w static).2.editorName = [])
    ∧ ((ffDetectEditor w static).2.visualName = []
        ∧ (ffDetectEditor w static).2.editorName = [] →
      (ffPrintEditor config w static).2.2
        = [.ffPrintError "Editor".toList 0 (config.moduleArgs .editor)
            "neither $VISUAL nor $EDITOR is set.".toList]
      ∧ (ffPrintEditor config w static).2.2.any EditorPrint.isOutput = false)
    ∧ (¬ ((ffDetectEditor w static).2.visualName = []
        ∧ (ffDetectEditor w static).2.editorName = []) →
      (ffPrintEditor config w static).2.2.any EditorPrint.isError = false
      ∧ (ffPrintEditor config w static).2.2 ≠ []) := by
  have hboth : ((ffDetectEditor w static).2.visualName = []
        ∧ (ffDetectEditor w static).2.editorName = [] →
      (ffPrintEditor config w static).2.2
        = [.ffPrintError "Editor".toList 0 (config.moduleArgs .editor)
            "neither $VISUAL nor $EDITOR is set.".toList]) := by
    intro hb
    show ffPrintEditorWith config (ffDetectEditor w static).2 = _
    rw [ffPrintEditorWith, if_pos ⟨by rw [hb.1]; rfl, by rw [hb.2]; rfl⟩]
  have hsome : (¬ ((ffDetectEditor w static).2.visualName = []
        ∧ (ffDetectEditor w static).2.editorName = []) →
      (ffPrintEditor config w static).2.2.any EditorPrint.isError = false
      ∧ (ffPrintEditor config w static).2.2 ≠ []) := by
    intro hb
    have hb2 : ¬ ((ffDetectEditor w static).2.visualName.length = 0
        ∧ (ffDetectEditor w static).2.editorName.length = 0) :=
      fun hz => hb ⟨List.length_eq_zero.mp hz.1, List.length_eq_zero.mp hz.2⟩
    show (ffPrintEditorWith config (ffDetectEditor w static).2).any EditorPrint.isError = false
      ∧ ffPrintEditorWith config (ffDetectEditor w static).2 ≠ []
    rw [ffPrintEditorWith, if_neg hb2]
    by_cases hl : (config.moduleArgs .editor).outputFormat.length = 0
    · rw [if_pos hl]
      exact ⟨rfl, List.cons_ne_nil _ _⟩
    · rw [if_neg hl]
      exact ⟨rfl, List.cons_ne_nil _ _⟩
  refine ⟨⟨?_, ?_⟩, ?_, hsome⟩
  · intro he
    by_contra hb
    rw [(hsome hb).1] at he
    cases he
  · intro hb
    rw [hboth hb]
    rfl
  · intro hb
    rw [hboth hb]
    exact ⟨rfl, rfl⟩

theorem ffPrintEditor_error_row_witness :
    ((ffDetectEditor emptyWorld ⟨"old".toList, "old".toList⟩).2.visualName = []
      ∧ (ffDetectEditor emptyWorld ⟨"old".toList, "old".toList⟩).2.editorName = [])
    ∧ (ffPrintEditor editorFormatConfig emptyWorld ⟨"old".toList, "old".toList⟩).2.2
      = [.ffPrintError "Editor".toList 0 (editorFormatConfig.moduleArgs .editor)
          "neither $VISUAL nor $EDITOR is set.".toList]
    ∧ ¬ ((ffDetectEditor exampleWorld ⟨[], []⟩).2.visualName = []
      ∧ (ffDetectEditor exampleWorld ⟨[], []⟩).2.editorName = [])
    ∧ (ffPrintEditor editorFormatConfig exampleWorld ⟨[], []⟩).2.2.any EditorPrint.isError
      = false :=
  ⟨⟨rfl, rfl⟩,
   ((ffPrintEditor_error_row editorFormatConfig emptyWorld ⟨"old".toList, "old".toList⟩).2.1
      ⟨rfl, rfl⟩).1,
   by decide,
   ((ffPrintEditor_error_row editorFormatConfig exampleWorld ⟨[], []⟩).2.2
      (by decide)).1⟩

/-! ## The Format Engine -/

theorem formatRenderFrom_drop (args : List FFformatarg) (pre rest : CStr) (skip : Bool) :
    formatRenderFrom args pre.length skip (pre ++ rest)
      = formatRenderFrom args 0 skip rest := by
  induction pre with
  | nil => rfl
  | cons c pre ih =>
    show formatRenderFrom args (pre.length + 1) skip (c :: (pre ++ rest)) = _
    rw [formatRenderFrom]
    exact ih

theorem formatMarkAt_plain (c : Char) (t : CStr) (hc : isPlain c = true) :
    formatMarkAt (c :: t) = none := by
  have h1 : c ≠ Char.ofNat 123 := by
    intro h; rw [h] at hc; exact absurd hc (by decide)
  have h2 : c ≠ ']' := by
    intro h; rw [h] at hc; exact absurd hc (by decide)
  unfold formatMarkAt
  rw [if_neg, if_pos]
  · simp only [List.head?_cons, ne_eq, Option.some.injEq]
    exact h1
  · intro h
    cases t with
    | nil => simp at h
    | cons a t =>
      have h5 := congrArg List.head? h
      rw [show ("]\x7b?\x7d".toList).head? = some ']' from rfl] at h5
      simp only [List.take_succ_cons, List.head?_cons, Option.some.injEq] at h5
      exact h2 h5

theorem isdigit_not_mark (c : Char) (h : isdigit c = true) :
    c ≠ '?' ∧ c ≠ Char.ofNat 125 ∧ c ≠ Char.ofNat 123 ∧ c ≠ ']' := by
  refine ⟨?_, ?_, ?_, ?_⟩ <;>
  · intro hc
    rw [hc] at h
    exact absurd h (by decide)

theorem takeWhile_digits (ds rest : CStr) (c : Char) (hd : ds.all isdigit = true)
    (hc : isdigit c = false) :
    (ds ++ c :: rest).takeWhile isdigit = ds
    ∧ (ds ++ c :: rest).dropWhile isdigit = c :: rest := by
  induction ds with
  | nil => simp [List.takeWhile, List.dropWhile, hc]
  | cons a ds ih =>
    simp only [List.all_cons, Bool.and_eq_true] at hd
    have ih2 := ih hd.2
    simp [List.takeWhile_cons, List.dropWhile_cons, hd.1, ih2]

theorem isIndex_iff (ds : CStr) : isIndex ds = true ↔ ds ≠ [] ∧ ds.all isdigit = true := by
  unfold isIndex
  cases ds with
  | nil => simp
  | cons a t => simp

theorem formatMarkAt_index (ds rest : CStr) (h : isIndex ds = true) :
    formatMarkAt ([Char.ofNat 123] ++ ds ++ [Char.ofNat 125] ++ rest)
      = some (.index (digitsValue ds), ds.length + 2) := by
  obtain ⟨hne, hd⟩ := (isIndex_iff ds).mp h
  obtain ⟨ht, hdr⟩ := takeWhile_digits ds rest (Char.ofNat 125) hd (by decide)
  obtain ⟨a, t, rfl⟩ := List.exists_cons_of_ne_nil hne
  have ha : isdigit a = true := by
    simp only [List.all_cons, Bool.and_eq_true] at hd
    exact hd.1
  obtain ⟨hq, -, hb, -⟩ := isdigit_not_mark a ha
  have hshape : [Char.ofNat 123] ++ (a :: t) ++ [Char.ofNat 125] ++ rest
      = Char.ofNat 123 :: ((a :: t) ++ Char.ofNat 125 :: rest) := by
    simp
  rw [hshape]
  unfold formatMarkAt
  rw [if_neg, if_neg, if_neg, if_pos]
  · simp only [List.drop_succ_cons, List.drop_zero, ht]
  · simp only [List.drop_succ_cons, List.drop_zero, ht, hdr]
    exact ⟨List.cons_ne_nil _ _, rfl⟩
  · simp only [List.drop_succ_cons, List.drop_zero, List.cons_append, List.head?_cons,
      Option.some.injEq]
    exact hq
  · simp only [List.head?_cons, ne_eq, not_true_eq_false, not_false_eq_true]
  · intro h4
    have := congrArg List.head? h4
    simp only [List.take_succ_cons, List.head?_cons, Option.some.injEq] at this
    exact absurd this (by decide)

theorem formatMarkAt_ifPresent (ds rest : CStr) (h : isIndex ds = true) :
    formatMarkAt ("\x7b?".toList ++ ds ++ "\x7d[".toList ++ rest)
      = some (.ifPresent (digitsValue ds), ds.length + 4) := by
  obtain ⟨hne, hd⟩ := (isIndex_iff ds).mp h
  obtain ⟨ht, hdr⟩ := takeWhile_digits ds ('[' :: rest) (Char.ofNat 125) hd (by decide)
  have hshape : "\x7b?".toList ++ ds ++ "\x7d[".toList ++ rest
      = Char.ofNat 123 :: '?' :: (ds ++ Char.ofNat 125 :: '[' :: rest) := by
    show (Char.ofNat 123 :: '?' :: []) ++ ds ++ (Char.ofNat 125 :: '[' :: []) ++ rest = _
    simp
  rw [hshape]
  unfold formatMarkAt
  rw [if_neg, if_neg, if_pos, if_pos]
  · simp only [List.drop_succ_cons, List.drop_zero, ht]
  · simp only [List.drop_succ_cons, List.drop_zero, ht, hdr]
    exact ⟨hne, rfl⟩
  · rfl
  · simp only [List.head?_cons, ne_eq, not_true_eq_false, not_false_eq_true]
  · intro h4
    have := congrArg List.head? h4
    simp only [List.take_succ_cons, List.head?_cons, Option.some.injEq] at this
    exact absurd this (by decide)

theorem formatMarkAt_endIf (rest : CStr) :
    formatMarkAt ("]\x7b?\x7d".toList ++ rest) = some (.endIf, 4) := by
  unfold formatMarkAt
  rw [if_pos]
  rfl

theorem formatRenderFrom_text (args : List FFformatarg) (s rest : CStr) (skip : Bool)
    (hs : s.all isPlain = true) :
    formatRenderFrom args 0 skip (s ++ rest)
      = (if skip then [] else s) ++ formatRenderFrom args 0 skip rest := by
  induction s with
  | nil => cases skip <;> rfl
  | cons c s ih =>
    simp only [List.all_cons, Bool.and_eq_true] at hs
    show formatRenderFrom args 0 skip (c :: (s ++ rest)) = _
    rw [formatRenderFrom, formatMarkAt_plain c _ hs.1]
    simp only
    rw [ih hs.2]
    cases skip <;> simp

theorem formatRenderFrom_item (args : List FFformatarg) (i : FormatItem) (rest : CStr)
    (skip : Bool) (hi : i.wellFormed = true) :
    formatRenderFrom args 0 skip (i.source ++ rest)
      = (if skip then [] else i.value args) ++ formatRenderFrom args 0 skip rest := by
  cases i with
  | text s => exact formatRenderFrom_text args s rest skip hi
  | argument ds =>
    have hm := formatMarkAt_index ds rest hi
    show formatRenderFrom args 0 skip ([Char.ofNat 123] ++ ds ++ [Char.ofNat 125] ++ rest) = _
    have hshape : [Char.ofNat 123] ++ ds ++ [Char.ofNat 125] ++ rest
        = Char.ofNat 123 :: ((ds ++ [Char.ofNat 125]) ++ rest) := by simp
    rw [hshape] at hm ⊢
    rw [formatRenderFrom, hm]
    simp only
    have hl : ds.length + 2 - 1 = (ds ++ [Char.ofNat 125]).length := by simp
    rw [hl, formatRenderFrom_drop]
    rfl

theorem formatRenderFrom_items (args : List FFformatarg) (body : List FormatItem)
    (rest : CStr) (skip : Bool) (hb : body.all FormatItem.wellFormed = true) :
    formatRenderFrom args 0 skip ((body.map FormatItem.source).flatten ++ rest)
      = (if skip then [] else (body.map (FormatItem.value args)).flatten)
        ++ formatRenderFrom args 0 skip rest := by
  induction body with
  | nil => cases skip <;> rfl
  | cons i body ih =>
    simp only [List.all_cons, Bool.and_eq_true] at hb
    simp only [List.map_cons, List.flatten_cons, List.append_assoc]
    rw [formatRenderFrom_item args i _ skip hb.1, ih hb.2]
    cases skip <;> simp

theorem formatRenderFrom_piece (args : List FFformatarg) (p : FormatPiece) (rest : CStr)
    (hp : p.wellFormed = true) :
    formatRenderFrom args 0 false (p.source ++ rest)
      = p.value args ++ formatRenderFrom args 0 false rest := by
  cases p with
  | item i => exact formatRenderFrom_item args i rest false hp
  | conditional ds body =>
    simp only [FormatPiece.wellFormed, Bool.and_eq_true] at hp
    have hm := formatMarkAt_ifPresent ds
      ((body.map FormatItem.source).flatten ++ "]\x7b?\x7d".toList ++ rest) hp.1
    have hshape : (FormatPiece.conditional ds body).source ++ rest
        = Char.ofNat 123 :: (('?' :: (ds ++ [Char.ofNat 125, '[']))
            ++ ((body.map FormatItem.source).flatten ++ ("]\x7b?\x7d".toList ++ rest))) := by
      show (Char.ofNat 123 :: '?' :: []) ++ ds ++ (Char.ofNat 125 :: '[' :: [])
        ++ (body.map FormatItem.source).flatten ++ "]\x7b?\x7d".toList ++ rest = _
      simp
    have hshape2 : "\x7b?".toList ++ ds ++ "\x7d[".toList
          ++ ((body.map FormatItem.source).flatten ++ "]\x7b?\x7d".toList ++ rest)
        = Char.ofNat 123 :: (('?' :: (ds ++ [Char.ofNat 125, '[']))
            ++ ((body.map FormatItem.source).flatten ++ ("]\x7b?\x7d".toList ++ rest))) := by
      show (Char.ofNat 123 :: '?' :: []) ++ ds ++ (Char.ofNat 125 :: '[' :: [])
        ++ ((body.map FormatItem.source).flatten ++ "]\x7b?\x7d".toList ++ rest) = _
      simp
    rw [hshape2] at hm
    rw [hshape, formatRenderFrom, hm]
    simp only
    have hl : ds.length + 4 - 1 = ('?' :: (ds ++ [Char.ofNat 125, '['])).length := by simp
    rw [hl, formatRenderFrom_drop, formatRenderFrom_items args body _ _ hp.2]
    have hend : formatRenderFrom args 0 (!argumentPresent args (digitsValue ds))
        ("]\x7b?\x7d".toList ++ rest) = formatRenderFrom args 0 false rest := by
      have he := formatMarkAt_endIf rest
      show formatRenderFrom args 0 _ (']' :: ("\x7b?\x7d".toList ++ rest)) = _
      rw [formatRenderFrom]
      rw [show ']' :: ("\x7b?\x7d".toList ++ rest) = "]\x7b?\x7d".toList ++ rest from rfl, he]
      exact formatRenderFrom_drop args "\x7b?\x7d".toList rest false
    rw [hend]
    show _ = (if argumentPresent args (digitsValue ds) = true
      then (body.map (FormatItem.value args)).flatten else []) ++ _
    cases argumentPresent args (digitsValue ds) <;> rfl

theorem formatRender_pieces (args : List FFformatarg) (pieces : List FormatPiece)
    (rest : CStr) (h : pieces.all FormatPiece.wellFormed = true) :
    formatRenderFrom args 0 false ((pieces.map FormatPiece.source).flatten ++ rest)
      = (pieces.map (FormatPiece.value args)).flatten ++ formatRenderFrom args 0 false rest := by
  induction pieces with
  | nil => rfl
  | cons p pieces ih =>
    simp only [List.all_cons, Bool.and_eq_true] at h
    simp only [List.map_cons, List.flatten_cons, List.append_assoc]
    rw [formatRenderFrom_piece args p _ h.1, ih h.2]

/-- C34: for every template made of plain text, placeholders and conditional blocks, and
for every list of arguments, the Format Engine copies the text, replaces a placeholder
by the textual form of the argument with that index, counted from 1 and empty when there
is no such argument, and emits the content of a block, without its delimiters, only
when the argument of the block is present, leaving the block out otherwise. The template
of the example renders "X ()" for the arguments "X" and the empty string, and "X (v2)"
for "X" and "v2". -/
theorem formatRender_spec (args : List FFformatarg) (pieces : List FormatPiece)
    (h : pieces.all FormatPiece.wellFormed = true) :
    formatRender (pieces.map FormatPiece.source).flatten args
      = (pieces.map (FormatPiece.value args)).flatten
    ∧ (∀ n, args.length < n → argumentText args n = [] ∧ argumentPresent args n = false)
    ∧ (∀ n a, args.get? n = some a → argumentText args (n + 1) = a.text
        ∧ argumentPresent args (n + 1) = a.present)
    ∧ (exampleTemplate.map FormatPiece.source).flatten
        = "\x7b1\x7d (\x7b?2\x7d[\x7b2\x7d]\x7b?\x7d)".toList
    ∧ formatRender "\x7b1\x7d (\x7b?2\x7d[\x7b2\x7d]\x7b?\x7d)".toList
        [.string "X".toList, .string []] = "X ()".toList
    ∧ formatRender "\x7b1\x7d (\x7b?2\x7d[\x7b2\x7d]\x7b?\x7d)".toList
        [.string "X".toList, .string "v2".toList] = "X (v2)".toList := by
  refine ⟨?_, ?_, ?_, by decide, by decide, by decide⟩
  · have h1 := formatRender_pieces args pieces [] h
    rw [List.append_nil] at h1
    unfold formatRender
    rw [h1]
    exact List.append_nil _
  · intro n hn
    have h0 : n ≠ 0 := by omega
    have hnone : args.get? (n - 1) = none := List.get?_eq_none.mpr (by omega)
    unfold argumentText argumentPresent
    rw [if_neg h0, if_neg h0, hnone]
    exact ⟨rfl, rfl⟩
  · intro n a hn
    unfold argumentText argumentPresent
    rw [if_neg (Nat.succ_ne_zero n), if_neg (Nat.succ_ne_zero n), Nat.add_sub_cancel, hn]
    exact ⟨rfl, rfl⟩

theorem formatRender_spec_witness :
    exampleTemplate.all FormatPiece.wellFormed = true
    ∧ formatRender (exampleTemplate.map FormatPiece.source).flatten
        [.string "X".toList, .number 0]
      = (exampleTemplate.map
          (FormatPiece.value [.string "X".toList, .number 0])).flatten :=
  ⟨by decide, (formatRender_spec [.string "X".toList, .number 0] exampleTemplate
    (by decide)).1⟩

end Fastfetch
